import Mathlib

/-!
# Stream transport over a UNIX file descriptor (dbus-transport-unix.c)

A shallow embedding of `dbus/dbus-transport-unix.c`.  The transport is a record
of the fields of `DBusTransportUnix` (with the fields of its `DBusTransport`
base); every call that leaves the translated file (socket, auth engine,
connection, loader, watch) appends an `Event` to a chronological trace, and the
answers of the outside world are read from an `Env` of oracles that may depend
on the whole history so far.  Loops that the C code does not bound take a fuel
argument counting loop bodies; `none` means the fuel ran out.

C `int` values are `Int`; lengths of byte strings are `Nat`.  Message sizes are
far below `2^31`, so no wrap-around is modelled.
-/

namespace DBus

/-! ## Data model -/

/-- One octet of a `DBusString`. -/
abbrev Byte := Nat

/-- The `errno` values the transport distinguishes; `EOTHER` stands for every
other (fatal) code such as `EPIPE` or `ECONNRESET`. -/
inductive Errno where
  | EAGAIN
  | EWOULDBLOCK
  | ENOMEM
  | EINTR
  | EOTHER (code : Nat)
deriving DecidableEq, Repr

/-- Values of `DBusAuthState` as named in the `switch` of `do_authentication`. -/
inductive DBusAuthState where
  | WAITING_FOR_INPUT
  | WAITING_FOR_MEMORY
  | HAVE_BYTES_TO_SEND
  | NEED_DISCONNECT
  | AUTHENTICATED
deriving DecidableEq, Repr

/-- Result of `_dbus_read`: the bytes appended to the buffer (the return value
is their number, `0` meaning end of file), or `-1` with an `errno`. -/
inductive ReadResult where
  | data (bs : List Byte)
  | err (e : Errno)
deriving DecidableEq, Repr

/-- Result of `_dbus_write` / `_dbus_write_two`: the number of bytes accepted,
or `-1` with an `errno`. -/
inductive WriteResult where
  | wrote (n : Nat)
  | err (e : Errno)
deriving DecidableEq, Repr

/-- Result of `_dbus_poll` on one descriptor: a non-negative return value with
the reported `revents`, or `-1` with an `errno`. -/
inductive PollResult where
  | ready (res : Nat) (revents : Nat)
  | err (e : Errno)
deriving DecidableEq, Repr

/-- A `DBusWatch` object: `id` is the identity of the object (its address). -/
structure DBusWatch where
  id : Nat
  fd : Int
  flags : Nat
  enabled : Bool
deriving DecidableEq, Repr

/-- A `DBusMessage` as seen by the transport through
`_dbus_message_get_network_data`: its serialized header and body. -/
structure DBusMessage where
  header : List Byte
  body : List Byte
deriving DecidableEq, Repr

/-- Every call that leaves `dbus-transport-unix.c`, with the arguments the
transport passed and the answer it got. -/
inductive Event where
  | sock_read (fd : Int) (count : Int) (res : ReadResult)
  | sock_write (fd : Int) (offered : List Byte) (res : WriteResult)
  | sock_write_two (fd : Int) (offered1 offered2 : List Byte) (res : WriteResult)
  | send_credentials (fd : Int) (ok : Bool)
  | read_credentials (fd : Int) (ok : Bool)
  | sock_close (fd : Int)
  | poll (fd : Int) (events : Nat) (timeout : Int) (res : PollResult)
  | add_watch (watch : Nat) (ok : Bool)
  | remove_watch (watch : Nat)
  | toggle_watch (watch : Nat) (enabled : Bool)
  | watch_set_handler (watch : Nat)
  | watch_invalidate (watch : Nat)
  | watch_unref (watch : Nat)
  | get_message_to_send
  | message_lock (m : DBusMessage)
  | message_sent (m : DBusMessage)
  | connection_lock
  | connection_unlock
  | auth_do_work (st : DBusAuthState)
  | auth_get_buffer
  | auth_return_buffer (n : Int)
  | auth_get_bytes_to_send
  | auth_bytes_sent (n : Int)
  | auth_set_credentials
  | auth_encode (src : List Byte) (ok : Bool)
  | auth_decode (src : List Byte) (ok : Bool)
  | loader_get_buffer
  | loader_return_buffer (n : Int)
  | queue_messages (need_memory : Bool)
  | assert_failed (line : Nat)
deriving DecidableEq, Repr

/-- The outside world.  Each oracle sees the history of the interaction so far
(and the arguments that matter) and decides the answer of the next call. -/
structure Env where
  /-- Answer of `_dbus_read (fd, buffer, count)`. -/
  sock_read : List Event → Int → ReadResult
  /-- Answer of `_dbus_write` / `_dbus_write_two` given the number of bytes offered. -/
  sock_write : List Event → Nat → WriteResult
  /-- Answer of `_dbus_send_credentials_unix_socket`. -/
  send_credentials : List Event → Bool
  /-- Answer of `_dbus_read_credentials_unix_socket`. -/
  read_credentials : List Event → Bool
  /-- Answer of `_dbus_poll` for descriptor, requested events and timeout. -/
  poll : List Event → Int → Nat → Int → PollResult
  /-- Answer of `_dbus_auth_do_work`. -/
  auth_do_work : List Event → DBusAuthState
  /-- Answer of `_dbus_auth_get_bytes_to_send`. -/
  auth_bytes_to_send : List Event → Option (List Byte)
  /-- Answer of `_dbus_auth_encode_data`: success flag and bytes appended to the destination. -/
  auth_encode : List Event → List Byte → Bool × List Byte
  /-- Answer of `_dbus_auth_decode_data`: success flag and bytes appended to the destination. -/
  auth_decode : List Event → List Byte → Bool × List Byte
  /-- Answer of `_dbus_connection_add_watch`. -/
  add_watch : List Event → Bool
  /-- Answer of `_dbus_transport_queue_messages`: whether it reports
  `DBUS_DISPATCH_NEED_MEMORY`, and the value of the live-messages counter afterwards. -/
  queue_messages : List Event → Bool × Int

/-- The fields of `struct DBusTransportUnix`, preceded by those of its base
`DBusTransport` that the file reads or writes. -/
structure DBusTransportUnix where
  refcount : Int
  /-- Whether `transport->connection` is non-NULL. -/
  connection : Bool
  disconnected : Bool
  authenticated : Bool
  is_server : Bool
  messages_need_sending : Bool
  send_credentials_pending : Bool
  receive_credentials_pending : Bool
  live_messages_size : Int
  max_live_messages_size : Int
  fd : Int
  read_watch : Option DBusWatch
  write_watch : Option DBusWatch
  max_bytes_read_per_iteration : Int
  max_bytes_written_per_iteration : Int
  message_bytes_written : Int
  encoded_outgoing : List Byte
  encoded_incoming : List Byte
deriving DecidableEq, Repr

/-- What the transport can observe of its `DBusAuth`. -/
structure DBusAuth where
  needs_encoding : Bool
  needs_decoding : Bool
deriving DecidableEq, Repr

/-- What the transport can observe of its `DBusConnection`: the outbound queue
(oldest message first) and the watches installed in it. -/
structure DBusConnection where
  outgoing : List DBusMessage
  watches : List Nat
deriving DecidableEq, Repr

/-- The transport together with its collaborators and the trace of calls. -/
structure World where
  t : DBusTransportUnix
  auth : DBusAuth
  conn : DBusConnection
  /-- Contents of the message loader's buffer. -/
  loader : List Byte
  trace : List Event
deriving DecidableEq, Repr

/-- Outcome of one pass through the body of a loop: go round again with the
running byte total, or leave through `out` with the OOM flag. -/
inductive LoopStep where
  | next (w : World) (total : Int)
  | out (w : World) (oom : Bool)

/-! ## Flag constants -/

/-- Modelled from the spec: `DBUS_WATCH_READABLE` of `dbus-connection.h` (absent
here), one bit of the readiness flag set. -/
def DBUS_WATCH_READABLE : Nat := 1
/-- Modelled from the spec: `DBUS_WATCH_WRITABLE`, one bit of the readiness flag set. -/
def DBUS_WATCH_WRITABLE : Nat := 2
/-- Modelled from the spec: `DBUS_ITERATION_DO_WRITING` of
`dbus-connection-internal.h` (absent here), one bit of the iteration flags. -/
def DBUS_ITERATION_DO_WRITING : Nat := 1
/-- Modelled from the spec: `DBUS_ITERATION_DO_READING`, one bit of the iteration flags. -/
def DBUS_ITERATION_DO_READING : Nat := 2
/-- Modelled from the spec: `DBUS_ITERATION_BLOCK`, one bit of the iteration flags. -/
def DBUS_ITERATION_BLOCK : Nat := 4

/-- Modelled from the spec: `_DBUS_POLLIN` of `dbus-sysdeps.h` (absent here). -/
def _DBUS_POLLIN : Nat := 1
/-- Modelled from the spec: `_DBUS_POLLOUT` of `dbus-sysdeps.h` (absent here). -/
def _DBUS_POLLOUT : Nat := 4
/-- Modelled from the spec: `_DBUS_POLLERR` of `dbus-sysdeps.h` (absent here). -/
def _DBUS_POLLERR : Nat := 8

/-! ## Collaborators (outside dbus-transport-unix.c) -/

/-- Append one call to the trace. -/
def emit (e : Event) (w : World) : World :=
  { w with trace := w.trace ++ [e] }

/-- The C expression `(flags & bit)` used as a condition. -/
def flag_set (flags bit : Nat) : Bool :=
  (flags &&& bit) != 0

/-- Modelled from the spec: `_dbus_transport_ref` of `dbus-transport.c` (absent
here): the method takes an extra reference to the transport on entry. -/
def _dbus_transport_ref (w : World) : World :=
  { w with t := { w.t with refcount := w.t.refcount + 1 } }

/-- Modelled from the spec: `_dbus_transport_unref` of `dbus-transport.c`
(absent here): the method drops its extra reference on exit; the count does
not reach zero inside a call, the connection holds a reference. -/
def _dbus_transport_unref (w : World) : World :=
  { w with t := { w.t with refcount := w.t.refcount - 1 } }

/-- Modelled from the spec: `_dbus_auth_do_work` of `dbus-auth.c` (absent
here): `do_work() → state`, answered by the outside world. -/
def _dbus_auth_do_work (env : Env) (w : World) : DBusAuthState × World :=
  let st := env.auth_do_work w.trace
  (st, emit (.auth_do_work st) w)

/-- Modelled from the spec: `_dbus_transport_get_is_authenticated` of
`dbus-transport.c` (absent here).  Authenticated is the terminal success state;
a connected transport enters it when the credentials have been exchanged (both
pending flags clear) and the auth engine, asked for its state, reports
`authenticated`; a disconnected transport makes no transition. -/
def _dbus_transport_get_is_authenticated (env : Env) (w : World) : Bool × World :=
  if w.t.authenticated then (true, w)
  else if w.t.disconnected then (false, w)
  else if w.t.send_credentials_pending || w.t.receive_credentials_pending then (false, w)
  else
    let r := _dbus_auth_do_work env w
    let a := r.1 == DBusAuthState.AUTHENTICATED
    (a, { r.2 with t := { r.2.t with authenticated := a } })

/-- Modelled from the spec: `_dbus_transport_get_is_connected` of
`dbus-transport.c` (absent here): the transport is connected until
`disconnected` is set. -/
def _dbus_transport_get_is_connected (w : World) : Bool :=
  !w.t.disconnected

/-- Modelled from the spec: `dbus_watch_get_enabled` of `dbus-watch.c` (absent
here): the enabled flag of the watch.  A NULL watch (which the C code never
passes while connected) reads as disabled. -/
def dbus_watch_get_enabled (watch : Option DBusWatch) : Bool :=
  match watch with
  | some x => x.enabled
  | none => false

/-- Modelled from the spec: `_dbus_connection_toggle_watch` (absent here): the
connection sets the enabled flag of the watch.  Returns the watch as updated. -/
def _dbus_connection_toggle_watch (watch : Option DBusWatch) (enabled : Bool) (w : World) :
    Option DBusWatch × World :=
  match watch with
  | none => (none, w)
  | some x => (some { x with enabled := enabled }, emit (.toggle_watch x.id enabled) w)

/-- Modelled from the spec: `_dbus_connection_remove_watch` (absent here): the
watch leaves the connection's event loop. -/
def _dbus_connection_remove_watch (x : DBusWatch) (w : World) : World :=
  emit (.remove_watch x.id) { w with conn := { w.conn with watches := w.conn.watches.erase x.id } }

/-- Modelled from the spec: `_dbus_connection_have_messages_to_send` (absent here). -/
def _dbus_connection_have_messages_to_send (w : World) : Bool :=
  !w.conn.outgoing.isEmpty

/-- Modelled from the spec: `_dbus_connection_get_message_to_send` (absent
here): peek the head of the outbound queue. -/
def _dbus_connection_get_message_to_send (w : World) : Option DBusMessage × World :=
  (w.conn.outgoing.head?, emit .get_message_to_send w)

/-- Modelled from the spec: `_dbus_connection_message_sent` (absent here):
`message_sent(message)` pops the queue. -/
def _dbus_connection_message_sent (m : DBusMessage) (w : World) : World :=
  emit (.message_sent m) { w with conn := { w.conn with outgoing := w.conn.outgoing.tail } }

/-- Modelled from the spec: `_dbus_auth_encode_data (auth, src,
&encoded_outgoing)` of `dbus-auth.c` (absent here): appends what the auth
engine produced to `encoded_outgoing` and reports success. -/
def _dbus_auth_encode_data (env : Env) (src : List Byte) (w : World) : Bool × World :=
  let r := env.auth_encode w.trace src
  (r.1, emit (.auth_encode src r.1)
          { w with t := { w.t with encoded_outgoing := w.t.encoded_outgoing ++ r.2 } })

/-- Modelled from the spec: `_dbus_auth_decode_data (auth, &encoded_incoming,
buffer)` of `dbus-auth.c` (absent here), with `buffer` the loader's buffer:
appends what the auth engine produced to it and reports success. -/
def _dbus_auth_decode_data (env : Env) (w : World) : Bool × World :=
  let r := env.auth_decode w.trace w.t.encoded_incoming
  (r.1, emit (.auth_decode w.t.encoded_incoming r.1) { w with loader := w.loader ++ r.2 })

/-- The byte range `[start, start + len)` of a string, as handed to
`_dbus_write`; a negative `start` or `len`, which the C code never passes,
reads as `0`. -/
def string_range (s : List Byte) (start len : Int) : List Byte :=
  (s.drop start.toNat).take len.toNat

/-- Modelled from the spec: `_dbus_write (fd, buffer, start, len)` of
`dbus-sysdeps.c` (absent here): offers the byte range to the socket, which
answers with the number of bytes it accepted or an error. -/
def _dbus_write (env : Env) (buffer : List Byte) (start len : Int) (w : World) :
    WriteResult × World :=
  let offered := string_range buffer start len
  let res := env.sock_write w.trace offered.length
  (res, emit (.sock_write w.t.fd offered res) w)

/-- Modelled from the spec: `_dbus_write_two (fd, buffer1, start1, len1,
buffer2, start2, len2)` of `dbus-sysdeps.c` (absent here): offers the two
ranges as one send; the answer counts bytes across the two ranges in order. -/
def _dbus_write_two (env : Env) (buffer1 : List Byte) (start1 len1 : Int)
    (buffer2 : List Byte) (start2 len2 : Int) (w : World) : WriteResult × World :=
  let offered1 := string_range buffer1 start1 len1
  let offered2 := string_range buffer2 start2 len2
  let res := env.sock_write w.trace (offered1.length + offered2.length)
  (res, emit (.sock_write_two w.t.fd offered1 offered2 res) w)

/-- The `int` a read returns. -/
def ReadResult.count : ReadResult → Int
  | .data bs => bs.length
  | .err _ => -1

/-- The bytes a read appended to its buffer. -/
def ReadResult.bytes : ReadResult → List Byte
  | .data bs => bs
  | .err _ => []

/-! ## dbus-transport-unix.c -/

/-- Lines 69-93, `free_watches`. -/
def free_watches (w : World) : World :=
  let w1 :=
    match w.t.read_watch with
    | some rw =>
      let a := if w.t.connection then _dbus_connection_remove_watch rw w else w
      let b := emit (.watch_invalidate rw.id) a
      let c := emit (.watch_unref rw.id) b
      { c with t := { c.t with read_watch := none } }
    | none => w
  match w1.t.write_watch with
  | some ww =>
    let a := if w1.t.connection then _dbus_connection_remove_watch ww w1 else w1
    let b := emit (.watch_invalidate ww.id) a
    let c := emit (.watch_unref ww.id) b
    { c with t := { c.t with write_watch := none } }
  | none => w1

/-- Lines 775-784, `unix_disconnect`. -/
def unix_disconnect (w : World) : World :=
  let w1 := free_watches w
  let w2 := emit (.sock_close w1.t.fd) w1
  { w2 with t := { w2.t with fd := -1 } }

/-- Modelled from the spec: `_dbus_transport_disconnect` of `dbus-transport.c`
(absent here).  Idempotent: on a transport not yet disconnected it runs the
`disconnect` operation of the vtable (`unix_disconnect`) and sets
`disconnected`; on a disconnected one it does nothing. -/
def _dbus_transport_disconnect (w : World) : World :=
  if w.t.disconnected then w
  else
    let w1 := unix_disconnect (_dbus_transport_ref w)
    _dbus_transport_unref { w1 with t := { w1.t with disconnected := true } }

/-- Lines 113-141, `check_write_watch`. -/
def check_write_watch (env : Env) (w : World) : World :=
  if !w.t.connection then w
  else if w.t.disconnected then
    (if w.t.write_watch.isSome then emit (.assert_failed 124) w else w)
  else
    let w1 := _dbus_transport_ref w
    let a := _dbus_transport_get_is_authenticated env w1
    let need : Bool × World :=
      if a.1 then (a.2.t.messages_need_sending, a.2)
      else if a.2.t.send_credentials_pending then (true, a.2)
      else
        let r := _dbus_auth_do_work env a.2
        (r.1 == DBusAuthState.HAVE_BYTES_TO_SEND, r.2)
    let tg := _dbus_connection_toggle_watch need.2.t.write_watch need.1 need.2
    _dbus_transport_unref { tg.2 with t := { tg.2.t with write_watch := tg.1 } }

/-- Lines 143-172, `check_read_watch`. -/
def check_read_watch (env : Env) (w : World) : World :=
  if !w.t.connection then w
  else if w.t.disconnected then
    (if w.t.read_watch.isSome then emit (.assert_failed 154) w else w)
  else
    let w1 := _dbus_transport_ref w
    let a := _dbus_transport_get_is_authenticated env w1
    let need : Bool × World :=
      if a.1 then (decide (a.2.t.live_messages_size < a.2.t.max_live_messages_size), a.2)
      else if a.2.t.receive_credentials_pending then (true, a.2)
      else
        let r := _dbus_auth_do_work env a.2
        (r.1 == DBusAuthState.WAITING_FOR_INPUT, r.2)
    let tg := _dbus_connection_toggle_watch need.2.t.read_watch need.1 need.2
    _dbus_transport_unref { tg.2 with t := { tg.2.t with read_watch := tg.1 } }

/-- Lines 174-180, `do_io_error`. -/
def do_io_error (w : World) : World :=
  _dbus_transport_unref (_dbus_transport_disconnect (_dbus_transport_ref w))

/-- Lines 183-236, `read_data_into_auth`.  Returns whether new data was read,
the value stored in `*oom`, and the world. -/
def read_data_into_auth (env : Env) (w : World) : Bool × Bool × World :=
  let w1 := emit .auth_get_buffer w
  let res := env.sock_read w1.trace w1.t.max_bytes_read_per_iteration
  let w2 := emit (.sock_read w1.t.fd w1.t.max_bytes_read_per_iteration res) w1
  let bytes_read := res.count
  let w3 := emit (.auth_return_buffer (if bytes_read > 0 then bytes_read else 0)) w2
  if bytes_read > 0 then (true, false, w3)
  else if bytes_read < 0 then
    match res with
    | .err .ENOMEM => (false, true, w3)
    | .err .EAGAIN => (false, false, w3)
    | .err .EWOULDBLOCK => (false, false, w3)
    | _ => (false, false, do_io_error w3)
  else
    (false, false, do_io_error w3)

/-- Lines 239-275, `write_data_from_auth`.  Returns whether any bytes were written. -/
def write_data_from_auth (env : Env) (w : World) : Bool × World :=
  let w1 := emit .auth_get_bytes_to_send w
  match env.auth_bytes_to_send w.trace with
  | none => (false, w1)
  | some buffer =>
    let r := _dbus_write env buffer 0 buffer.length w1
    match r.1 with
    | .wrote n =>
      if n > 0 then (true, emit (.auth_bytes_sent n) r.2)
      else (false, r.2)
    | .err .EAGAIN => (false, r.2)
    | .err .EWOULDBLOCK => (false, r.2)
    | .err _ => (false, do_io_error r.2)

/-- Lines 277-319, `exchange_credentials`. -/
def exchange_credentials (env : Env) (do_reading do_writing : Bool) (w : World) : World :=
  let w1 :=
    if do_writing && w.t.send_credentials_pending then
      let ok := env.send_credentials w.trace
      let a := emit (.send_credentials w.t.fd ok) w
      if ok then { a with t := { a.t with send_credentials_pending := false } }
      else do_io_error a
    else w
  let w2 :=
    if do_reading && w1.t.receive_credentials_pending then
      let ok := env.read_credentials w1.trace
      let a := emit (.read_credentials w1.t.fd ok) w1
      if ok then { a with t := { a.t with receive_credentials_pending := false } }
      else do_io_error a
    else w1
  if !(w2.t.send_credentials_pending || w2.t.receive_credentials_pending) then
    emit .auth_set_credentials w2
  else w2

/-- Lines 335-380: one pass through the body of the `while` loop of
`do_authentication`; `total` is unused and stays `0`. -/
def do_authentication_pass (env : Env) (do_reading do_writing : Bool) (w : World) : LoopStep :=
  let w1 := exchange_credentials env do_reading do_writing w
  if w1.t.send_credentials_pending || w1.t.receive_credentials_pending then .out w1 false
  else
    let r := _dbus_auth_do_work env w1
    match r.1 with
    | .WAITING_FOR_INPUT =>
      if !do_reading then .out r.2 false
      else
        let rd := read_data_into_auth env r.2
        if !rd.1 then .out rd.2.2 rd.2.1 else .next rd.2.2 0
    | .WAITING_FOR_MEMORY => .out r.2 true
    | .HAVE_BYTES_TO_SEND =>
      if !do_writing then .out r.2 false
      else
        let wr := write_data_from_auth env r.2
        if !wr.1 then .out wr.2 false else .next wr.2 0
    | .NEED_DISCONNECT => .next (do_io_error r.2) 0
    | .AUTHENTICATED => .next r.2 0

/-- Lines 332-381: the `while` loop of `do_authentication`, with the world and
the OOM flag at the label `out`.  The fuel counts passes through the body. -/
def do_authentication_loop (env : Env) (do_reading do_writing : Bool) :
    Nat → World → Option (World × Bool)
  | fuel, w =>
    let a := _dbus_transport_get_is_authenticated env w
    if a.1 then some (a.2, false)
    else if !_dbus_transport_get_is_connected a.2 then some (a.2, false)
    else
      match fuel with
      | 0 => none
      | f + 1 =>
        match do_authentication_pass env do_reading do_writing a.2 with
        | .next w1 _ => do_authentication_loop env do_reading do_writing f w1
        | .out w1 oom => some (w1, oom)

/-- Lines 321-392, `do_authentication`.  Returns the world and the C return
value (`FALSE` on OOM). -/
def do_authentication (env : Env) (fuel : Nat) (do_reading do_writing : Bool) (w : World) :
    Option (World × Bool) :=
  match do_authentication_loop env do_reading do_writing fuel (_dbus_transport_ref w) with
  | none => none
  | some (w1, oom) =>
    let w2 := check_read_watch env w1
    let w3 := check_write_watch env w2
    some (_dbus_transport_unref w3, !oom)

/-- Lines 460-478: fill `encoded_outgoing` with the encoded header and body when
it is empty.  Returns `false` when the code sets `oom` and leaves through `out`. -/
def encode_outgoing (env : Env) (header body : List Byte) (w : World) : Bool × World :=
  if w.t.encoded_outgoing.length == 0 then
    let h := _dbus_auth_encode_data env header w
    if !h.1 then (false, h.2)
    else
      let b := _dbus_auth_encode_data env body h.2
      if !b.1 then (false, { b.2 with t := { b.2.t with encoded_outgoing := [] } })
      else (true, b.2)
  else (true, w)

/-- Lines 480-521: the socket write of one pass, with `total_bytes_to_write`.
Expects `encoded_outgoing` already filled when encoding is needed. -/
def write_message_bytes (env : Env) (header body : List Byte) (w : World) :
    WriteResult × Int × World :=
  let header_len : Int := header.length
  let body_len : Int := body.length
  if w.auth.needs_encoding then
    let total_bytes_to_write : Int := w.t.encoded_outgoing.length
    let r := _dbus_write env w.t.encoded_outgoing w.t.message_bytes_written
               (total_bytes_to_write - w.t.message_bytes_written) w
    (r.1, total_bytes_to_write, r.2)
  else
    let total_bytes_to_write : Int := header_len + body_len
    if w.t.message_bytes_written < header_len then
      let r := _dbus_write_two env header w.t.message_bytes_written
                 (header_len - w.t.message_bytes_written) body 0 body_len w
      (r.1, total_bytes_to_write, r.2)
    else
      let r := _dbus_write env body (w.t.message_bytes_written - header_len)
                 (body_len - (w.t.message_bytes_written - header_len)) w
      (r.1, total_bytes_to_write, r.2)

/-- Lines 523-557: account for the result of the socket write. -/
def account_written (message : DBusMessage) (res : WriteResult) (total_bytes_to_write : Int)
    (total : Int) (w : World) : LoopStep :=
  match res with
  | .err .EAGAIN => .out w false
  | .err .EWOULDBLOCK => .out w false
  | .err _ => .out (do_io_error w) false
  | .wrote n =>
    let bytes_written : Int := n
    let total1 := total + bytes_written
    let w1 := { w with t := { w.t with
                  message_bytes_written := w.t.message_bytes_written + bytes_written } }
    let w2 := if w1.t.message_bytes_written <= total_bytes_to_write then w1
              else emit (.assert_failed 546) w1
    if w2.t.message_bytes_written == total_bytes_to_write then
      let w3 := { w2 with t := { w2.t with message_bytes_written := 0, encoded_outgoing := [] } }
      .next (_dbus_connection_message_sent message w3) total1
    else .next w2 total1

/-- Lines 426-557: one pass through the body of the `while` loop of `do_writing`. -/
def do_writing_pass (env : Env) (w : World) (total : Int) : LoopStep :=
  if total > w.t.max_bytes_written_per_iteration then .out w false
  else if !dbus_watch_get_enabled w.t.write_watch then .out w false
  else
    let g := _dbus_connection_get_message_to_send w
    match g.1 with
    | none => .out (emit (.assert_failed 447) g.2) false
    | some message =>
      let w1 := emit (.message_lock message) g.2
      let enc : Bool × World :=
        if w1.auth.needs_encoding then encode_outgoing env message.header message.body w1
        else (true, w1)
      if !enc.1 then .out enc.2 true
      else
        let wr := write_message_bytes env message.header message.body enc.2
        account_written message wr.1 wr.2.1 total wr.2.2

/-- Lines 423-558: the `while` loop of `do_writing`, with the world and the OOM
flag at the label `out`.  The fuel counts passes through the body. -/
def do_writing_loop (env : Env) : Nat → World → Int → Option (World × Bool)
  | fuel, w, total =>
    if !(!w.t.disconnected && _dbus_connection_have_messages_to_send w) then some (w, false)
    else
      match fuel with
      | 0 => none
      | f + 1 =>
        match do_writing_pass env w total with
        | .next w1 total1 => do_writing_loop env f w1 total1
        | .out w1 oom => some (w1, oom)

/-- Lines 395-565, `do_writing`.  Returns the world and the C return value
(`FALSE` on OOM). -/
def do_writing (env : Env) (fuel : Nat) (w : World) : Option (World × Bool) :=
  let a := _dbus_transport_get_is_authenticated env w
  if !a.1 then some (a.2, true)
  else if a.2.t.disconnected then some (a.2, true)
  else
    match do_writing_loop env fuel a.2 0 with
    | none => none
    | some (w1, oom) => some (w1, !oom)

/-- Lines 585-604: the head of one pass of `do_reading`, from the label `again`
to the test of the read watch.  `inl` is a return (world, OOM flag), `inr` goes
on to the read. -/
def do_reading_check (env : Env) (w : World) (total : Int) : (World × Bool) ⊕ World :=
  let w1 := check_read_watch env w
  if total > w1.t.max_bytes_read_per_iteration then .inl (w1, false)
  else
    let w2 := if w1.t.read_watch.isSome || w1.t.disconnected then w1
              else emit (.assert_failed 597) w1
    if w2.t.disconnected then .inl (w2, false)
    else if !dbus_watch_get_enabled w2.t.read_watch then .inl (w2, false)
    else .inr w2

/-- Lines 606-654: obtain `bytes_read`, either through the decoder or by a read
straight into the loader's buffer.  `none` is the `goto out` with `oom = TRUE`
after a failed decode. -/
def read_message_bytes (env : Env) (w : World) : Option ReadResult × World :=
  if w.auth.needs_decoding then
    let rd : ReadResult × World :=
      if w.t.encoded_incoming.length > 0 then (.data w.t.encoded_incoming, w)
      else
        let res := env.sock_read w.trace w.t.max_bytes_read_per_iteration
        let w1 := emit (.sock_read w.t.fd w.t.max_bytes_read_per_iteration res) w
        (res, { w1 with t := { w1.t with encoded_incoming := w1.t.encoded_incoming ++ res.bytes } })
    let bytes_read := rd.1.count
    let w2 := if (rd.2.t.encoded_incoming.length : Int) == bytes_read then rd.2
              else emit (.assert_failed 615) rd.2
    if bytes_read > 0 then
      let w3 := emit .loader_get_buffer w2
      let orig_len := w3.loader.length
      let d := _dbus_auth_decode_data env w3
      if !d.1 then (none, d.2)
      else
        let w4 := emit (.loader_return_buffer ((d.2.loader.length : Int) - orig_len)) d.2
        (some rd.1, { w4 with t := { w4.t with encoded_incoming := [] } })
    else (some rd.1, w2)
  else
    let w1 := emit .loader_get_buffer w
    let res := env.sock_read w1.trace w1.t.max_bytes_read_per_iteration
    let w2 := emit (.sock_read w1.t.fd w1.t.max_bytes_read_per_iteration res)
                { w1 with loader := w1.loader ++ res.bytes }
    let bytes_read := res.count
    (some res, emit (.loader_return_buffer (if bytes_read < 0 then 0 else bytes_read)) w2)

/-- Modelled from the spec: `_dbus_transport_queue_messages` of
`dbus-transport.c` (absent here): lets the loader hand complete messages to the
connection, which moves the live-messages counter, and may report memory
pressure. -/
def _dbus_transport_queue_messages (env : Env) (w : World) : Bool × World :=
  let r := env.queue_messages w.trace
  (r.1, emit (.queue_messages r.1) { w with t := { w.t with live_messages_size := r.2 } })

/-- Lines 606-701: the rest of one pass of `do_reading`, after the checks. -/
def do_reading_pass (env : Env) (w : World) (total : Int) : LoopStep :=
  let rd := read_message_bytes env w
  match rd.1 with
  | none => .out rd.2 true
  | some (.err .ENOMEM) => .out rd.2 true
  | some (.err .EAGAIN) => .out rd.2 false
  | some (.err .EWOULDBLOCK) => .out rd.2 false
  | some (.err _) => .out (do_io_error rd.2) false
  | some (.data bs) =>
    if bs.length == 0 then .out (do_io_error rd.2) false
    else
      let total1 := total + (bs.length : Int)
      let q := _dbus_transport_queue_messages env rd.2
      if q.1 then .out q.2 true
      else .next q.2 total1

/-- Lines 585-701: the `again` loop of `do_reading`, with the world and the OOM
flag on return.  The fuel counts reads. -/
def do_reading_loop (env : Env) : Nat → World → Int → Option (World × Bool)
  | fuel, w, total =>
    match do_reading_check env w total with
    | .inl r => some r
    | .inr w1 =>
      match fuel with
      | 0 => none
      | f + 1 =>
        match do_reading_pass env w1 total with
        | .next w2 total2 => do_reading_loop env f w2 total2
        | .out w2 oom => some (w2, oom)

/-- Lines 568-708, `do_reading`.  Returns the world and the C return value
(`FALSE` on OOM). -/
def do_reading (env : Env) (fuel : Nat) (w : World) : Option (World × Bool) :=
  let a := _dbus_transport_get_is_authenticated env w
  if !a.1 then some (a.2, true)
  else
    match do_reading_loop env fuel a.2 0 with
    | none => none
    | some (w1, oom) => some (w1, !oom)

/-- Lines 817-822, `unix_messages_pending`. -/
def unix_messages_pending (env : Env) (_messages_pending : Int) (w : World) : World :=
  check_write_watch env w

/-- Lines 936-941, `unix_live_messages_changed`. -/
def unix_live_messages_changed (env : Env) (w : World) : World :=
  check_read_watch env w

/-- Lines 900-904: `_dbus_poll`, called again while it fails with `EINTR`.  The
fuel counts calls. -/
def poll_again (env : Env) (fd : Int) (events : Nat) (poll_timeout : Int) :
    Nat → World → Option (PollResult × World)
  | 0, _ => none
  | f + 1, w =>
    let res := env.poll w.trace fd events poll_timeout
    let w1 := emit (.poll fd events poll_timeout res) w
    match res with
    | .err .EINTR => poll_again env fd events poll_timeout f w1
    | _ => some (res, w1)

/-- Lines 857-883: the event set `unix_do_iteration` polls for. -/
def iteration_events (env : Env) (flags : Nat) (w : World) : Nat × World :=
  let a := _dbus_transport_get_is_authenticated env w
  if a.1 then
    let e1 := if a.2.t.read_watch.isSome && flag_set flags DBUS_ITERATION_DO_READING
              then 0 ||| _DBUS_POLLIN else 0
    let e2 := if a.2.t.write_watch.isSome && flag_set flags DBUS_ITERATION_DO_WRITING
              then e1 ||| _DBUS_POLLOUT else e1
    (e2, a.2)
  else
    let r := _dbus_auth_do_work env a.2
    let e1 := if r.2.t.receive_credentials_pending || r.1 == DBusAuthState.WAITING_FOR_INPUT
              then 0 ||| _DBUS_POLLIN else 0
    let e2 := if r.2.t.send_credentials_pending || r.1 == DBusAuthState.HAVE_BYTES_TO_SEND
              then e1 ||| _DBUS_POLLOUT else e1
    (e2, r.2)

/-- Lines 909-932: dispatch on the result of the poll. -/
def iteration_dispatch (env : Env) (fuel : Nat) (flags : Nat) (res : PollResult) (w : World) :
    Option World :=
  match res with
  | .err _ => some w
  | .ready _ revents =>
    if flag_set revents _DBUS_POLLERR then some (do_io_error w)
    else
      let need_read := decide ((revents &&& _DBUS_POLLIN) > 0)
      let need_write := decide ((revents &&& _DBUS_POLLOUT) > 0)
      match do_authentication env fuel need_read need_write w with
      | none => none
      | some (w1, _) =>
        let rd : Option World :=
          if need_read && flag_set flags DBUS_ITERATION_DO_READING then
            (do_reading env fuel w1).map Prod.fst
          else some w1
        match rd with
        | none => none
        | some w2 =>
          if need_write && flag_set flags DBUS_ITERATION_DO_WRITING then
            (do_writing env fuel w2).map Prod.fst
          else some w2

/-- Lines 831-934, `unix_do_iteration`. -/
def unix_do_iteration (env : Env) (fuel : Nat) (flags : Nat) (timeout_milliseconds : Int)
    (w : World) : Option World :=
  let fd := w.t.fd
  let ev := iteration_events env flags w
  if ev.1 != 0 then
    let poll_timeout : Int :=
      if flag_set flags DBUS_ITERATION_BLOCK then timeout_milliseconds else 0
    let w1 := if flag_set flags DBUS_ITERATION_BLOCK then emit .connection_unlock ev.2 else ev.2
    match poll_again env fd ev.1 poll_timeout fuel w1 with
    | none => none
    | some (res, w2) =>
      let w3 := if flag_set flags DBUS_ITERATION_BLOCK then emit .connection_lock w2 else w2
      iteration_dispatch env fuel flags res w3
  else some ev.2

/-! ## Observations on traces, invariants and example worlds -/

/-- A socket read. -/
def Event.is_socket_read : Event → Bool
  | .sock_read _ _ _ => true
  | _ => false

/-- A socket write (`_dbus_write` or `_dbus_write_two`). -/
def Event.is_socket_write : Event → Bool
  | .sock_write _ _ _ => true
  | .sock_write_two _ _ _ _ => true
  | _ => false

/-- A credential send or receive. -/
def Event.is_credential : Event → Bool
  | .send_credentials _ _ => true
  | .read_credentials _ _ => true
  | _ => false

/-- A watch being installed in, or toggled through, the connection. -/
def Event.is_watch_change : Event → Bool
  | .add_watch _ _ => true
  | .toggle_watch _ _ => true
  | _ => false

/-- An access to the outbound queue: peek, lock or pop of a message. -/
def Event.is_queue_access : Event → Bool
  | .get_message_to_send => true
  | .message_lock _ => true
  | .message_sent _ => true
  | _ => false

/-- An access to the message loader: borrowing or returning its buffer, or
`queue_messages`. -/
def Event.is_loader_access : Event → Bool
  | .loader_get_buffer => true
  | .loader_return_buffer _ => true
  | .queue_messages _ => true
  | _ => false

/-- Only the trace differs between the two worlds, and every event added
satisfies `P`. -/
def OnlyTrace (P : Event → Bool) (w w1 : World) : Prop :=
  w1.t = w.t ∧ w1.auth = w.auth ∧ w1.conn = w.conn ∧ w1.loader = w.loader ∧
    ∃ evs, w1.trace = w.trace ++ evs ∧ ∀ e ∈ evs, P e = true

/-- Neither socket traffic, nor credentials, nor a watch installed or toggled. -/
def Event.is_quiet (e : Event) : Bool :=
  !e.is_socket_read && !e.is_socket_write && !e.is_credential && !e.is_watch_change

/-- A connected, attached, unauthenticated transport on descriptor 5 with read
watch 1 and write watch 2, one queued message, and no credentials pending. -/
def example_world : World :=
  { t := { refcount := 1, connection := true, disconnected := false, authenticated := false,
           is_server := false, messages_need_sending := true,
           send_credentials_pending := false, receive_credentials_pending := false,
           live_messages_size := 0, max_live_messages_size := 4096, fd := 5,
           read_watch := some { id := 1, fd := 5, flags := 1, enabled := true },
           write_watch := some { id := 2, fd := 5, flags := 2, enabled := true },
           max_bytes_read_per_iteration := 2048, max_bytes_written_per_iteration := 2048,
           message_bytes_written := 0, encoded_outgoing := [], encoded_incoming := [] },
    auth := { needs_encoding := false, needs_decoding := false },
    conn := { outgoing := [{ header := [1, 2, 3], body := [4, 5] }], watches := [2, 1] },
    loader := [],
    trace := [] }

/-- An outside world in which the auth engine reports `st`, every write accepts
at most `k` bytes, every read would block, and the encoder prepends the length
of its input. -/
def example_env (st : DBusAuthState) (k : Nat) : Env :=
  { sock_read := fun _ _ => .err .EAGAIN,
    sock_write := fun _ n => .wrote (min n k),
    send_credentials := fun _ => true,
    read_credentials := fun _ => true,
    poll := fun _ _ _ _ => .ready 0 0,
    auth_do_work := fun _ => st,
    auth_bytes_to_send := fun _ => none,
    auth_encode := fun _ src => (true, src.length :: src),
    auth_decode := fun _ src => (true, src),
    add_watch := fun _ => true,
    queue_messages := fun _ => (false, 0) }

/-- The example transport after authentication. -/
def example_world_authenticated : World :=
  { example_world with t := { example_world.t with authenticated := true } }

/-- The example transport after `_dbus_transport_disconnect`. -/
def example_world_disconnected : World :=
  { example_world with
    t := { example_world.t with disconnected := true, fd := -1,
                                read_watch := none, write_watch := none },
    conn := { example_world.conn with watches := [] } }

/-- The bytes a socket write put on the wire: the first `n` of those offered. -/
def Event.wire : Event → List Byte
  | .sock_write _ offered (.wrote n) => offered.take n
  | .sock_write_two _ offered1 offered2 (.wrote n) => (offered1 ++ offered2).take n
  | _ => []

/-- The bytes put on the wire by a run of events, in order. -/
def wire_bytes : List Event → List Byte
  | [] => []
  | e :: es => e.wire ++ wire_bytes es

/-- The message a `message_sent` notification names. -/
def Event.sent : Event → List DBusMessage
  | .message_sent m => [m]
  | _ => []

/-- The messages notified as sent by a run of events, in order. -/
def sent_messages : List Event → List DBusMessage
  | [] => []
  | e :: es => e.sent ++ sent_messages es

/-- The wire form of a message as `do_writing` produces it: header then body,
each passed through the encoder `enc` when the auth engine needs encoding. -/
def wire_form (enc : List Byte → List Byte) (needs_encoding : Bool) (m : DBusMessage) :
    List Byte :=
  if needs_encoding then enc m.header ++ enc m.body else m.header ++ m.body

/-- The wire forms of a queue of messages, concatenated in queue order. -/
def wire_forms (enc : List Byte → List Byte) (needs_encoding : Bool) :
    List DBusMessage → List Byte
  | [] => []
  | m :: ms => wire_form enc needs_encoding m ++ wire_forms enc needs_encoding ms

/-- Every socket write accepts at most the number of bytes offered. -/
def WritesBounded (env : Env) : Prop :=
  ∀ tr len n, env.sock_write tr len = .wrote n → n ≤ len

/-- The encoder of the auth engine computes `enc`: a successful
`_dbus_auth_encode_data` appends `enc src`, a failing one appends nothing. -/
def EncodesAs (env : Env) (enc : List Byte → List Byte) : Prop :=
  ∀ tr src, env.auth_encode tr src = (true, enc src) ∨ env.auth_encode tr src = (false, [])

/-- Events that put message bytes on the wire or notify a message as sent. -/
def Event.is_outbound : Event → Bool
  | .sock_write _ _ (.wrote _) => true
  | .sock_write_two _ _ _ (.wrote _) => true
  | .message_sent _ => true
  | _ => false

/-- Check one event against the outbound queue `q`, of whose head message `c`
bytes are on the wire already.  A successful write must offer exactly the rest
of the head message's wire form, and moves the cursor by the count it
returned; a `message_sent` must name the head message at the moment the cursor
equals the length of its wire form, and pops it, the cursor returning to `0`.
Other events pass.  `none` means the event is out of order. -/
def replay_event (enc : List Byte → List Byte) (ne : Bool) (e : Event)
    (s : List DBusMessage × Nat) : Option (List DBusMessage × Nat) :=
  match e with
  | .sock_write _ offered (.wrote n) =>
    match s.1 with
    | m :: _ =>
      if offered = (wire_form enc ne m).drop s.2 then some (s.1, s.2 + n)
      else none
    | [] => none
  | .sock_write_two _ offered1 offered2 (.wrote n) =>
    match s.1 with
    | m :: _ =>
      if offered1 ++ offered2 = (wire_form enc ne m).drop s.2 then some (s.1, s.2 + n)
      else none
    | [] => none
  | .message_sent m1 =>
    match s.1 with
    | m :: rest => if m = m1 ∧ s.2 = (wire_form enc ne m).length then some (rest, 0) else none
    | [] => none
  | _ => some s

/-- Check a run of events in order against the outbound queue and cursor;
returns the queue and cursor after the run. -/
def replay_writes (enc : List Byte → List Byte) (ne : Bool) :
    List Event → List DBusMessage × Nat → Option (List DBusMessage × Nat)
  | [], s => some s
  | e :: es, s =>
    match replay_event enc ne e s with
    | some s1 => replay_writes enc ne es s1
    | none => none

/-- The part of the head message already on the wire: the first `c` bytes of
its wire form. -/
def pending_sent (enc : List Byte → List Byte) (ne : Bool) (s : List DBusMessage × Nat) :
    List Byte :=
  match s.1 with
  | [] => []
  | m :: _ => (wire_form enc ne m).take s.2

/-- The outbound queue and cursor of a world. -/
def World.out_state (w : World) : List DBusMessage × Nat :=
  (w.conn.outgoing, w.t.message_bytes_written.toNat)

/-- The cursor is not negative, and `encoded_outgoing`, when in use, is empty
or holds the wire form of the head message. -/
def WriteInv (enc : List Byte → List Byte) (w : World) : Prop :=
  0 ≤ w.t.message_bytes_written ∧
  (w.auth.needs_encoding = true →
      w.t.encoded_outgoing = [] ∨ ∃ m rest, w.conn.outgoing = m :: rest ∧
        w.t.encoded_outgoing = wire_form enc true m)

/-- What a stretch of `do_writing` does to the wire, from world `w` to `w1`:
the invariant holds again, and the events added replay in order against the
queue and cursor of `w`, ending at the queue and cursor of `w1`. -/
def WriteRel (enc : List Byte → List Byte) (w w1 : World) : Prop :=
  WriteInv enc w1 ∧ w1.auth = w.auth ∧
  ∃ evs, w1.trace = w.trace ++ evs ∧
    replay_writes enc w.auth.needs_encoding evs w.out_state = some w1.out_state

/-- The world a loop step carries. -/
def LoopStep.world : LoopStep → World
  | .next w _ => w
  | .out w _ => w

/-- Events of tearing the transport down: what `unix_disconnect` emits. -/
def Event.is_teardown : Event → Bool
  | .remove_watch _ => true
  | .watch_invalidate _ => true
  | .watch_unref _ => true
  | .sock_close _ => true
  | _ => false

/-- A stretch that leaves queue, cursor and auth alone, keeps the invariant and
adds no outbound event. -/
def WriteFrame (enc : List Byte → List Byte) (w w1 : World) : Prop :=
  w1.conn.outgoing = w.conn.outgoing ∧ w1.auth = w.auth ∧
  w1.t.message_bytes_written = w.t.message_bytes_written ∧ WriteInv enc w1 ∧
  ∃ evs, w1.trace = w.trace ++ evs ∧ ∀ e ∈ evs, e.is_outbound = false

/-- What one pass through the body of the `do_writing` loop does, with head
message `m` and the cursor at `k`: either nothing outbound happens and queue
and cursor stay; or, after events that are not outbound, one write accepts `n`
bytes offered from offset `k` of the wire form, and then either the cursor
has reached the length of the wire form, `message_sent (m)` follows at once,
the queue is popped and cursor and encoded buffer are reset, or it has not,
and the cursor is `k + n` with the queue as it was. -/
def PassOutcome (env : Env) (enc : List Byte → List Byte) (m : DBusMessage)
    (rest : List DBusMessage) (k : Nat) (w w1 : World) : Prop :=
  WriteFrame enc w w1 ∨
  ∃ w0 ev n post, WriteFrame enc w w0 ∧ w1.trace = w0.trace ++ ev :: post ∧
    w1.auth = w.auth ∧ WriteInv enc w1 ∧
    env.sock_write w0.trace ((wire_form enc w.auth.needs_encoding m).length - k) = .wrote n ∧
    replay_event enc w.auth.needs_encoding ev (m :: rest, k) = some (m :: rest, k + n) ∧
    ev.wire = ((wire_form enc w.auth.needs_encoding m).drop k).take n ∧ ev.sent = [] ∧
    ((k + n = (wire_form enc w.auth.needs_encoding m).length ∧ post = [.message_sent m] ∧
        w1.conn.outgoing = rest ∧ w1.t.message_bytes_written = 0 ∧ w1.t.encoded_outgoing = []) ∨
     (k + n ≠ (wire_form enc w.auth.needs_encoding m).length ∧
        (∀ e ∈ post, e.is_outbound = false) ∧
        w1.conn.outgoing = m :: rest ∧ w1.t.message_bytes_written = ((k + n : Nat) : Int)))

/-- The example transport, authenticated, with an auth engine that needs
encoding. -/
def example_world_encoding : World :=
  { example_world_authenticated with auth := { needs_encoding := true, needs_decoding := true } }

/-- The authenticated example transport with 2 of the 5 bytes of its message
written. -/
def example_world_two_written : World :=
  { example_world_authenticated with
    t := { example_world_authenticated.t with message_bytes_written := 2 } }

/-- The authenticated example transport with a second message queued. -/
def example_world_two_messages : World :=
  { example_world_authenticated with
    conn := { example_world_authenticated.conn with
              outgoing := [{ header := [1, 2, 3], body := [4, 5] },
                           { header := [6], body := [7, 8] }] } }

/-- The value of `total_bytes_to_write` for head message `m`: the length of
`encoded_outgoing` when the auth engine needs encoding, header length plus body
length otherwise. -/
def total_wire_length (w : World) (m : DBusMessage) : Int :=
  if w.auth.needs_encoding then (w.t.encoded_outgoing.length : Int)
  else (m.header.length : Int) + (m.body.length : Int)

/-- Modelled from the spec: `_dbus_watch_set_handler` of `dbus-watch.c` (absent
here): the watch is given the connection's handler. -/
def _dbus_watch_set_handler (x : DBusWatch) (w : World) : World :=
  emit (.watch_set_handler x.id) w

/-- Modelled from the spec: `_dbus_connection_add_watch` (absent here):
`add_watch(w) → ok | oom`, answered by the outside world.  On success the watch
joins the connection's event loop; on failure nothing is installed. -/
def _dbus_connection_add_watch (env : Env) (x : DBusWatch) (w : World) : Bool × World :=
  let ok := env.add_watch w.trace
  let w1 := emit (.add_watch x.id ok) w
  (ok, if ok then { w1 with conn := { w1.conn with watches := w1.conn.watches ++ [x.id] } }
       else w1)

/-- Lines 786-815, `unix_connection_set`.  Both watches exist when the C
function runs (the constructor creates them, only `unix_disconnect` frees
them); with one missing, where the C code would dereference NULL, the model
installs nothing and reports failure. -/
def unix_connection_set (env : Env) (w : World) : Bool × World :=
  match w.t.write_watch, w.t.read_watch with
  | some ww, some rw =>
    let w1 := _dbus_watch_set_handler ww w
    let w2 := _dbus_watch_set_handler rw w1
    let a := _dbus_connection_add_watch env ww w2
    if !a.1 then (false, a.2)
    else
      let b := _dbus_connection_add_watch env rw a.2
      if !b.1 then (false, _dbus_connection_remove_watch ww b.2)
      else (true, check_write_watch env (check_read_watch env b.2))
  | _, _ => (false, w)

/-- The spec's formula for the desired state of the read watch (section 4.6):
`disconnected ? false : (authenticated ? (live_messages_size <
max_live_messages_size) : (receive_credentials_pending ∨ auth.state ==
waiting-for-input))`. -/
def spec_need_read_watch (disconnected authenticated : Bool)
    (live_messages_size max_live_messages_size : Int) (receive_credentials_pending : Bool)
    (auth_state : DBusAuthState) : Bool :=
  if disconnected then false
  else if authenticated then decide (live_messages_size < max_live_messages_size)
  else receive_credentials_pending || auth_state == DBusAuthState.WAITING_FOR_INPUT

/-- The spec's formula for the desired state of the write watch (section 4.6):
`disconnected ? false : (authenticated ? messages_need_sending :
(send_credentials_pending ∨ auth.state == bytes-to-send))`. -/
def spec_need_write_watch (disconnected authenticated messages_need_sending
    send_credentials_pending : Bool) (auth_state : DBusAuthState) : Bool :=
  if disconnected then false
  else if authenticated then messages_need_sending
  else send_credentials_pending || auth_state == DBusAuthState.HAVE_BYTES_TO_SEND

/-- A call of `_dbus_connection_toggle_watch`. -/
def Event.is_toggle : Event → Bool
  | .toggle_watch _ _ => true
  | _ => false

/-- The trace grows from `w` to `w1`, and every event added satisfies `P`. -/
def TraceAdds (P : Event → Bool) (w w1 : World) : Prop :=
  ∃ evs, w1.trace = w.trace ++ evs ∧ ∀ e ∈ evs, P e = true

/-- The history the outside world sees when `unix_connection_set` first asks
the connection to add a watch: both handlers have been set. -/
def connection_set_history (w : World) (ww rw : DBusWatch) : List Event :=
  w.trace ++ [.watch_set_handler ww.id, .watch_set_handler rw.id]

/-- The example transport as its constructor leaves it, about to be attached:
both watches created disabled, none installed yet. -/
def example_world_fresh : World :=
  { example_world with
    t := { example_world.t with
           read_watch := some { id := 1, fd := 5, flags := 1, enabled := false },
           write_watch := some { id := 2, fd := 5, flags := 2, enabled := false } },
    conn := { example_world.conn with watches := [] } }

/-- The spec's formula `spec_need_read_watch` on what a connected transport in
world `w` observes: the answer of `_dbus_transport_get_is_authenticated`, the counters
and the pending flag of `w`, and the state the auth engine reports when asked
after that answer. -/
def observed_need_read_watch (env : Env) (w : World) : Bool :=
  spec_need_read_watch false (_dbus_transport_get_is_authenticated env (_dbus_transport_ref w)).1
    w.t.live_messages_size w.t.max_live_messages_size w.t.receive_credentials_pending
    (env.auth_do_work (_dbus_transport_get_is_authenticated env (_dbus_transport_ref w)).2.trace)

/-- The spec's formula `spec_need_write_watch` on what a connected transport in
world `w` observes, as for `observed_need_read_watch`. -/
def observed_need_write_watch (env : Env) (w : World) : Bool :=
  spec_need_write_watch false (_dbus_transport_get_is_authenticated env (_dbus_transport_ref w)).1
    w.t.messages_need_sending w.t.send_credentials_pending
    (env.auth_do_work (_dbus_transport_get_is_authenticated env (_dbus_transport_ref w)).2.trace)

/-- The calls a watch recompute (`check_read_watch`, `check_write_watch`) can
make: asking the auth engine for its state, toggling a watch, and a failed
assertion. -/
def Event.is_watch_check : Event → Bool
  | .auth_do_work _ => true
  | .toggle_watch _ _ => true
  | .assert_failed _ => true
  | _ => false

/-- The authenticated example transport (ceiling 4096) with the live-message
counter at 4000. -/
def example_world_backlog : World :=
  { example_world_authenticated with
    t := { example_world_authenticated.t with live_messages_size := 4000 } }

/-- The transport of `example_world_backlog` with its read watch disabled. -/
def example_world_backlog_disabled : World :=
  { example_world_backlog with
    t := { example_world_backlog.t with
           read_watch := some { id := 1, fd := 5, flags := 1, enabled := false } } }

/-- The authenticated example transport (ceiling 4096) with the live-message
counter at the ceiling. -/
def example_world_full : World :=
  { example_world_authenticated with
    t := { example_world_authenticated.t with live_messages_size := 4096 } }

/-- The history the outside world sees at the socket read of a `do_reading`
pass that starts its read in world `w`: the trace of `w`, after the
`get_buffer` on the loader when no decoding is needed. -/
def read_history (w : World) : List Event :=
  if w.auth.needs_decoding then w.trace else w.trace ++ [.loader_get_buffer]

/-- The first `k` passes of the `again` loop of `do_reading`, each of which
goes round the loop (its read delivered bytes, which were queued): the world
and the running total back at the label `again`.  `none` when one of them
leaves the loop. -/
def do_reading_passes (env : Env) : Nat → World → Int → Option (World × Int)
  | 0, w, total => some (w, total)
  | k + 1, w, total =>
    match do_reading_check env w total with
    | .inl _ => none
    | .inr w1 =>
      match do_reading_pass env w1 total with
      | .next w2 total2 => do_reading_passes env k w2 total2
      | .out _ _ => none

/-- An outside world as `example_env`, whose first socket read delivers two
bytes and whose later reads find the peer gone (0 bytes). -/
def example_env_eof : Env :=
  { example_env .AUTHENTICATED 17 with
    sock_read := fun tr _ => if tr.any Event.is_socket_read then .data [] else .data [7, 7] }

/-- The authenticated example transport back at the label `again` of
`do_reading` after one read of two bytes under `example_env_eof`. -/
def example_world_after_read : World :=
  match do_reading_passes example_env_eof 1 example_world_authenticated 0 with
  | some (w, _) => w
  | none => example_world_authenticated

/-- A call of `_dbus_auth_set_credentials`. -/
def Event.is_set_credentials : Event → Bool
  | .auth_set_credentials => true
  | _ => false

/-- The calls the credential exchange makes before informing the auth engine:
sending or receiving the credentials, and the teardown after a failure. -/
def Event.is_credential_step (e : Event) : Bool :=
  e.is_credential || e.is_teardown

/-- The calls `read_data_into_auth` and `write_data_from_auth` make: borrowing
and returning the auth engine's buffers, the socket read or write, and the
teardown after a failure. -/
def Event.is_auth_io : Event → Bool
  | .auth_get_buffer => true
  | .auth_return_buffer _ => true
  | .auth_get_bytes_to_send => true
  | .auth_bytes_sent _ => true
  | .sock_read _ _ _ => true
  | .sock_write _ _ _ => true
  | e => e.is_teardown

/-- The calls one pass of the `do_authentication` loop makes after the
credential exchange: asking the auth engine for its state, and the calls of
`read_data_into_auth` and `write_data_from_auth`. -/
def Event.is_auth_step : Event → Bool
  | .auth_do_work _ => true
  | e => e.is_auth_io

/-- An outside world as `example_env` with the auth engine waiting for input,
whose first socket read delivers one byte and whose later reads would block. -/
def example_env_auth_input : Env :=
  { example_env .WAITING_FOR_INPUT 17 with
    sock_read := fun tr _ => if tr.any Event.is_socket_read then .err .EAGAIN else .data [1] }

/-- The authenticated example transport with nothing to send, its write watch
still enabled. -/
def example_world_idle : World :=
  { example_world_authenticated with
    t := { example_world_authenticated.t with messages_need_sending := false } }

/-- The two signs of memory pressure during authentication: a socket read into
the auth buffer failing with ENOMEM, and the auth engine reporting
waiting-for-memory. -/
def Event.is_auth_oom : Event → Bool
  | .sock_read _ _ (.err .ENOMEM) => true
  | .auth_do_work .WAITING_FOR_MEMORY => true
  | _ => false

/-- The trace grows from `w` to `w1`, and one of the events added is a sign of
memory pressure. -/
def OomSeen (w w1 : World) : Prop :=
  ∃ evs, w1.trace = w.trace ++ evs ∧ evs.any Event.is_auth_oom = true

/-- The history the outside world sees at the socket read of the first pass of
`do_authentication` started in world `w` with no credentials pending, when the
auth engine reports waiting-for-input in that pass: the loop test has asked the
auth engine for its state, the credentials were handed over, the auth engine
was asked again and its buffer borrowed. -/
def auth_read_history (env : Env) (w : World) : List Event :=
  w.trace ++ [.auth_do_work (env.auth_do_work w.trace), .auth_set_credentials,
              .auth_do_work .WAITING_FOR_INPUT, .auth_get_buffer]

/-- The world of that first pass after its socket read answered `res` and the
auth buffer was returned: the method holds its extra reference, and the bytes
committed are those read, 0 when the read did not deliver any. -/
def auth_read_world (env : Env) (w : World) (res : ReadResult) : World :=
  { _dbus_transport_ref w with
    trace := auth_read_history env w ++
      [.sock_read w.t.fd w.t.max_bytes_read_per_iteration res,
       .auth_return_buffer (if res.count > 0 then res.count else 0)] }

/-- The way `do_authentication`, started in world `w` with permission to read,
leaves after the socket read of its first pass answered `res` without
delivering bytes: it returns `ret` with the transport's `disconnected` flag at
`disc`; 0 bytes were committed to the auth buffer, and after that only the
teardown and the recompute of the watches follow. -/
def AuthReadExit (env : Env) (fuel : Nat) (dw : Bool) (w : World) (res : ReadResult)
    (ret disc : Bool) : Prop :=
  ∃ w1 rest, do_authentication env (fuel + 1) true dw w = some (w1, ret) ∧
    w1.t.disconnected = disc ∧
    w1.trace = auth_read_history env w ++
      .sock_read w.t.fd w.t.max_bytes_read_per_iteration res :: .auth_return_buffer 0 :: rest ∧
    ∀ e ∈ rest, e.is_teardown = true ∨ e.is_watch_check = true

/-- An outside world as `example_env` whose encoder fails on every call after
appending one byte to the destination. -/
def example_env_header_oom : Env :=
  { example_env .AUTHENTICATED 17 with auth_encode := fun _ _ => (false, [9]) }

/-- An outside world as `example_env` whose encoder copies its input on the
first call (the header) and fails on every later call (the body) after
appending one byte. -/
def example_env_body_oom : Env :=
  { example_env .AUTHENTICATED 17 with
    auth_encode := fun tr src =>
      if tr.any (fun e => e == .auth_encode [1, 2, 3] true) then (false, [9]) else (true, src) }

/-- An outside world as `example_env` whose encoder fails on its first call (the
header `[1, 2, 3]`) after appending one byte to the destination, and from then
on succeeds, putting the length of its input before the input as `example_env`
does. -/
def example_env_header_oom_once : Env :=
  { example_env .AUTHENTICATED 17 with
    auth_encode := fun tr src =>
      if tr.any (fun e => e == .auth_encode [1, 2, 3] false) then (true, src.length :: src)
      else (false, [9]) }

/-- The authenticated, encoding example transport with a second message
queued. -/
def example_world_encoding_two : World :=
  { example_world_encoding with
    conn := { example_world_encoding.conn with
              outgoing := [{ header := [1, 2, 3], body := [4, 5] },
                           { header := [6], body := [7, 8] }] } }

/-! ## Further example worlds and observations -/

/-- The example transport before the credential exchange: both credential
flags pending. -/
def example_world_credentials : World :=
  { example_world with
    t := { example_world.t with send_credentials_pending := true,
                                receive_credentials_pending := true } }

/-- An outside world as `example_env` in which neither sending nor receiving
the credentials succeeds. -/
def example_env_no_credentials : Env :=
  { example_env .WAITING_FOR_INPUT 17 with
    send_credentials := fun _ => false,
    read_credentials := fun _ => false }

/-- An outside world as `example_env` whose socket reads deliver two bytes and
whose decoder fails, out of memory, without appending anything. -/
def example_env_decode_oom : Env :=
  { example_env .AUTHENTICATED 17 with
    sock_read := fun _ _ => .data [7, 7],
    auth_decode := fun _ _ => (false, []) }

/-- A borrow of the loader's buffer. -/
def Event.is_loader_get : Event → Bool
  | .loader_get_buffer => true
  | _ => false

/-- A return of the loader's buffer. -/
def Event.is_loader_return : Event → Bool
  | .loader_return_buffer _ => true
  | _ => false

/-- A call of `_dbus_poll`, `_dbus_connection_lock` or
`_dbus_connection_unlock`. -/
def Event.is_poll_or_lock : Event → Bool
  | .poll _ _ _ _ => true
  | .connection_lock => true
  | .connection_unlock => true
  | _ => false

/-- Any call other than a poll or a lock or unlock of the connection: what the
parts of `unix_do_iteration` before its poll and after its lock may make. -/
def Event.is_io_step (e : Event) : Bool :=
  !e.is_poll_or_lock

/-- The calls `read_message_bytes` makes: borrowing and returning the loader's
buffer, the socket read, the decode, and a failed assertion. -/
def Event.is_read_step : Event → Bool
  | .loader_get_buffer => true
  | .loader_return_buffer _ => true
  | .sock_read _ _ _ => true
  | .auth_decode _ _ => true
  | .assert_failed _ => true
  | _ => false

/-- The number of bytes a socket read delivered. -/
def Event.read_length : Event → Nat
  | .sock_read _ _ (.data bs) => bs.length
  | _ => 0

/-- The number of bytes delivered by the socket reads of a run of events. -/
def socket_bytes_read : List Event → Nat
  | [] => 0
  | e :: es => e.read_length + socket_bytes_read es

/-- A socket read that delivered at least one byte. -/
def Event.is_positive_read : Event → Bool
  | .sock_read _ _ (.data bs) => !bs.isEmpty
  | _ => false

/-- A socket read asked for `count` bytes delivers at most `count` bytes. -/
def ReadsBounded (env : Env) (count : Int) : Prop :=
  ∀ tr bs, env.sock_read tr count = .data bs → (bs.length : Int) ≤ count

/-- An outside world as `example_env` whose socket always has data: every read
fills the whole buffer offered. -/
def example_env_stream : Env :=
  { example_env .AUTHENTICATED 17 with
    sock_read := fun _ count => .data (List.replicate count.toNat 7) }

/-- The authenticated example transport with a read budget of 2 bytes per
iteration. -/
def example_world_small_budget : World :=
  { example_world_authenticated with
    t := { example_world_authenticated.t with max_bytes_read_per_iteration := 2 } }

/-- A call of `_dbus_poll`. -/
def Event.is_poll : Event → Bool
  | .poll _ _ _ _ => true
  | _ => false

/-- The calls of `_dbus_poll` made by the loop of lines 900-904: `k` polls
interrupted by EINTR and then the poll that answers `res`, all on the same
descriptor, for the same events and with the same timeout. -/
def poll_events (fd : Int) (events : Nat) (poll_timeout : Int) (k : Nat) (res : PollResult) :
    List Event :=
  List.replicate k (.poll fd events poll_timeout (.err .EINTR)) ++
    [.poll fd events poll_timeout res]

/-- An outside world as `example_env` whose first poll is interrupted (EINTR)
and whose later polls time out with nothing ready. -/
def example_env_interrupted : Env :=
  { example_env .AUTHENTICATED 17 with
    poll := fun tr _ _ _ => if tr.any Event.is_poll then .ready 0 0 else .err .EINTR }

/-! ## The constructors of dbus-transport-unix.c -/

/-- The strings a constructor initialises and frees. -/
inductive StringId where
  | address
  | encoded_outgoing
  | encoded_incoming
  deriving DecidableEq, Repr

/-- The calls a constructor makes outside `dbus-transport-unix.c`, with their
arguments and, where the call can fail, its result. -/
inductive CtorEvent where
  | string_init (s : StringId) (ok : Bool)
  | string_append (text : String) (ok : Bool)
  | string_append_int (value : Int) (ok : Bool)
  | string_free (s : StringId)
  | connect_unix_socket (path : String) (abstract : Bool) (fd : Int)
  | connect_tcp_socket (host : String) (port : Int) (fd : Int)
  | fd_set_close_on_exec (fd : Int)
  | close (fd : Int)
  | set_error_no_memory
  | transport_alloc (ok : Bool)
  | transport_free
  | watch_new (fd : Int) (flags : Nat) (enabled : Bool) (id : Option Nat)
  | watch_unref (id : Nat)
  | init_base (server : Bool) (address : String) (ok : Bool)
  deriving DecidableEq, Repr

/-- The outside world of a constructor: each answer may depend on the calls
made so far. -/
structure CtorEnv where
  /-- Whether `_dbus_string_init` finds memory. -/
  string_init : List CtorEvent → Bool
  /-- Whether `_dbus_string_append` or `_dbus_string_append_int` finds memory. -/
  string_append : List CtorEvent → Bool
  /-- The descriptor `_dbus_connect_unix_socket` or `_dbus_connect_tcp_socket`
  returns, negative on failure. -/
  connect : List CtorEvent → Int
  /-- Whether `dbus_new0` finds memory. -/
  transport_alloc : List CtorEvent → Bool
  /-- The watch `_dbus_watch_new` returns, `none` for NULL. -/
  watch_new : List CtorEvent → Option Nat
  /-- Whether `_dbus_transport_init_base` finds memory. -/
  init_base : List CtorEvent → Bool

/-- Modelled from the spec: `_dbus_string_init` of `dbus-string.c` (absent
here): an empty string, or failure when out of memory. -/
def _dbus_string_init (env : CtorEnv) (s : StringId) (tr : List CtorEvent) :
    Bool × List CtorEvent :=
  (env.string_init tr, tr ++ [.string_init s (env.string_init tr)])

/-- Modelled from the spec: `_dbus_string_append` of `dbus-string.c` (absent
here): appends the C string to the address, which is left as it was when
memory runs out. -/
def _dbus_string_append (env : CtorEnv) (address text : String) (tr : List CtorEvent) :
    Bool × String × List CtorEvent :=
  let ok := env.string_append tr
  (ok, if ok then address ++ text else address, tr ++ [.string_append text ok])

/-- Modelled from the spec: `_dbus_string_append_int` of `dbus-string.c`
(absent here): appends the decimal rendering of the integer. -/
def _dbus_string_append_int (env : CtorEnv) (address : String) (value : Int)
    (tr : List CtorEvent) : Bool × String × List CtorEvent :=
  let ok := env.string_append tr
  (ok, if ok then address ++ toString value else address,
    tr ++ [.string_append_int value ok])

/-- Modelled from the spec: `_dbus_transport_init_base` of `dbus-transport.c`
(absent here): records the side and a copy of the address in the base; the
reference count starts at 1 and the other fields of the base keep the zero
`dbus_new0` gave them. -/
def _dbus_transport_init_base (env : CtorEnv) (server : Bool) (address : String)
    (tr : List CtorEvent) : Bool × List CtorEvent :=
  (env.init_base tr, tr ++ [.init_base server address (env.init_base tr)])

/-- Lines 963-1021, `_dbus_transport_new_for_fd`.  Returns the transport with
the address its base retains, or `none` for NULL. -/
def _dbus_transport_new_for_fd (env : CtorEnv) (fd : Int) (server : Bool) (address : String)
    (tr : List CtorEvent) : Option (DBusTransportUnix × String) × List CtorEvent :=
  let a := env.transport_alloc tr
  let tr1 := tr ++ [.transport_alloc a]
  if !a then (none, tr1)
  else
    let o := _dbus_string_init env .encoded_outgoing tr1
    if !o.1 then (none, o.2 ++ [.transport_free])
    else
      let i := _dbus_string_init env .encoded_incoming o.2
      if !i.1 then (none, i.2 ++ [.string_free .encoded_outgoing, .transport_free])
      else
        let ww := env.watch_new i.2
        let tr2 := i.2 ++ [.watch_new fd DBUS_WATCH_WRITABLE false ww]
        match ww with
        | none =>
          (none, tr2 ++ [.string_free .encoded_incoming, .string_free .encoded_outgoing,
                         .transport_free])
        | some write_watch =>
          let rw := env.watch_new tr2
          let tr3 := tr2 ++ [.watch_new fd DBUS_WATCH_READABLE false rw]
          match rw with
          | none =>
            (none, tr3 ++ [.watch_unref write_watch, .string_free .encoded_incoming,
                           .string_free .encoded_outgoing, .transport_free])
          | some read_watch =>
            let b := _dbus_transport_init_base env server address tr3
            if !b.1 then
              (none, b.2 ++ [.watch_unref read_watch, .watch_unref write_watch,
                             .string_free .encoded_incoming, .string_free .encoded_outgoing,
                             .transport_free])
            else
              (some ({ refcount := 1, connection := false, disconnected := false,
                       authenticated := false, is_server := server,
                       messages_need_sending := false, send_credentials_pending := false,
                       receive_credentials_pending := false, live_messages_size := 0,
                       max_live_messages_size := 0, fd := fd,
                       read_watch := some { id := read_watch, fd := fd,
                                            flags := DBUS_WATCH_READABLE, enabled := false },
                       write_watch := some { id := write_watch, fd := fd,
                                             flags := DBUS_WATCH_WRITABLE, enabled := false },
                       max_bytes_read_per_iteration := 2048,
                       max_bytes_written_per_iteration := 2048,
                       message_bytes_written := 0, encoded_outgoing := [],
                       encoded_incoming := [] }, address), b.2)

/-- Lines 1034-1091, `_dbus_transport_new_for_domain_socket`. -/
def _dbus_transport_new_for_domain_socket (env : CtorEnv) (path : String) (abstract : Bool) :
    Option (DBusTransportUnix × String) × List CtorEvent :=
  let s := _dbus_string_init env .address []
  if !s.1 then (none, s.2 ++ [.set_error_no_memory])
  else
    let a1 := _dbus_string_append env ""
                (if abstract then "unix:abstract=" else "unix:path=") s.2
    let a2 : Bool × String × List CtorEvent :=
      if a1.1 then _dbus_string_append env a1.2.1 path a1.2.2 else a1
    if !a2.1 then (none, a2.2.2 ++ [.set_error_no_memory, .string_free .address])
    else
      let fd := env.connect a2.2.2
      let tr1 := a2.2.2 ++ [.connect_unix_socket path abstract fd]
      if fd < 0 then (none, tr1 ++ [.string_free .address])
      else
        let tr2 := tr1 ++ [.fd_set_close_on_exec fd]
        let t := _dbus_transport_new_for_fd env fd false a2.2.1 tr2
        match t.1 with
        | none => (none, t.2 ++ [.set_error_no_memory, .close fd, .string_free .address])
        | some transport => (some transport, t.2 ++ [.string_free .address])

/-- The four appends of lines 1118-1121, each made only when those before it
succeeded. -/
def tcp_address (env : CtorEnv) (host : String) (port : Int) (tr : List CtorEvent) :
    Bool × String × List CtorEvent :=
  let a1 := _dbus_string_append env "" "tcp:host=" tr
  if !a1.1 then a1
  else
    let a2 := _dbus_string_append env a1.2.1 host a1.2.2
    if !a2.1 then a2
    else
      let a3 := _dbus_string_append env a2.2.1 ",port=" a2.2.2
      if !a3.1 then a3
      else _dbus_string_append_int env a3.2.1 port a3.2.2

/-- Lines 1101-1153, `_dbus_transport_new_for_tcp_socket`. -/
def _dbus_transport_new_for_tcp_socket (env : CtorEnv) (host : String) (port : Int) :
    Option (DBusTransportUnix × String) × List CtorEvent :=
  let s := _dbus_string_init env .address []
  if !s.1 then (none, s.2 ++ [.set_error_no_memory])
  else
    let a := tcp_address env host port s.2
    if !a.1 then (none, a.2.2 ++ [.string_free .address, .set_error_no_memory])
    else
      let fd := env.connect a.2.2
      let tr1 := a.2.2 ++ [.connect_tcp_socket host port fd]
      if fd < 0 then (none, tr1 ++ [.string_free .address])
      else
        let tr2 := tr1 ++ [.fd_set_close_on_exec fd]
        let t := _dbus_transport_new_for_fd env fd false a.2.1 tr2
        match t.1 with
        | none =>
          (none, t.2 ++ [.set_error_no_memory, .close fd, .string_free .address,
                         .string_free .address])
        | some transport => (some transport, t.2 ++ [.string_free .address])

/-- A free of the temporary address string. -/
def CtorEvent.is_address_free : CtorEvent → Bool
  | .string_free .address => true
  | _ => false

/-- A close of a descriptor. -/
def CtorEvent.is_close : CtorEvent → Bool
  | .close _ => true
  | _ => false

/-- An outside world in which everything succeeds: connect returns descriptor
7, the watches get the ids 2 and 1. -/
def example_ctor_env : CtorEnv :=
  { string_init := fun _ => true,
    string_append := fun _ => true,
    connect := fun _ => 7,
    transport_alloc := fun _ => true,
    watch_new := fun tr => if tr.any (fun e => e matches .watch_new _ _ _ _) then some 1 else some 2,
    init_base := fun _ => true }

/-- An outside world as `example_ctor_env` in which `dbus_new0` finds no memory
for the transport. -/
def example_ctor_env_no_transport : CtorEnv :=
  { example_ctor_env with transport_alloc := fun _ => false }

/-- The side and the address a call of `_dbus_transport_init_base` hands to the
base of the transport. -/
def CtorEvent.base_args : CtorEvent → Option (Bool × String)
  | .init_base server address _ => some (server, address)
  | _ => none

/-! ## Name conversion in glib/dbus-gobject.c -/

/-- The byte `_`. -/
def UNDERSCORE : Byte := 95

/-- The byte `-`. -/
def HYPHEN : Byte := 45

/-- The bytes of a C string literal, without the closing NUL. -/
def c_string (s : String) : List Byte := s.toList.map Char.toNat

/-- The test of glib's `g_ascii_isupper`: one of `A`..`Z`. -/
def g_ascii_isupper (c : Byte) : Bool := decide (65 ≤ c) && decide (c ≤ 90)

/-- The test of glib's `g_ascii_islower`: one of `a`..`z`. -/
def g_ascii_islower (c : Byte) : Bool := decide (97 ≤ c) && decide (c ≤ 122)

/-- The result of glib's `g_ascii_tolower`: `c - 'A' + 'a'` for an upper-case
letter, any other byte unchanged. -/
def g_ascii_tolower (c : Byte) : Byte := if g_ascii_isupper c then c - 65 + 97 else c

/-- The result of glib's `g_ascii_toupper`: `c - 'a' + 'A'` for a lower-case
letter, any other byte unchanged. -/
def g_ascii_toupper (c : Byte) : Byte := if g_ascii_islower c then c - 97 + 65 else c

/-- Lines 46-60, the loop of `wincaps_to_uscore`: the first argument is what
`p` points at (the loop ends at a NUL byte or the end of the list), the second
is `str`. -/
def wincaps_to_uscore_loop : List Byte → List Byte → List Byte
  | [], str => str
  | c :: p, str =>
    if c == 0 then str
    else if g_ascii_isupper c then
      let str1 :=
        if decide (str.length > 0) &&
            (decide (str.length < 2) || str.getD (str.length - 2) 0 != UNDERSCORE) then
          str ++ [UNDERSCORE]
        else str
      wincaps_to_uscore_loop p (str1 ++ [g_ascii_tolower c])
    else wincaps_to_uscore_loop p (str ++ [c])

/-- Lines 38-63, `wincaps_to_uscore`. -/
def wincaps_to_uscore (caps : List Byte) : List Byte :=
  wincaps_to_uscore_loop caps []

/-- Lines 76-93, the loop of `uscore_to_wincaps`, with `last_was_uscore` and
`str` as second and third argument. -/
def uscore_to_wincaps_loop : List Byte → Bool → List Byte → List Byte
  | [], _, str => str
  | c :: p, last_was_uscore, str =>
    if c == 0 then str
    else if c == HYPHEN || c == UNDERSCORE then uscore_to_wincaps_loop p true str
    else if last_was_uscore then uscore_to_wincaps_loop p false (str ++ [g_ascii_toupper c])
    else uscore_to_wincaps_loop p false (str ++ [c])

/-- Lines 65-96, `uscore_to_wincaps`. -/
def uscore_to_wincaps (uscore : List Byte) : List Byte :=
  uscore_to_wincaps_loop uscore true []

/-- A word of a WinCaps name: an upper-case ASCII letter followed by one or more
lower-case ASCII letters. -/
def WinCapsWord (wd : Byte × List Byte) : Prop :=
  g_ascii_isupper wd.1 = true ∧ wd.2 ≠ [] ∧ ∀ l ∈ wd.2, g_ascii_islower l = true

instance WinCapsWord.decidable (wd : Byte × List Byte) : Decidable (WinCapsWord wd) := by
  unfold WinCapsWord
  infer_instance

/-- The WinCaps name made of the words, one after the other. -/
def wincaps_name (words : List (Byte × List Byte)) : List Byte :=
  (words.map (fun wd => wd.1 :: wd.2)).flatten

/-- The words in lower case, joined by single underscores. -/
def uscore_name (words : List (Byte × List Byte)) : List Byte :=
  List.intercalate [UNDERSCORE] (words.map (fun wd => (wd.1 :: wd.2).map g_ascii_tolower))

/-! ## Introspection in glib/dbus-gobject.c -/

/-- The fundamental GLib types `gtype_to_dbus_type` tells apart (`G_TYPE_...`);
every other type is `other`. -/
inductive GType where
  | invalid | char | uchar | boolean | int | uint | long | ulong | int64 | uint64
  | float | double | string
  | other (id : Nat)
  deriving DecidableEq, Repr

/-- The D-Bus type codes the file names (`DBUS_TYPE_...`); every other code is
`other`. -/
inductive DBusType where
  | invalid | nil | byte | boolean | int32 | uint32 | int64 | uint64 | double | string
  | custom | array | dict
  | other (code : Int)
  deriving DecidableEq, Repr

/-- The fields of a `GParamSpec` read by `handle_introspect`. -/
structure GParamSpec where
  name : List Byte
  flags : Nat
  value_type : GType
  owner_type : GType
  deriving DecidableEq, Repr

/-- The flag `G_PARAM_READABLE` of GLib. -/
def G_PARAM_READABLE : Nat := 1

/-- The flag `G_PARAM_WRITABLE` of GLib. -/
def G_PARAM_WRITABLE : Nat := 2

/-- The flag `G_PARAM_CONSTRUCT_ONLY` of GLib. -/
def G_PARAM_CONSTRUCT_ONLY : Nat := 8

/-- Lines 110-148, `gtype_to_dbus_type`. -/
def gtype_to_dbus_type : GType → DBusType
  | .char => .byte
  | .uchar => .byte
  | .boolean => .boolean
  | .long => .int32
  | .int => .int32
  | .ulong => .uint32
  | .uint => .uint32
  | .int64 => .int64
  | .uint64 => .uint64
  | .float => .double
  | .double => .double
  | .string => .string
  | _ => .invalid

/-- Lines 150-179, `dbus_type_to_string`. -/
def dbus_type_to_string : DBusType → List Byte
  | .invalid => c_string "invalid"
  | .nil => c_string "nil"
  | .boolean => c_string "boolean"
  | .int32 => c_string "int32"
  | .uint32 => c_string "uint32"
  | .double => c_string "double"
  | .string => c_string "string"
  | .custom => c_string "custom"
  | .array => c_string "array"
  | .dict => c_string "dict"
  | _ => c_string "unknown"

/-- The two messages `handle_introspect` holds: the request it was called with
(`message`) and the reply built by `dbus_message_new_method_return` (`ret`). -/
inductive MessageRef where
  | request | reply
  deriving DecidableEq, Repr

/-- The calls `handle_introspect` makes on messages, on the connection and on
the string arrays, and the abort of `g_error`. -/
inductive GEvent where
  | message_get_path_decomposed (message : MessageRef) (ok : Bool)
  | connection_list_registered (path : List (List Byte)) (ok : Bool)
  | g_error
  | message_new_method_return (message : MessageRef) (ok : Bool)
  | message_append_args (message : MessageRef) (text : List Byte)
  | connection_send (message : MessageRef)
  | message_unref (message : MessageRef)
  | free_string_array (strings : List (List Byte))
  deriving DecidableEq, Repr

/-- The values of `DBusHandlerResult`. -/
inductive DBusHandlerResult where
  | handled | not_yet_handled | need_memory
  deriving DecidableEq, Repr

/-- What `handle_introspect` is given from outside: the decomposed path of the
request and the registered children below a path (`none` when memory runs out),
the property specs of the object's class, the name of a type, and whether the
reply could be built. -/
structure IntrospectEnv where
  path : Option (List (List Byte))
  children : List (List Byte) → Option (List (List Byte))
  specs : List GParamSpec
  type_name : GType → List Byte
  reply : Bool

/-- Lines 216-274, one pass of the loop over the property specs, with
`last_type` and `xml` as state. -/
def introspect_property (type_name : GType → List Byte) (spec : GParamSpec)
    (last_type : GType) (xml : List Byte) : GType × List Byte :=
  let dbus_type := gtype_to_dbus_type spec.value_type
  if dbus_type = .invalid then (last_type, xml)
  else
    let opened : GType × List Byte :=
      if spec.owner_type ≠ last_type then
        let closed :=
          if last_type ≠ .invalid then xml ++ c_string "  </interface>\n" else xml
        (spec.owner_type,
          closed ++ c_string "  <interface name=\"org.gtk.objects." ++
            type_name spec.owner_type ++ c_string "\">\n")
      else (last_type, xml)
    let can_set := (spec.flags &&& G_PARAM_WRITABLE != 0) &&
      (spec.flags &&& G_PARAM_CONSTRUCT_ONLY == 0)
    let can_get := spec.flags &&& G_PARAM_READABLE != 0
    let s := uscore_to_wincaps spec.name
    let xml2 :=
      if can_set then
        opened.2 ++ c_string "    <method name=\"set_" ++ s ++ c_string "\">\n" ++
          c_string "      <arg type=\"" ++ dbus_type_to_string dbus_type ++ c_string "\"/>\n"
      else opened.2
    let xml3 :=
      if can_get then
        xml2 ++ c_string "    <method name=\"get_" ++ s ++ c_string "\">\n" ++
          c_string "      <arg type=\"" ++ dbus_type_to_string dbus_type ++
          c_string "\" direction=\"out\"/>\n"
      else xml2
    (opened.1, xml3)

/-- Lines 215-275, the loop over the property specs. -/
def introspect_properties (type_name : GType → List Byte) :
    List GParamSpec → GType → List Byte → GType × List Byte
  | [], last_type, xml => (last_type, xml)
  | spec :: specs, last_type, xml =>
    let r := introspect_property type_name spec last_type xml
    introspect_properties type_name specs r.1 r.2

/-- Lines 284-290, the loop over the children. -/
def introspect_children : List (List Byte) → List Byte → List Byte
  | [], xml => xml
  | child :: children, xml =>
    introspect_children children
      (xml ++ c_string "  <node name=\"" ++ child ++ c_string "\"/>\n")

/-- Lines 203-294, the XML text `handle_introspect` builds in `xml`. -/
def introspect_xml (env : IntrospectEnv) (children : List (List Byte)) : List Byte :=
  let p := introspect_properties env.type_name env.specs .invalid (c_string "<node>\n")
  let xml1 := if p.1 ≠ .invalid then p.2 ++ c_string "  </interface>\n" else p.2
  introspect_children children xml1 ++ c_string "</node>\n"

/-- Lines 181-313, `handle_introspect`; `none` stands for the abort of
`g_error`. -/
def handle_introspect (env : IntrospectEnv) : Option DBusHandlerResult × List GEvent :=
  match env.path with
  | none => (none, [.message_get_path_decomposed .request false, .g_error])
  | some path =>
    match env.children path with
    | none =>
      (none, [.message_get_path_decomposed .request true,
              .connection_list_registered path false, .g_error])
    | some children =>
      let xml := introspect_xml env children
      if !env.reply then
        (none, [.message_get_path_decomposed .request true,
                .connection_list_registered path true,
                .message_new_method_return .request false, .g_error])
      else
        (some .handled,
          [.message_get_path_decomposed .request true,
           .connection_list_registered path true,
           .message_new_method_return .request true,
           .message_append_args .request xml,
           .connection_send .request,
           .message_unref .request,
           .free_string_array path,
           .free_string_array children])

/-- The message an event sends, appends to or drops, if it is such an event. -/
def GEvent.used_message : GEvent → Option MessageRef
  | .message_append_args message _ => some message
  | .connection_send message => some message
  | .message_unref message => some message
  | _ => none

/-- A call of `dbus_connection_send`. -/
def GEvent.is_send : GEvent → Bool
  | .connection_send _ => true
  | _ => false

/-- An object of a class `Widget` with the readable and writable integer
property `foo_bar`, registered with one child `child`; nothing runs out of
memory. -/
def example_introspect_env : IntrospectEnv :=
  { path := some [c_string "org", c_string "widget"],
    children := fun _ => some [c_string "child"],
    specs := [{ name := c_string "foo_bar", flags := 3, value_type := .int,
                owner_type := .other 80 }],
    type_name := fun _ => c_string "Widget",
    reply := true }

/-! ## Lemmas -/

theorem OnlyTrace_refl (P : Event → Bool) (w : World) : OnlyTrace P w w :=
  ⟨rfl, rfl, rfl, rfl, [], by simp, by simp⟩

theorem OnlyTrace_trans {P : Event → Bool} {a b c : World}
    (h1 : OnlyTrace P a b) (h2 : OnlyTrace P b c) : OnlyTrace P a c := by
  obtain ⟨t1, a1, c1, l1, e1, he1, hp1⟩ := h1
  obtain ⟨t2, a2, c2, l2, e2, he2, hp2⟩ := h2
  refine ⟨t2.trans t1, a2.trans a1, c2.trans c1, l2.trans l1, e1 ++ e2, ?_, ?_⟩
  · rw [he2, he1, List.append_assoc]
  · intro e he
    rcases List.mem_append.mp he with h | h
    · exact hp1 e h
    · exact hp2 e h

theorem OnlyTrace_emit {P : Event → Bool} (e : Event) (w : World) (h : P e = true) :
    OnlyTrace P w (emit e w) :=
  ⟨rfl, rfl, rfl, rfl, [e], rfl, by simpa using h⟩

theorem ref_unref (w : World) : _dbus_transport_unref (_dbus_transport_ref w) = w := by
  simp [_dbus_transport_unref, _dbus_transport_ref]

theorem disconnect_of_disconnected (w : World) (h : w.t.disconnected = true) :
    _dbus_transport_disconnect w = w := by
  simp [_dbus_transport_disconnect, h]

theorem do_io_error_of_disconnected (w : World) (h : w.t.disconnected = true) :
    do_io_error w = w := by
  unfold do_io_error
  rw [disconnect_of_disconnected _ (by simpa [_dbus_transport_ref] using h), ref_unref]

theorem poll_again_only_trace (env : Env) (fd : Int) (events : Nat) (tmo : Int) :
    ∀ (fuel : Nat) (w w1 : World) (res : PollResult),
      poll_again env fd events tmo fuel w = some (res, w1) → OnlyTrace Event.is_quiet w w1 := by
  intro fuel
  induction fuel with
  | zero => intro w w1 res h; simp [poll_again] at h
  | succ f ih =>
    intro w w1 res h
    have step : OnlyTrace Event.is_quiet w
        (emit (.poll fd events tmo (env.poll w.trace fd events tmo)) w) :=
      OnlyTrace_emit _ _ rfl
    unfold poll_again at h
    simp only at h
    split at h
    · exact OnlyTrace_trans step (ih _ _ _ h)
    · simp only [Option.some.injEq, Prod.mk.injEq] at h
      rw [← h.2]
      exact step

theorem get_is_authenticated_of_disconnected (env : Env) (w : World)
    (h : w.t.disconnected = true) :
    _dbus_transport_get_is_authenticated env w = (w.t.authenticated, w) := by
  unfold _dbus_transport_get_is_authenticated
  cases ha : w.t.authenticated <;> simp [h]

theorem check_read_watch_of_disconnected (env : Env) (w : World)
    (h : w.t.disconnected = true) (hr : w.t.read_watch = none) :
    check_read_watch env w = w := by
  unfold check_read_watch
  cases hc : w.t.connection <;> simp [h, hr]

theorem check_write_watch_of_disconnected (env : Env) (w : World)
    (h : w.t.disconnected = true) (hw : w.t.write_watch = none) :
    check_write_watch env w = w := by
  unfold check_write_watch
  cases hc : w.t.connection <;> simp [h, hw]

theorem do_authentication_of_disconnected (env : Env) (fuel : Nat) (dr dw : Bool) (w : World)
    (h : w.t.disconnected = true) (hr : w.t.read_watch = none) (hw : w.t.write_watch = none) :
    do_authentication env fuel dr dw w = some (w, true) := by
  have hl : do_authentication_loop env dr dw fuel (_dbus_transport_ref w)
      = some (_dbus_transport_ref w, false) := by
    unfold do_authentication_loop
    rw [get_is_authenticated_of_disconnected _ _ (by simpa [_dbus_transport_ref] using h)]
    cases ha : w.t.authenticated <;>
      simp [_dbus_transport_ref, _dbus_transport_get_is_connected, h, ha]
  unfold do_authentication
  rw [hl]
  simp only
  rw [check_read_watch_of_disconnected _ _ (by simpa [_dbus_transport_ref] using h)
        (by simpa [_dbus_transport_ref] using hr),
      check_write_watch_of_disconnected _ _ (by simpa [_dbus_transport_ref] using h)
        (by simpa [_dbus_transport_ref] using hw), ref_unref]
  rfl

theorem do_writing_of_disconnected (env : Env) (fuel : Nat) (w : World)
    (h : w.t.disconnected = true) : do_writing env fuel w = some (w, true) := by
  unfold do_writing
  rw [get_is_authenticated_of_disconnected _ _ h]
  cases ha : w.t.authenticated <;> simp [h]

theorem do_reading_of_disconnected (env : Env) (fuel : Nat) (w : World)
    (h : w.t.disconnected = true) (hr : w.t.read_watch = none) :
    do_reading env fuel w = some (w, true) := by
  unfold do_reading
  rw [get_is_authenticated_of_disconnected _ _ h]
  cases ha : w.t.authenticated
  · simp
  · have hl : do_reading_loop env fuel w 0 = some (w, false) := by
      unfold do_reading_loop
      have : do_reading_check env w 0 = .inl (w, false) := by
        unfold do_reading_check
        rw [check_read_watch_of_disconnected _ _ h hr]
        simp [h]
      rw [this]
    simp [hl]

theorem iteration_dispatch_of_disconnected (env : Env) (fuel flags : Nat) (res : PollResult)
    (w : World) (h : w.t.disconnected = true) (hr : w.t.read_watch = none)
    (hw : w.t.write_watch = none) : iteration_dispatch env fuel flags res w = some w := by
  unfold iteration_dispatch
  cases res with
  | err e => rfl
  | ready n revents =>
    simp only
    split
    · rw [do_io_error_of_disconnected _ h]
    · rw [do_authentication_of_disconnected _ _ _ _ _ h hr hw]
      simp only [do_reading_of_disconnected _ _ _ h hr, Option.map_some', ite_self]
      simp only [do_writing_of_disconnected _ _ _ h, Option.map_some', ite_self]

theorem wire_bytes_append (a b : List Event) :
    wire_bytes (a ++ b) = wire_bytes a ++ wire_bytes b := by
  induction a with
  | nil => rfl
  | cons e es ih => simp [wire_bytes, ih]

theorem sent_messages_append (a b : List Event) :
    sent_messages (a ++ b) = sent_messages a ++ sent_messages b := by
  induction a with
  | nil => rfl
  | cons e es ih => simp [sent_messages, ih]

theorem wire_forms_append (enc : List Byte → List Byte) (ne : Bool) (a b : List DBusMessage) :
    wire_forms enc ne (a ++ b) = wire_forms enc ne a ++ wire_forms enc ne b := by
  induction a with
  | nil => rfl
  | cons e es ih => simp [wire_forms, ih]

theorem replay_writes_append (enc : List Byte → List Byte) (ne : Bool) (a b : List Event) :
    ∀ s s1, replay_writes enc ne a s = some s1 →
      replay_writes enc ne (a ++ b) s = replay_writes enc ne b s1 := by
  induction a with
  | nil => intro s s1 h; simp only [replay_writes, Option.some.injEq] at h; rw [h]; rfl
  | cons e es ih =>
    intro s s1 h
    simp only [replay_writes, List.cons_append] at h ⊢
    cases he : replay_event enc ne e s with
    | none => rw [he] at h; exact absurd h (by simp)
    | some s2 => rw [he] at h; simp only at h ⊢; exact ih s2 s1 h

theorem replay_event_of_not_outbound (enc : List Byte → List Byte) (ne : Bool) (e : Event)
    (s : List DBusMessage × Nat) (h : e.is_outbound = false) :
    replay_event enc ne e s = some s := by
  cases e with
  | sock_write fd o res => cases res <;> simp_all [Event.is_outbound, replay_event]
  | sock_write_two fd o1 o2 res => cases res <;> simp_all [Event.is_outbound, replay_event]
  | message_sent m => simp [Event.is_outbound] at h
  | _ => rfl

theorem replay_writes_of_not_outbound (enc : List Byte → List Byte) (ne : Bool)
    (evs : List Event) (s : List DBusMessage × Nat) (h : ∀ e ∈ evs, e.is_outbound = false) :
    replay_writes enc ne evs s = some s := by
  induction evs with
  | nil => rfl
  | cons e es ih =>
    simp only [replay_writes]
    rw [replay_event_of_not_outbound enc ne e s (h e (by simp))]
    exact ih (fun x hx => h x (by simp [hx]))

/-- A run that replays in order pops exactly the messages it notifies as sent,
and the bytes it writes continue the head message where it stood and run
through the wire forms of the messages sent, up to the cursor in the new
head. -/
theorem replay_writes_sync (enc : List Byte → List Byte) (ne : Bool) (evs : List Event) :
    ∀ s s1, replay_writes enc ne evs s = some s1 →
      s.1 = sent_messages evs ++ s1.1 ∧
      pending_sent enc ne s ++ wire_bytes evs
        = wire_forms enc ne (sent_messages evs) ++ pending_sent enc ne s1 := by
  induction evs with
  | nil =>
    intro s s1 h
    simp only [replay_writes, Option.some.injEq] at h
    subst h
    simp [sent_messages, wire_bytes, wire_forms]
  | cons e es ih =>
    intro s s1 h
    simp only [replay_writes] at h
    cases he : replay_event enc ne e s with
    | none => rw [he] at h; exact absurd h (by simp)
    | some s2 =>
      rw [he] at h
      simp only at h
      obtain ⟨ih1, ih2⟩ := ih s2 s1 h
      obtain ⟨q, c⟩ := s
      cases e with
      | sock_write fd o res =>
        cases res with
        | err x =>
          simp only [replay_event, Option.some.injEq] at he
          subst he
          exact ⟨by simpa [sent_messages, Event.sent] using ih1,
            by simpa [sent_messages, wire_bytes, Event.sent, Event.wire] using ih2⟩
        | wrote n =>
          cases q with
          | nil => simp [replay_event] at he
          | cons m rest =>
            simp only [replay_event] at he
            split at he
            · rename_i hcond
              simp only [Option.some.injEq] at he
              subst he
              refine ⟨by simpa [sent_messages, Event.sent] using ih1, ?_⟩
              simp only [sent_messages, wire_bytes, Event.sent, Event.wire, List.nil_append,
                pending_sent] at ih2 ⊢
              rw [← ih2, hcond, ← List.append_assoc, ← List.take_add]
            · exact absurd he (by simp)
      | sock_write_two fd o1 o2 res =>
        cases res with
        | err x =>
          simp only [replay_event, Option.some.injEq] at he
          subst he
          exact ⟨by simpa [sent_messages, Event.sent] using ih1,
            by simpa [sent_messages, wire_bytes, Event.sent, Event.wire] using ih2⟩
        | wrote n =>
          cases q with
          | nil => simp [replay_event] at he
          | cons m rest =>
            simp only [replay_event] at he
            split at he
            · rename_i hcond
              simp only [Option.some.injEq] at he
              subst he
              refine ⟨by simpa [sent_messages, Event.sent] using ih1, ?_⟩
              simp only [sent_messages, wire_bytes, Event.sent, Event.wire, List.nil_append,
                pending_sent] at ih2 ⊢
              rw [← ih2, hcond, ← List.append_assoc, ← List.take_add]
            · exact absurd he (by simp)
      | message_sent m1 =>
        cases q with
        | nil => simp [replay_event] at he
        | cons m rest =>
          simp only [replay_event] at he
          split at he
          · rename_i hcond
            simp only [Option.some.injEq] at he
            subst he
            obtain ⟨rfl, hc⟩ := hcond
            subst hc
            refine ⟨by simp [sent_messages, Event.sent, ← ih1], ?_⟩
            have hp : pending_sent enc ne (rest, 0) = [] := by
              unfold pending_sent; cases rest <;> simp
            rw [hp] at ih2
            simp only [sent_messages, wire_bytes, Event.sent, Event.wire, List.nil_append,
              pending_sent, List.take_length, wire_forms, List.singleton_append,
              List.append_assoc] at ih2 ⊢
            rw [ih2]
            rfl
          · exact absurd he (by simp)
      | _ =>
        simp only [replay_event, Option.some.injEq] at he
        subst he
        exact ⟨by simpa [sent_messages, Event.sent] using ih1,
          by simpa [sent_messages, wire_bytes, Event.sent, Event.wire] using ih2⟩

theorem WriteRel_refl (enc : List Byte → List Byte) (w : World) (h : WriteInv enc w) :
    WriteRel enc w w :=
  ⟨h, rfl, [], by simp, rfl⟩

theorem WriteRel_trans {enc : List Byte → List Byte} {a b c : World}
    (h1 : WriteRel enc a b) (h2 : WriteRel enc b c) : WriteRel enc a c := by
  obtain ⟨_, a1, e1, t1, r1⟩ := h1
  obtain ⟨i2, a2, e2, t2, r2⟩ := h2
  refine ⟨i2, a2.trans a1, e1 ++ e2, ?_, ?_⟩
  · rw [t2, t1, List.append_assoc]
  · rw [replay_writes_append enc _ e1 e2 _ _ r1, ← a1]
    exact r2

/-- A step that leaves queue, cursor and auth alone, keeps the encoded buffer
empty or equal to the head's wire form, and adds no outbound event. -/
theorem WriteRel_of_frame {enc : List Byte → List Byte} {w w1 : World} (h : WriteInv enc w)
    (hq : w1.conn.outgoing = w.conn.outgoing) (ha : w1.auth = w.auth)
    (hc : w1.t.message_bytes_written = w.t.message_bytes_written)
    (hb : w1.auth.needs_encoding = true →
      w1.t.encoded_outgoing = [] ∨ ∃ m rest, w1.conn.outgoing = m :: rest ∧
        w1.t.encoded_outgoing = wire_form enc true m)
    (evs : List Event) (ht : w1.trace = w.trace ++ evs)
    (hs : ∀ e ∈ evs, e.is_outbound = false) : WriteRel enc w w1 := by
  refine ⟨⟨?_, hb⟩, ha, evs, ht, ?_⟩
  · rw [hc]; exact h.1
  · rw [replay_writes_of_not_outbound enc _ evs _ hs]
    simp [World.out_state, hq, hc]

/-- The same with the encoded buffer left alone. -/
theorem WriteRel_of_frame_same {enc : List Byte → List Byte} {w w1 : World} (h : WriteInv enc w)
    (hq : w1.conn.outgoing = w.conn.outgoing) (ha : w1.auth = w.auth)
    (hc : w1.t.message_bytes_written = w.t.message_bytes_written)
    (hb : w1.t.encoded_outgoing = w.t.encoded_outgoing)
    (evs : List Event) (ht : w1.trace = w.trace ++ evs)
    (hs : ∀ e ∈ evs, e.is_outbound = false) : WriteRel enc w w1 :=
  WriteRel_of_frame h hq ha hc (by rw [hq, ha, hb]; exact h.2) evs ht hs

theorem not_outbound_of_teardown (e : Event) (h : e.is_teardown = true) :
    e.is_outbound = false := by
  cases e <;> simp_all [Event.is_teardown, Event.is_outbound]

theorem do_io_error_frame (w : World) :
    (do_io_error w).conn.outgoing = w.conn.outgoing ∧ (do_io_error w).auth = w.auth ∧
    (do_io_error w).loader = w.loader ∧
    (do_io_error w).t.message_bytes_written = w.t.message_bytes_written ∧
    (do_io_error w).t.encoded_outgoing = w.t.encoded_outgoing ∧
    ∃ evs, (do_io_error w).trace = w.trace ++ evs ∧ ∀ e ∈ evs, e.is_teardown = true := by
  cases hd : w.t.disconnected
  · cases hr : w.t.read_watch <;> cases hw : w.t.write_watch <;> cases hc : w.t.connection <;>
      simp [do_io_error, _dbus_transport_disconnect, _dbus_transport_ref, _dbus_transport_unref,
        unix_disconnect, free_watches, emit, _dbus_connection_remove_watch, hd, hr, hw, hc,
        Event.is_teardown]
  · rw [do_io_error_of_disconnected _ hd]
    exact ⟨rfl, rfl, rfl, rfl, rfl, [], by simp, by simp⟩

theorem string_range_tail (s : List Byte) (k : Nat) :
    string_range s (k : Int) ((s.length : Int) - (k : Int)) = s.drop k := by
  unfold string_range
  rw [Int.toNat_ofNat, Int.toNat_sub]
  apply List.take_of_length_le
  simp

theorem string_range_all (s : List Byte) : string_range s 0 (s.length : Int) = s := by
  unfold string_range
  simp

/-- Lines 495-520 without encoding: with the cursor at `k`,
the write offers exactly the suffix of header ++ body from `k`, through
`_dbus_write_two` when `k` is inside the header and `_dbus_write` on the body
otherwise. -/
theorem write_message_bytes_plain (env : Env) (header body : List Byte) (w : World) (k : Nat)
    (hne : w.auth.needs_encoding = false) (hc : w.t.message_bytes_written = (k : Int)) :
    write_message_bytes env header body w =
      (env.sock_write w.trace (header.length + body.length - k),
       ((header.length + body.length : Nat) : Int),
       emit (if k < header.length then
               .sock_write_two w.t.fd (header.drop k) body
                 (env.sock_write w.trace (header.length + body.length - k))
             else
               .sock_write w.t.fd ((header ++ body).drop k)
                 (env.sock_write w.trace (header.length + body.length - k))) w) := by
  unfold write_message_bytes
  simp only [hne, Bool.false_eq_true, if_false, hc]
  by_cases hlt : k < header.length
  · have h1 : ((k : Int) < (header.length : Int)) := by exact_mod_cast hlt
    simp only [h1, hlt, if_true, _dbus_write_two, string_range_tail, string_range_all,
      List.length_drop]
    have : header.length - k + body.length = header.length + body.length - k := by omega
    rw [this]
    simp
  · have h1 : ¬ ((k : Int) < (header.length : Int)) := by exact_mod_cast hlt
    have h2 : (k : Int) - (header.length : Int) = ((k - header.length : Nat) : Int) := by omega
    have h3 : List.drop k (header ++ body) = List.drop (k - header.length) body := by
      rw [List.drop_append_eq_append_drop, List.drop_of_length_le (by omega)]
      rfl
    simp only [h1, hlt, if_false, _dbus_write, h2, string_range_tail, List.length_drop, h3]
    have : body.length - (k - header.length) = header.length + body.length - k := by omega
    rw [this]
    simp

/-- Lines 480-491 with encoding: the write offers the suffix of
`encoded_outgoing` from the cursor. -/
theorem write_message_bytes_encoded (env : Env) (header body : List Byte) (w : World) (k : Nat)
    (hne : w.auth.needs_encoding = true) (hc : w.t.message_bytes_written = (k : Int)) :
    write_message_bytes env header body w =
      (env.sock_write w.trace (w.t.encoded_outgoing.length - k),
       (w.t.encoded_outgoing.length : Int),
       emit (.sock_write w.t.fd (w.t.encoded_outgoing.drop k)
               (env.sock_write w.trace (w.t.encoded_outgoing.length - k))) w) := by
  unfold write_message_bytes
  simp only [hne, if_true, hc, _dbus_write, string_range_tail, List.length_drop]

theorem sent_message_sent (m : DBusMessage) : (Event.message_sent m).sent = [m] := rfl

theorem wire_message_sent (m : DBusMessage) : (Event.message_sent m).wire = [] := rfl

theorem not_outbound_wire_sent (e : Event) (h : e.is_outbound = false) :
    e.wire = [] ∧ e.sent = [] := by
  cases e with
  | sock_write fd o res => cases res <;> simp_all [Event.is_outbound, Event.wire, Event.sent]
  | sock_write_two fd o1 o2 res =>
    cases res <;> simp_all [Event.is_outbound, Event.wire, Event.sent]
  | message_sent m => simp [Event.is_outbound] at h
  | _ => exact ⟨rfl, rfl⟩

theorem not_outbound_wire_bytes (evs : List Event) (h : ∀ e ∈ evs, e.is_outbound = false) :
    wire_bytes evs = [] ∧ sent_messages evs = [] := by
  induction evs with
  | nil => exact ⟨rfl, rfl⟩
  | cons e es ih =>
    have he := not_outbound_wire_sent e (h e (by simp))
    have hes := ih (fun x hx => h x (by simp [hx]))
    simp [wire_bytes, sent_messages, he.1, he.2, hes.1, hes.2]

theorem WriteFrame_refl (enc : List Byte → List Byte) (w : World) (h : WriteInv enc w) :
    WriteFrame enc w w :=
  ⟨rfl, rfl, rfl, h, [], by simp, by simp⟩

theorem WriteFrame_trans {enc : List Byte → List Byte} {a b c : World}
    (h1 : WriteFrame enc a b) (h2 : WriteFrame enc b c) : WriteFrame enc a c := by
  obtain ⟨q1, a1, c1, _, e1, t1, n1⟩ := h1
  obtain ⟨q2, a2, c2, i2, e2, t2, n2⟩ := h2
  refine ⟨q2.trans q1, a2.trans a1, c2.trans c1, i2, e1 ++ e2, ?_, ?_⟩
  · rw [t2, t1, List.append_assoc]
  · intro e he
    rcases List.mem_append.mp he with h | h
    · exact n1 e h
    · exact n2 e h

theorem WriteFrame_rel {enc : List Byte → List Byte} {w w1 : World} (h0 : WriteInv enc w)
    (h : WriteFrame enc w w1) : WriteRel enc w w1 := by
  obtain ⟨q1, a1, c1, i1, e1, t1, n1⟩ := h
  exact WriteRel_of_frame h0 q1 a1 c1 i1.2 e1 t1 n1

/-- The same stretch with the encoded buffer left alone. -/
theorem WriteFrame_of_same {enc : List Byte → List Byte} {w w1 : World} (h : WriteInv enc w)
    (hq : w1.conn.outgoing = w.conn.outgoing) (ha : w1.auth = w.auth)
    (hc : w1.t.message_bytes_written = w.t.message_bytes_written)
    (hb : w1.t.encoded_outgoing = w.t.encoded_outgoing)
    (evs : List Event) (ht : w1.trace = w.trace ++ evs)
    (hs : ∀ e ∈ evs, e.is_outbound = false) : WriteFrame enc w w1 :=
  ⟨hq, ha, hc, ⟨by rw [hc]; exact h.1, by rw [hq, ha, hb]; exact h.2⟩, evs, ht, hs⟩

theorem do_io_error_write_frame (enc : List Byte → List Byte) (w : World)
    (h : WriteInv enc w) : WriteFrame enc w (do_io_error w) := by
  obtain ⟨f1, f2, _, f4, f5, evs, f6, f7⟩ := do_io_error_frame w
  exact WriteFrame_of_same h f1 f2 f4 f5 evs f6 (fun e he => not_outbound_of_teardown e (f7 e he))

theorem write_message_bytes_spec (env : Env) (enc : List Byte → List Byte) (m : DBusMessage)
    (w : World) (k : Nat) (hc : w.t.message_bytes_written = (k : Int))
    (hbuf : w.auth.needs_encoding = true → w.t.encoded_outgoing = wire_form enc true m) :
    ∃ ev, write_message_bytes env m.header m.body w =
        (env.sock_write w.trace ((wire_form enc w.auth.needs_encoding m).length - k),
         ((wire_form enc w.auth.needs_encoding m).length : Int), emit ev w) ∧
      (∀ e, env.sock_write w.trace ((wire_form enc w.auth.needs_encoding m).length - k)
          = .err e → ev.is_outbound = false) ∧
      (∀ n rest, env.sock_write w.trace ((wire_form enc w.auth.needs_encoding m).length - k)
          = .wrote n →
        replay_event enc w.auth.needs_encoding ev (m :: rest, k) = some (m :: rest, k + n) ∧
        ev.wire = ((wire_form enc w.auth.needs_encoding m).drop k).take n ∧ ev.sent = []) := by
  cases hne : w.auth.needs_encoding
  · simp only [wire_form, Bool.false_eq_true, if_false, List.length_append]
    rw [write_message_bytes_plain env _ _ w k hne hc]
    refine ⟨_, rfl, ?_, ?_⟩
    · intro e he
      rw [he]
      split <;> rfl
    · intro n rest hn
      rw [hn]
      by_cases hlt : k < m.header.length
      · have : List.drop k (m.header ++ m.body) = List.drop k m.header ++ m.body :=
          List.drop_append_of_le_length (by omega)
        simp only [hlt, if_true, replay_event, wire_form, Bool.false_eq_true, if_false, this,
          Event.wire, Event.sent, and_self]
      · simp only [hlt, if_false, replay_event, wire_form, Bool.false_eq_true, Event.wire,
          Event.sent, if_true, and_self]
  · rw [write_message_bytes_encoded env _ _ w k hne hc, hbuf hne]
    refine ⟨_, rfl, ?_, ?_⟩
    · intro e he
      rw [he]
      rfl
    · intro n rest hn
      rw [hn]
      simp only [replay_event, Event.wire, Event.sent, if_true, and_self]

theorem replay_event_message_sent (enc : List Byte → List Byte) (ne : Bool) (m : DBusMessage)
    (rest : List DBusMessage) :
    replay_event enc ne (.message_sent m) (m :: rest, (wire_form enc ne m).length)
      = some (rest, 0) := by
  simp [replay_event]

theorem PassOutcome_prepend {env : Env} {enc : List Byte → List Byte} {m : DBusMessage}
    {rest : List DBusMessage} {k : Nat} {a b c : World}
    (h1 : WriteFrame enc a b) (h2 : PassOutcome env enc m rest k b c) :
    PassOutcome env enc m rest k a c := by
  rcases h2 with h2 | ⟨w0, ev, n, post, f, t, au, i, pr, r, wi, se, cs⟩
  · exact Or.inl (WriteFrame_trans h1 h2)
  · refine Or.inr ⟨w0, ev, n, post, WriteFrame_trans h1 f, t, au.trans h1.2.1, i, ?_, ?_, ?_, se, ?_⟩
    · rw [← h1.2.1]; exact pr
    · rw [← h1.2.1]; exact r
    · rw [← h1.2.1]; exact wi
    · rw [← h1.2.1]; exact cs

theorem account_written_outcome (env : Env) (enc : List Byte → List Byte) (m : DBusMessage)
    (rest : List DBusMessage) (w : World) (total : Int) (k : Nat)
    (hinv : WriteInv enc w) (hq : w.conn.outgoing = m :: rest)
    (hc : w.t.message_bytes_written = (k : Int))
    (hbuf : w.auth.needs_encoding = true → w.t.encoded_outgoing = wire_form enc true m) :
    PassOutcome env enc m rest k w
      (account_written m (write_message_bytes env m.header m.body w).1
        (write_message_bytes env m.header m.body w).2.1 total
        (write_message_bytes env m.header m.body w).2.2).world := by
  obtain ⟨ev, hw, herr, hwrote⟩ := write_message_bytes_spec env enc m w k hc hbuf
  rw [hw]
  simp only
  cases hres : env.sock_write w.trace ((wire_form enc w.auth.needs_encoding m).length - k) with
  | err e =>
    have h1 : WriteFrame enc w (emit ev w) :=
      WriteFrame_of_same hinv rfl rfl rfl rfl [ev] rfl (by simpa using herr e hres)
    left
    cases e <;> simp only [account_written, LoopStep.world] <;>
      first | exact h1 | exact WriteFrame_trans h1 (do_io_error_write_frame enc _ h1.2.2.2.1)
  | wrote n =>
    obtain ⟨hrep, hwire, hsent⟩ := hwrote n rest hres
    right
    simp only [account_written, emit, hc]
    by_cases hfull : k + n = (wire_form enc w.auth.needs_encoding m).length
    · have hfull2 : ((k : Int) + (n : Int) == ((wire_form enc w.auth.needs_encoding m).length : Int))
          = true := by
        rw [beq_iff_eq]; exact_mod_cast hfull
      have hle : (k : Int) + (n : Int) ≤ ((wire_form enc w.auth.needs_encoding m).length : Int) := by
        omega
      simp only [hle, if_true, hfull2, LoopStep.world, _dbus_connection_message_sent, emit, hq,
        List.tail_cons]
      exact ⟨w, ev, n, [.message_sent m], WriteFrame_refl enc w hinv, by simp, trivial,
        ⟨by simp, fun _ => Or.inl rfl⟩, hres, hrep, hwire, hsent,
        Or.inl ⟨hfull, rfl, trivial, trivial, trivial⟩⟩
    · have hfull2 : ((k : Int) + (n : Int) == ((wire_form enc w.auth.needs_encoding m).length : Int))
          = false := by
        rw [beq_eq_false_iff_ne]; intro h; exact hfull (by exact_mod_cast h)
      have hinv2 : ∀ w2 : World, w2.auth = w.auth → w2.conn.outgoing = w.conn.outgoing →
          w2.t.encoded_outgoing = w.t.encoded_outgoing →
          w2.t.message_bytes_written = (k : Int) + (n : Int) → WriteInv enc w2 := by
        intro w2 h1 h2 h3 h4
        refine ⟨by rw [h4]; omega, fun hne => ?_⟩
        rw [h1] at hne
        rw [h2, h3]
        exact Or.inr ⟨m, rest, hq, hbuf hne⟩
      by_cases hle : (k : Int) + (n : Int) ≤ ((wire_form enc w.auth.needs_encoding m).length : Int)
      · simp only [hle, if_true, hfull2, Bool.false_eq_true, if_false, LoopStep.world]
        exact ⟨w, ev, n, [], WriteFrame_refl enc w hinv, by simp, trivial,
          hinv2 _ rfl rfl rfl rfl, hres, hrep, hwire, hsent,
          Or.inr ⟨hfull, by simp, hq, by simp⟩⟩
      · simp only [hle, if_false, hfull2, Bool.false_eq_true, LoopStep.world]
        exact ⟨w, ev, n, [.assert_failed 546], WriteFrame_refl enc w hinv, by simp, trivial,
          hinv2 _ rfl rfl rfl rfl, hres, hrep, hwire, hsent,
          Or.inr ⟨hfull, by
            intro e he
            simp only [List.mem_singleton] at he
            subst he; rfl, hq, by simp⟩⟩

theorem encode_outgoing_frame (env : Env) (enc : List Byte → List Byte) (m : DBusMessage)
    (rest : List DBusMessage) (w : World) (he : EncodesAs env enc)
    (hne : w.auth.needs_encoding = true) (hinv : WriteInv enc w)
    (hq : w.conn.outgoing = m :: rest) :
    WriteFrame enc w (encode_outgoing env m.header m.body w).2 ∧
    ((encode_outgoing env m.header m.body w).1 = true →
      (encode_outgoing env m.header m.body w).2.t.encoded_outgoing = wire_form enc true m) := by
  have two : ∀ (a b : Event), a.is_outbound = false → b.is_outbound = false →
      ∀ e ∈ [a, b], e.is_outbound = false := by
    intro a b ha hb e h
    simp only [List.mem_cons, List.mem_singleton, List.not_mem_nil, or_false] at h
    rcases h with rfl | rfl <;> assumption
  unfold encode_outgoing
  by_cases hlen : w.t.encoded_outgoing = []
  · simp only [hlen, List.length_nil, beq_self_eq_true, if_true, _dbus_auth_encode_data,
      List.nil_append]
    rcases he w.trace m.header with h1 | h1
    · simp only [h1, Bool.not_true, Bool.false_eq_true, if_false]
      rcases he (emit (.auth_encode m.header true)
          { w with t := { w.t with encoded_outgoing := enc m.header } }).trace m.body with h2 | h2
      · simp only [h2, Bool.not_true, Bool.false_eq_true, if_false]
        refine ⟨⟨rfl, rfl, rfl, ⟨hinv.1, fun _ => Or.inr ⟨m, rest, hq, ?_⟩⟩,
          [.auth_encode m.header true, .auth_encode m.body true], by simp [emit],
          two _ _ rfl rfl⟩, fun _ => ?_⟩ <;> simp [emit, wire_form]
      · simp only [h2, Bool.not_false, if_true]
        exact ⟨⟨rfl, rfl, rfl, ⟨hinv.1, fun _ => Or.inl rfl⟩,
          [.auth_encode m.header true, .auth_encode m.body false], by simp [emit],
          two _ _ rfl rfl⟩, fun h => by simp at h⟩
    · simp only [h1, Bool.not_false, if_true]
      exact ⟨⟨rfl, rfl, rfl, ⟨hinv.1, fun _ => Or.inl (by simp [emit])⟩,
        [.auth_encode m.header false], by simp [emit], by
          intro e h
          simp only [List.mem_singleton] at h
          subst h; rfl⟩, fun h => by simp at h⟩
  · have hlen2 : (w.t.encoded_outgoing.length == 0) = false := by
      simp [hlen]
    simp only [hlen2, Bool.false_eq_true, if_false]
    refine ⟨WriteFrame_refl enc w hinv, fun _ => ?_⟩
    rcases hinv.2 hne with h | ⟨m1, r1, hq1, hb1⟩
    · exact absurd h hlen
    · rw [hq] at hq1
      obtain ⟨rfl, -⟩ := List.cons.inj hq1
      exact hb1

theorem do_writing_pass_outcome (env : Env) (enc : List Byte → List Byte) (w : World)
    (total : Int) (m : DBusMessage) (rest : List DBusMessage) (k : Nat)
    (he : w.auth.needs_encoding = true → EncodesAs env enc) (hinv : WriteInv enc w)
    (hq : w.conn.outgoing = m :: rest) (hc : w.t.message_bytes_written = (k : Int)) :
    PassOutcome env enc m rest k w (do_writing_pass env w total).world := by
  unfold do_writing_pass
  split
  · exact Or.inl (WriteFrame_refl enc w hinv)
  · split
    · exact Or.inl (WriteFrame_refl enc w hinv)
    · simp only [_dbus_connection_get_message_to_send, hq, List.head?_cons]
      have h01 : WriteFrame enc w (emit (.message_lock m) (emit .get_message_to_send w)) :=
        WriteFrame_of_same hinv rfl rfl rfl rfl
          [.get_message_to_send, .message_lock m] (by simp [emit]) (by
            intro e h
            simp only [List.mem_cons, List.mem_singleton, List.not_mem_nil, or_false] at h
            rcases h with rfl | rfl <;> rfl)
      have hq1 : (emit (.message_lock m) (emit .get_message_to_send w)).conn.outgoing
          = m :: rest := hq
      have hc1 : (emit (.message_lock m) (emit .get_message_to_send w)).t.message_bytes_written
          = (k : Int) := hc
      cases hne : w.auth.needs_encoding
      · have hne1 : (emit (.message_lock m) (emit .get_message_to_send w)).auth.needs_encoding
            = false := hne
        simp only [hne1, Bool.false_eq_true, if_false, Bool.not_true]
        exact PassOutcome_prepend h01 (account_written_outcome env enc m rest _ total k
          h01.2.2.2.1 hq1 hc1 (fun h => by rw [hne1] at h; exact absurd h (by simp)))
      · have hne1 : (emit (.message_lock m) (emit .get_message_to_send w)).auth.needs_encoding
            = true := hne
        simp only [hne1, if_true]
        obtain ⟨e1, e3⟩ := encode_outgoing_frame env enc m rest _ (he hne) hne1 h01.2.2.2.1 hq1
        cases hok : (encode_outgoing env m.header m.body
            (emit (.message_lock m) (emit .get_message_to_send w))).1
        · simp only [Bool.not_false, if_true, LoopStep.world]
          exact Or.inl (WriteFrame_trans h01 e1)
        · simp only [Bool.not_true, Bool.false_eq_true, if_false]
          exact PassOutcome_prepend (WriteFrame_trans h01 e1) (account_written_outcome env enc m rest _ total
            k e1.2.2.2.1 (e1.1.trans hq1) (e1.2.2.1.trans hc1) (fun _ => e3 hok))

theorem PassOutcome_rel {env : Env} {enc : List Byte → List Byte} {m : DBusMessage}
    {rest : List DBusMessage} {k : Nat} {w w1 : World} (hinv : WriteInv enc w)
    (hq : w.conn.outgoing = m :: rest) (hc : w.t.message_bytes_written = (k : Int))
    (h : PassOutcome env enc m rest k w w1) : WriteRel enc w w1 := by
  rcases h with h | ⟨w0, ev, n, post, f, t, au, i, -, r, -, -, cs⟩
  · exact WriteFrame_rel hinv h
  · obtain ⟨-, -, -, -, pre, tp, np⟩ := f
    have hst : w.out_state = (m :: rest, k) := by simp [World.out_state, hq, hc]
    refine ⟨i, au, pre ++ ev :: post, by rw [t, tp, List.append_assoc], ?_⟩
    rw [replay_writes_append enc _ pre _ _ _ (replay_writes_of_not_outbound enc _ pre _ np), hst]
    simp only [replay_writes, r]
    rcases cs with ⟨hfull, hpost, hq1, hc1, -⟩ | ⟨-, hpost, hq1, hc1⟩
    · rw [hpost, hfull]
      simp only [replay_writes, replay_event_message_sent]
      simp [World.out_state, hq1, hc1]
    · rw [replay_writes_of_not_outbound enc _ post _ hpost]
      simp only [World.out_state, hq1, hc1, Int.toNat_ofNat]

theorem do_writing_pass_rel (env : Env) (enc : List Byte → List Byte) (w : World) (total : Int)
    (he : w.auth.needs_encoding = true → EncodesAs env enc)
    (hinv : WriteInv enc w) : WriteRel enc w (do_writing_pass env w total).world := by
  cases hq : w.conn.outgoing with
  | nil =>
    unfold do_writing_pass
    split
    · exact WriteRel_refl enc w hinv
    · split
      · exact WriteRel_refl enc w hinv
      · simp only [_dbus_connection_get_message_to_send, hq, List.head?_nil, LoopStep.world]
        exact WriteRel_of_frame_same hinv rfl rfl rfl rfl
          [.get_message_to_send, .assert_failed 447] (by simp [emit]) (by
            intro e h
            simp only [List.mem_cons, List.mem_singleton, List.not_mem_nil, or_false] at h
            rcases h with rfl | rfl <;> rfl)
  | cons m rest =>
    obtain ⟨k, hc⟩ := Int.eq_ofNat_of_zero_le hinv.1
    exact PassOutcome_rel hinv hq hc (do_writing_pass_outcome env enc w total m rest k he hinv hq hc)

theorem do_writing_loop_rel (env : Env) (enc : List Byte → List Byte) :
    ∀ (fuel : Nat) (w : World) (total : Int) (w1 : World) (oom : Bool),
      (w.auth.needs_encoding = true → EncodesAs env enc) → WriteInv enc w →
      do_writing_loop env fuel w total = some (w1, oom) → WriteRel enc w w1 := by
  intro fuel
  induction fuel with
  | zero =>
    intro w total w1 oom _ hinv h
    unfold do_writing_loop at h
    split at h
    · simp only [Option.some.injEq, Prod.mk.injEq] at h
      rw [← h.1]
      exact WriteRel_refl enc w hinv
    · exact absurd h (by simp)
  | succ f ih =>
    intro w total w1 oom he hinv h
    unfold do_writing_loop at h
    split at h
    · simp only [Option.some.injEq, Prod.mk.injEq] at h
      rw [← h.1]
      exact WriteRel_refl enc w hinv
    · have hp := do_writing_pass_rel env enc w total he hinv
      simp only at h
      split at h
      · rename_i w2 total2 hpass
        rw [hpass] at hp
        simp only [LoopStep.world] at hp
        exact WriteRel_trans hp (ih w2 total2 w1 oom (fun h2 => he (by rw [← hp.2.1]; exact h2)) hp.1 h)
      · rename_i w2 oom2 hpass
        rw [hpass] at hp
        simp only [LoopStep.world, Option.some.injEq, Prod.mk.injEq] at hp h
        rw [← h.1]
        exact hp

theorem get_is_authenticated_frame (env : Env) (enc : List Byte → List Byte) (w : World)
    (hinv : WriteInv enc w) :
    WriteFrame enc w (_dbus_transport_get_is_authenticated env w).2 := by
  unfold _dbus_transport_get_is_authenticated
  split
  · exact WriteFrame_refl enc w hinv
  · split
    · exact WriteFrame_refl enc w hinv
    · split
      · exact WriteFrame_refl enc w hinv
      · exact WriteFrame_of_same hinv rfl rfl rfl rfl [.auth_do_work (env.auth_do_work w.trace)]
          (by simp [_dbus_auth_do_work, emit]) (by
            intro e h
            simp only [List.mem_singleton] at h
            subst h; rfl)

/-- Every return of `do_writing` is related to its entry by `WriteRel`. -/
theorem do_writing_rel (env : Env) (enc : List Byte → List Byte) (fuel : Nat) (w w1 : World)
    (r : Bool) (he : w.auth.needs_encoding = true → EncodesAs env enc)
    (hinv : WriteInv enc w) (h : do_writing env fuel w = some (w1, r)) : WriteRel enc w w1 := by
  have ha := WriteFrame_rel hinv (get_is_authenticated_frame env enc w hinv)
  unfold do_writing at h
  simp only at h
  split at h
  · simp only [Option.some.injEq, Prod.mk.injEq] at h
    rw [← h.1]; exact ha
  · split at h
    · simp only [Option.some.injEq, Prod.mk.injEq] at h
      rw [← h.1]; exact ha
    · split at h
      · exact absurd h (by simp)
      · rename_i w2 oom hl
        simp only [Option.some.injEq, Prod.mk.injEq] at h
        rw [← h.1]
        exact WriteRel_trans ha (do_writing_loop_rel env enc fuel _ 0 w2 oom
          (fun h2 => he (by rw [← ha.2.1]; exact h2)) ha.1 hl)

theorem replay_writes_split (enc : List Byte → List Byte) (ne : Bool) (a b : List Event) :
    ∀ s s2, replay_writes enc ne (a ++ b) s = some s2 →
      ∃ s1, replay_writes enc ne a s = some s1 ∧ replay_writes enc ne b s1 = some s2 := by
  induction a with
  | nil => intro s s2 h; exact ⟨s, rfl, h⟩
  | cons e es ih =>
    intro s s2 h
    simp only [replay_writes, List.cons_append] at h ⊢
    cases he : replay_event enc ne e s with
    | none => rw [he] at h; exact absurd h (by simp)
    | some s3 => rw [he] at h; exact ih s3 s2 h

theorem pending_sent_initial (enc : List Byte → List Byte) (ne : Bool)
    (s : List DBusMessage × Nat) : pending_sent enc ne s <+: wire_forms enc ne s.1 := by
  obtain ⟨q, c⟩ := s
  cases q with
  | nil => exact List.nil_prefix
  | cons m rest =>
    simp only [pending_sent, wire_forms]
    exact ( List.take_prefix _ _).trans ( List.prefix_append _ _)

/-- What a run that replays in order delivers of the head message `m`: up to
the first `message_sent`, which names `m`, the bytes written complete the wire
form of `m`; and while no message is notified, the queue stays and the bytes
written extend the part on the wire up to the new cursor. -/
theorem replay_head_delivery (enc : List Byte → List Byte) (ne : Bool) (evs : List Event)
    (m : DBusMessage) (rest : List DBusMessage) (k : Nat) (s1 : List DBusMessage × Nat)
    (h : replay_writes enc ne evs (m :: rest, k) = some s1) :
    (∀ pre m1 post, evs = pre ++ .message_sent m1 :: post → sent_messages pre = [] →
        m1 = m ∧ (wire_form enc ne m).take k ++ wire_bytes pre = wire_form enc ne m) ∧
    (sent_messages evs = [] →
        s1.1 = m :: rest ∧
        (wire_form enc ne m).take k ++ wire_bytes evs = (wire_form enc ne m).take s1.2) := by
  constructor
  · intro pre m1 post hsplit hpre
    rw [hsplit] at h
    obtain ⟨s2, h1, h2⟩ := replay_writes_split enc ne pre _ _ _ h
    obtain ⟨hq, hw⟩ := replay_writes_sync enc ne pre _ _ h1
    rw [hpre] at hq hw
    simp only [List.nil_append, wire_forms] at hq hw
    obtain ⟨q2, c2⟩ := s2
    simp only at hq
    subst hq
    simp only [replay_writes] at h2
    cases he : replay_event enc ne (.message_sent m1) (m :: rest, c2) with
    | none => rw [he] at h2; exact absurd h2 (by simp)
    | some s3 =>
      simp only [replay_event] at he
      split at he
      · rename_i hcond
        obtain ⟨hm, hc2⟩ := hcond
        refine ⟨hm.symm, ?_⟩
        simp only [pending_sent] at hw
        rw [hw, hc2, List.take_length]
      · exact absurd he (by simp)
  · intro hs
    obtain ⟨hq, hw⟩ := replay_writes_sync enc ne evs _ _ h
    rw [hs] at hq hw
    simp only [List.nil_append, wire_forms] at hq hw
    refine ⟨hq.symm, ?_⟩
    simp only [pending_sent, ← hq] at hw
    exact hw

theorem TraceAdds_refl (P : Event → Bool) (w : World) : TraceAdds P w w :=
  ⟨[], by simp, by simp⟩

theorem TraceAdds_trans {P : Event → Bool} {a b c : World}
    (h1 : TraceAdds P a b) (h2 : TraceAdds P b c) : TraceAdds P a c := by
  obtain ⟨e1, he1, hp1⟩ := h1
  obtain ⟨e2, he2, hp2⟩ := h2
  refine ⟨e1 ++ e2, ?_, ?_⟩
  · rw [he2, he1, List.append_assoc]
  · intro e he
    rcases List.mem_append.mp he with h | h
    · exact hp1 e h
    · exact hp2 e h

theorem TraceAdds_emit {P : Event → Bool} (e : Event) (w : World) (h : P e = true) :
    TraceAdds P w (emit e w) :=
  ⟨[e], rfl, by simpa using h⟩

theorem TraceAdds_mono {P Q : Event → Bool} {a b : World} (h : TraceAdds P a b)
    (hpq : ∀ e, P e = true → Q e = true) : TraceAdds Q a b := by
  obtain ⟨evs, he, hp⟩ := h
  exact ⟨evs, he, fun e hm => hpq e (hp e hm)⟩

/-- What `_dbus_transport_get_is_authenticated` leaves behind: only the
`authenticated` flag, set to the answer, and at most one `auth_do_work`. -/
theorem get_is_authenticated_fields (env : Env) (w : World) :
    (_dbus_transport_get_is_authenticated env w).2.t
      = { w.t with authenticated := (_dbus_transport_get_is_authenticated env w).1 } ∧
    (_dbus_transport_get_is_authenticated env w).2.conn = w.conn ∧
    (_dbus_transport_get_is_authenticated env w).2.auth = w.auth ∧
    (_dbus_transport_get_is_authenticated env w).2.loader = w.loader ∧
    ((_dbus_transport_get_is_authenticated env w).2.trace = w.trace ∨
      (_dbus_transport_get_is_authenticated env w).2.trace
        = w.trace ++ [.auth_do_work (env.auth_do_work w.trace)]) := by
  obtain ⟨t, au, co, lo, tr⟩ := w
  cases t
  simp only [_dbus_transport_get_is_authenticated, _dbus_auth_do_work, emit]
  split_ifs <;> simp_all

/-- The read watch recomputed on a connected, attached transport. -/
theorem check_read_watch_connected (env : Env) (w : World) (rw : DBusWatch)
    (hc : w.t.connection = true) (hd : w.t.disconnected = false)
    (hr : w.t.read_watch = some rw) :
    (check_read_watch env w).t
      = { w.t with
          authenticated :=
            (_dbus_transport_get_is_authenticated env (_dbus_transport_ref w)).1,
          read_watch := some { rw with enabled := observed_need_read_watch env w } } ∧
    (check_read_watch env w).conn = w.conn ∧
    (check_read_watch env w).auth = w.auth ∧
    (check_read_watch env w).loader = w.loader ∧
    ∃ evs, (check_read_watch env w).trace
        = w.trace ++ evs ++ [.toggle_watch rw.id (observed_need_read_watch env w)] ∧
      ∀ e ∈ evs, ∃ st, e = .auth_do_work st := by
  obtain ⟨h1, h2, h3, h4, h5⟩ := get_is_authenticated_fields env (_dbus_transport_ref w)
  obtain ⟨b, w2, hA⟩ : ∃ b w2,
      _dbus_transport_get_is_authenticated env (_dbus_transport_ref w) = (b, w2) := ⟨_, _, rfl⟩
  rw [hA] at h1 h2 h3 h4 h5
  obtain ⟨t2, a2, c2, l2, tr2⟩ := w2
  simp only at h1 h2 h3 h4 h5
  subst h1 h2 h3 h4
  have htr : ∃ evs, tr2 = w.trace ++ evs ∧ ∀ e ∈ evs, ∃ st, e = Event.auth_do_work st := by
    rcases h5 with h | h
    · exact ⟨[], by simpa [_dbus_transport_ref] using h, by simp⟩
    · exact ⟨[.auth_do_work (env.auth_do_work w.trace)],
        by simpa [_dbus_transport_ref] using h, by simp⟩
  obtain ⟨evs, hev, hall⟩ := htr
  simp only [check_read_watch, observed_need_read_watch, spec_need_read_watch, hA, hc, hd]
  cases b
  · cases hp : w.t.receive_credentials_pending
    · simp [hr, hp, hc, hd, _dbus_connection_toggle_watch, emit,
        _dbus_transport_unref, _dbus_auth_do_work, _dbus_transport_ref]
      refine ⟨evs ++ [.auth_do_work (env.auth_do_work tr2)], ?_, ?_⟩
      · simp [hev]
      · intro e he
        rcases List.mem_append.mp he with h | h
        · exact hall e h
        · exact ⟨_, by simpa using h⟩
    · simp [hr, hp, hc, hd, _dbus_connection_toggle_watch, emit,
        _dbus_transport_unref, _dbus_auth_do_work, _dbus_transport_ref]
      exact ⟨evs, by simp [hev], hall⟩
  · simp [hr, hc, hd, _dbus_connection_toggle_watch, emit,
        _dbus_transport_unref, _dbus_auth_do_work, _dbus_transport_ref]
    exact ⟨evs, by simp [hev], hall⟩

/-- The write watch recomputed on a connected, attached transport. -/
theorem check_write_watch_connected (env : Env) (w : World) (ww : DBusWatch)
    (hc : w.t.connection = true) (hd : w.t.disconnected = false)
    (hw : w.t.write_watch = some ww) :
    (check_write_watch env w).t
      = { w.t with
          authenticated :=
            (_dbus_transport_get_is_authenticated env (_dbus_transport_ref w)).1,
          write_watch := some { ww with enabled := observed_need_write_watch env w } } ∧
    (check_write_watch env w).conn = w.conn ∧
    (check_write_watch env w).auth = w.auth ∧
    (check_write_watch env w).loader = w.loader ∧
    ∃ evs, (check_write_watch env w).trace
        = w.trace ++ evs ++ [.toggle_watch ww.id (observed_need_write_watch env w)] ∧
      ∀ e ∈ evs, ∃ st, e = .auth_do_work st := by
  obtain ⟨h1, h2, h3, h4, h5⟩ := get_is_authenticated_fields env (_dbus_transport_ref w)
  obtain ⟨b, w2, hA⟩ : ∃ b w2,
      _dbus_transport_get_is_authenticated env (_dbus_transport_ref w) = (b, w2) := ⟨_, _, rfl⟩
  rw [hA] at h1 h2 h3 h4 h5
  obtain ⟨t2, a2, c2, l2, tr2⟩ := w2
  simp only at h1 h2 h3 h4 h5
  subst h1 h2 h3 h4
  have htr : ∃ evs, tr2 = w.trace ++ evs ∧ ∀ e ∈ evs, ∃ st, e = Event.auth_do_work st := by
    rcases h5 with h | h
    · exact ⟨[], by simpa [_dbus_transport_ref] using h, by simp⟩
    · exact ⟨[.auth_do_work (env.auth_do_work w.trace)],
        by simpa [_dbus_transport_ref] using h, by simp⟩
  obtain ⟨evs, hev, hall⟩ := htr
  simp only [check_write_watch, observed_need_write_watch, spec_need_write_watch, hA, hc, hd]
  cases b
  · cases hp : w.t.send_credentials_pending
    · simp [hw, hp, hc, hd, _dbus_connection_toggle_watch, emit,
        _dbus_transport_unref, _dbus_auth_do_work, _dbus_transport_ref]
      refine ⟨evs ++ [.auth_do_work (env.auth_do_work tr2)], ?_, ?_⟩
      · simp [hev]
      · intro e he
        rcases List.mem_append.mp he with h | h
        · exact hall e h
        · exact ⟨_, by simpa using h⟩
    · simp [hw, hp, hc, hd, _dbus_connection_toggle_watch, emit,
        _dbus_transport_unref, _dbus_auth_do_work, _dbus_transport_ref]
      exact ⟨evs, by simp [hev], hall⟩
  · simp [hw, hc, hd, _dbus_connection_toggle_watch, emit,
        _dbus_transport_unref, _dbus_auth_do_work, _dbus_transport_ref]
    exact ⟨evs, by simp [hev], hall⟩

/-- What `check_read_watch` leaves alone, whatever the state. -/
theorem check_read_watch_frame (env : Env) (w : World) :
    (check_read_watch env w).conn = w.conn ∧ (check_read_watch env w).auth = w.auth ∧
    (check_read_watch env w).loader = w.loader ∧
    (check_read_watch env w).t.write_watch = w.t.write_watch ∧
    (check_read_watch env w).t.disconnected = w.t.disconnected ∧
    TraceAdds Event.is_watch_check w (check_read_watch env w) := by
  cases hc : w.t.connection
  · simp [check_read_watch, hc, TraceAdds_refl]
  · cases hd : w.t.disconnected
    · cases hr : w.t.read_watch with
      | some rw =>
        obtain ⟨h1, h2, h3, h4, evs, h5, h6⟩ := check_read_watch_connected env w rw hc hd hr
        refine ⟨h2, h3, h4, by rw [h1], by rw [h1]; exact hd, evs ++ [_],
          by rw [h5, List.append_assoc], ?_⟩
        intro e he
        rcases List.mem_append.mp he with h | h
        · obtain ⟨st, hst⟩ := h6 e h
          subst hst; rfl
        · simp only [List.mem_singleton] at h
          subst h; rfl
      | none =>
        obtain ⟨h1, h2, h3, h4, h5⟩ := get_is_authenticated_fields env (_dbus_transport_ref w)
        obtain ⟨b, w2, hA⟩ : ∃ b w2,
            _dbus_transport_get_is_authenticated env (_dbus_transport_ref w) = (b, w2) :=
          ⟨_, _, rfl⟩
        rw [hA] at h1 h2 h3 h4 h5
        obtain ⟨t2, a2, c2, l2, tr2⟩ := w2
        simp only at h1 h2 h3 h4 h5
        subst h1 h2 h3 h4
        have htr : TraceAdds Event.is_watch_check w
            { t := w.t, auth := w.auth, conn := w.conn, loader := w.loader, trace := tr2 } := by
          rcases h5 with h | h
          · exact ⟨[], by simpa [_dbus_transport_ref] using h, by simp⟩
          · exact ⟨[.auth_do_work (env.auth_do_work w.trace)],
              by simpa [_dbus_transport_ref] using h, by simp [Event.is_watch_check]⟩
        obtain ⟨evs, hev, hall⟩ := htr
        simp only at hev
        simp only [check_read_watch, hA, hc, hd]
        cases b
        · cases hp : w.t.receive_credentials_pending
          · simp [hr, hp, hc, hd, _dbus_connection_toggle_watch, emit,
              _dbus_transport_unref, _dbus_auth_do_work, _dbus_transport_ref]
            refine ⟨evs ++ [.auth_do_work (env.auth_do_work tr2)], by simp [hev], ?_⟩
            intro e he
            rcases List.mem_append.mp he with h | h
            · exact hall e h
            · simp only [List.mem_singleton] at h
              subst h; rfl
          · simp [hr, hp, hc, hd, _dbus_connection_toggle_watch, emit,
              _dbus_transport_unref, _dbus_auth_do_work, _dbus_transport_ref]
            exact ⟨evs, by simp [hev], hall⟩
        · simp [hr, hc, hd, _dbus_connection_toggle_watch, emit,
              _dbus_transport_unref, _dbus_auth_do_work, _dbus_transport_ref]
          exact ⟨evs, by simp [hev], hall⟩
    · simp only [check_read_watch, hc, hd]
      cases hr : w.t.read_watch
      · simp [TraceAdds_refl, hd]
      · simp only [Option.isSome_some, if_true, emit]
        exact ⟨rfl, rfl, rfl, rfl, hd, [_], rfl, by simp [Event.is_watch_check]⟩

/-- What `check_write_watch` leaves alone, whatever the state. -/
theorem check_write_watch_frame (env : Env) (w : World) :
    (check_write_watch env w).conn = w.conn ∧ (check_write_watch env w).auth = w.auth ∧
    (check_write_watch env w).loader = w.loader ∧
    (check_write_watch env w).t.read_watch = w.t.read_watch ∧
    (check_write_watch env w).t.disconnected = w.t.disconnected ∧
    TraceAdds Event.is_watch_check w (check_write_watch env w) := by
  cases hc : w.t.connection
  · simp [check_write_watch, hc, TraceAdds_refl]
  · cases hd : w.t.disconnected
    · cases hr : w.t.write_watch with
      | some rw =>
        obtain ⟨h1, h2, h3, h4, evs, h5, h6⟩ := check_write_watch_connected env w rw hc hd hr
        refine ⟨h2, h3, h4, by rw [h1], by rw [h1]; exact hd, evs ++ [_],
          by rw [h5, List.append_assoc], ?_⟩
        intro e he
        rcases List.mem_append.mp he with h | h
        · obtain ⟨st, hst⟩ := h6 e h
          subst hst; rfl
        · simp only [List.mem_singleton] at h
          subst h; rfl
      | none =>
        obtain ⟨h1, h2, h3, h4, h5⟩ := get_is_authenticated_fields env (_dbus_transport_ref w)
        obtain ⟨b, w2, hA⟩ : ∃ b w2,
            _dbus_transport_get_is_authenticated env (_dbus_transport_ref w) = (b, w2) :=
          ⟨_, _, rfl⟩
        rw [hA] at h1 h2 h3 h4 h5
        obtain ⟨t2, a2, c2, l2, tr2⟩ := w2
        simp only at h1 h2 h3 h4 h5
        subst h1 h2 h3 h4
        have htr : TraceAdds Event.is_watch_check w
            { t := w.t, auth := w.auth, conn := w.conn, loader := w.loader, trace := tr2 } := by
          rcases h5 with h | h
          · exact ⟨[], by simpa [_dbus_transport_ref] using h, by simp⟩
          · exact ⟨[.auth_do_work (env.auth_do_work w.trace)],
              by simpa [_dbus_transport_ref] using h, by simp [Event.is_watch_check]⟩
        obtain ⟨evs, hev, hall⟩ := htr
        simp only at hev
        simp only [check_write_watch, hA, hc, hd]
        cases b
        · cases hp : w.t.send_credentials_pending
          · simp [hr, hp, hc, hd, _dbus_connection_toggle_watch, emit,
              _dbus_transport_unref, _dbus_auth_do_work, _dbus_transport_ref]
            refine ⟨evs ++ [.auth_do_work (env.auth_do_work tr2)], by simp [hev], ?_⟩
            intro e he
            rcases List.mem_append.mp he with h | h
            · exact hall e h
            · simp only [List.mem_singleton] at h
              subst h; rfl
          · simp [hr, hp, hc, hd, _dbus_connection_toggle_watch, emit,
              _dbus_transport_unref, _dbus_auth_do_work, _dbus_transport_ref]
            exact ⟨evs, by simp [hev], hall⟩
        · simp [hr, hc, hd, _dbus_connection_toggle_watch, emit,
              _dbus_transport_unref, _dbus_auth_do_work, _dbus_transport_ref]
          exact ⟨evs, by simp [hev], hall⟩
    · simp only [check_write_watch, hc, hd]
      cases hr : w.t.write_watch
      · simp [TraceAdds_refl, hd]
      · simp only [Option.isSome_some, if_true, emit]
        exact ⟨rfl, rfl, rfl, rfl, hd, [_], rfl, by simp [Event.is_watch_check]⟩

/-- The read watch recomputed on an authenticated, connected, attached
transport: one toggle to `live_messages_size < max_live_messages_size`, nothing
else changes. -/
theorem check_read_watch_authenticated (env : Env) (w : World) (rw : DBusWatch)
    (ha : w.t.authenticated = true) (hc : w.t.connection = true)
    (hd : w.t.disconnected = false) (hr : w.t.read_watch = some rw) :
    check_read_watch env w
      = { w with
          t := { w.t with
                 read_watch := some
                   { rw with
                     enabled := decide (w.t.live_messages_size < w.t.max_live_messages_size) } },
          trace := w.trace ++ [.toggle_watch rw.id
                   (decide (w.t.live_messages_size < w.t.max_live_messages_size))] } := by
  obtain ⟨t, au, co, lo, tr⟩ := w
  cases t
  simp only at ha hc hd hr
  subst ha hc hd hr
  simp [check_read_watch, _dbus_transport_get_is_authenticated, _dbus_transport_ref,
    _dbus_transport_unref, _dbus_connection_toggle_watch, emit]

/-- The write watch recomputed on an authenticated, connected, attached
transport: one toggle to `messages_need_sending`, nothing else changes. -/
theorem check_write_watch_authenticated (env : Env) (w : World) (ww : DBusWatch)
    (ha : w.t.authenticated = true) (hc : w.t.connection = true)
    (hd : w.t.disconnected = false) (hw : w.t.write_watch = some ww) :
    check_write_watch env w
      = { w with
          t := { w.t with write_watch := some { ww with enabled := w.t.messages_need_sending } },
          trace := w.trace ++ [.toggle_watch ww.id w.t.messages_need_sending] } := by
  obtain ⟨t, au, co, lo, tr⟩ := w
  cases t
  simp only at ha hc hd hw
  subst ha hc hd hw
  simp [check_write_watch, _dbus_transport_get_is_authenticated, _dbus_transport_ref,
    _dbus_transport_unref, _dbus_connection_toggle_watch, emit]

/-- With the counter at or above the ceiling, any number of recomputes leaves
the read watch disabled and the other fields as they were. -/
theorem check_read_watch_iterate_full (env : Env) (n : Nat) :
    ∀ (w : World) (rw : DBusWatch), w.t.authenticated = true → w.t.connection = true →
      w.t.disconnected = false → w.t.read_watch = some rw →
      w.t.max_live_messages_size ≤ w.t.live_messages_size →
      (Nat.iterate (check_read_watch env) (n + 1) w).t
        = { w.t with read_watch := some { rw with enabled := false } } := by
  induction n with
  | zero =>
    intro w rw ha hc hd hr hfull
    simp only [Function.iterate_succ, Function.iterate_zero, Function.comp_apply, id_eq,
      check_read_watch_authenticated env w rw ha hc hd hr]
    simp [not_lt.mpr hfull]
  | succ k ih =>
    intro w rw ha hc hd hr hfull
    rw [Function.iterate_succ_apply]
    have hstep := check_read_watch_authenticated env w rw ha hc hd hr
    rw [ih (check_read_watch env w) { rw with enabled := false }
      (by rw [hstep]; exact ha) (by rw [hstep]; exact hc) (by rw [hstep]; exact hd)
      (by rw [hstep]; simp [not_lt.mpr hfull]) (by rw [hstep]; exact hfull)]
    rw [hstep]

/-- A pass of `do_reading` gets past its checks only on a connected transport
whose read watch is enabled. -/
theorem do_reading_check_inr (env : Env) (w w1 : World) (total : Int)
    (h : do_reading_check env w total = .inr w1) :
    w1.t.disconnected = false ∧ dbus_watch_get_enabled w1.t.read_watch = true := by
  unfold do_reading_check at h
  simp only at h
  split_ifs at h <;> simp_all [emit]
  all_goals (subst h; simp_all)

/-- After `do_io_error` on a connected transport the transport is disconnected
and its descriptor closed; the events added are those of the teardown. -/
theorem do_io_error_connected (w : World) (hd : w.t.disconnected = false) :
    (do_io_error w).t.disconnected = true ∧ (do_io_error w).t.fd = -1 ∧
    (do_io_error w).t.read_watch = none ∧ (do_io_error w).t.write_watch = none ∧
    ∃ evs, (do_io_error w).trace = w.trace ++ evs ∧ ∀ e ∈ evs, e.is_teardown = true := by
  obtain ⟨_, _, _, _, _, hev⟩ := do_io_error_frame w
  refine ⟨?_, ?_, ?_, ?_, hev⟩ <;>
  · cases hr : w.t.read_watch <;> cases hw : w.t.write_watch <;> cases hc : w.t.connection <;>
      simp [do_io_error, _dbus_transport_disconnect, _dbus_transport_ref, _dbus_transport_unref,
        unix_disconnect, free_watches, emit, _dbus_connection_remove_watch, hd, hr, hw, hc]

/-- The read of a pass that finds the peer gone: `bytes_read` is 0, nothing is
decoded or queued, and no assertion fails. -/
theorem read_message_bytes_zero (env : Env) (w : World)
    (hpend : w.auth.needs_decoding = true → w.t.encoded_incoming = [])
    (hzero : env.sock_read (read_history w) w.t.max_bytes_read_per_iteration = .data []) :
    (read_message_bytes env w).1 = some (.data []) ∧
    (read_message_bytes env w).2.t.disconnected = w.t.disconnected ∧
    ∃ post, (read_message_bytes env w).2.trace
        = read_history w ++ .sock_read w.t.fd w.t.max_bytes_read_per_iteration (.data []) :: post ∧
      ∀ e ∈ post, e = .loader_return_buffer 0 := by
  unfold read_message_bytes
  cases hn : w.auth.needs_decoding
  · simp [read_history, hn] at hzero
    simp [emit, hzero, ReadResult.count, read_history, hn]
  · have he := hpend hn
    simp [read_history, hn] at hzero
    simp [emit, hzero, ReadResult.count, ReadResult.bytes, he, read_history, hn]

/-- Passes that go round the loop can be run first. -/
theorem do_reading_passes_loop (env : Env) (k : Nat) :
    ∀ (f : Nat) (w0 w : World) (t0 total : Int),
      do_reading_passes env k w0 t0 = some (w, total) →
      do_reading_loop env (k + f) w0 t0 = do_reading_loop env f w total := by
  induction k with
  | zero =>
    intro f w0 w t0 total h
    simp only [do_reading_passes, Option.some.injEq, Prod.mk.injEq] at h
    rw [h.1, h.2, Nat.zero_add]
  | succ k ih =>
    intro f w0 w t0 total h
    unfold do_reading_passes at h
    rw [Nat.add_right_comm]
    split at h
    · exact absurd h (by simp)
    · rename_i w1 hc
      split at h
      · rename_i w2 total2 hp
        conv_lhs => unfold do_reading_loop
        simp only [hc, hp]
        exact ih f w2 w total2 total h
      · exact absurd h (by simp)

theorem do_io_error_adds (w : World) : TraceAdds Event.is_teardown w (do_io_error w) :=
  (do_io_error_frame w).2.2.2.2.2

/-- The credential flags survive `do_io_error`. -/
theorem do_io_error_pending (w : World) :
    (do_io_error w).t.send_credentials_pending = w.t.send_credentials_pending ∧
    (do_io_error w).t.receive_credentials_pending = w.t.receive_credentials_pending := by
  cases hd : w.t.disconnected
  · cases hr : w.t.read_watch <;> cases hw : w.t.write_watch <;> cases hc : w.t.connection <;>
      simp [do_io_error, _dbus_transport_disconnect, _dbus_transport_ref, _dbus_transport_unref,
        unix_disconnect, free_watches, emit, _dbus_connection_remove_watch, hd, hr, hw, hc]
  · rw [do_io_error_of_disconnected _ hd]
    exact ⟨rfl, rfl⟩

theorem TraceAdds_then_emit {P : Event → Bool} {w w1 : World} (e : Event) (h : P e = true)
    (h1 : TraceAdds P w w1) : TraceAdds P w (emit e w1) :=
  TraceAdds_trans h1 (TraceAdds_emit e w1 h)

theorem TraceAdds_then_emit_set_t {P : Event → Bool} {w w1 : World} (e : Event)
    (t : DBusTransportUnix) (h : P e = true) (h1 : TraceAdds P w w1) :
    TraceAdds P w { emit e w1 with t := t } :=
  TraceAdds_trans h1 (TraceAdds_emit e w1 h)

theorem TraceAdds_then_io_error {P : Event → Bool} {w w1 : World}
    (hP : ∀ e, Event.is_teardown e = true → P e = true)
    (h1 : TraceAdds P w w1) : TraceAdds P w (do_io_error w1) :=
  TraceAdds_trans h1 (TraceAdds_mono (do_io_error_adds w1) hP)

/-- The events of `exchange_credentials`: credential traffic and teardown, then
`set_credentials` exactly when both flags are clear at the end. -/
theorem exchange_credentials_events (env : Env) (dr dw : Bool) (w : World) :
    ∃ evs, (∀ e ∈ evs, e.is_credential_step = true) ∧
      (exchange_credentials env dr dw w).trace
        = w.trace ++ evs ++
          (if (exchange_credentials env dr dw w).t.send_credentials_pending
                || (exchange_credentials env dr dw w).t.receive_credentials_pending
           then [] else [.auth_set_credentials]) := by
  have hmono : ∀ e, Event.is_teardown e = true → Event.is_credential_step e = true := by
    intro e h
    simp [Event.is_credential_step, h]
  have key : ∀ w2 : World, TraceAdds Event.is_credential_step w w2 →
      ∃ evs, (∀ e ∈ evs, e.is_credential_step = true) ∧
        (if !(w2.t.send_credentials_pending || w2.t.receive_credentials_pending)
          then emit .auth_set_credentials w2 else w2).trace
        = w.trace ++ evs ++
          (if (if !(w2.t.send_credentials_pending || w2.t.receive_credentials_pending)
                then emit .auth_set_credentials w2 else w2).t.send_credentials_pending
              || (if !(w2.t.send_credentials_pending || w2.t.receive_credentials_pending)
                then emit .auth_set_credentials w2 else w2).t.receive_credentials_pending
           then [] else [.auth_set_credentials]) := by
    intro w2 h2
    obtain ⟨evs, hev, hall⟩ := h2
    refine ⟨evs, hall, ?_⟩
    cases hp : (w2.t.send_credentials_pending || w2.t.receive_credentials_pending)
    · simp [hp, emit, hev]
    · simp [hp, hev]
  unfold exchange_credentials
  refine key _ ?_
  dsimp only
  split_ifs <;>
    repeat (first
      | exact TraceAdds_refl _ _
      | apply TraceAdds_then_io_error hmono
      | apply TraceAdds_then_emit_set_t _ _ rfl)

theorem teardown_is_auth_io : ∀ e, Event.is_teardown e = true → Event.is_auth_io e = true := by
  intro e h
  cases e <;> simp_all [Event.is_teardown, Event.is_auth_io]

theorem read_data_into_auth_adds (env : Env) (w : World) :
    TraceAdds Event.is_auth_io w (read_data_into_auth env w).2.2 := by
  unfold read_data_into_auth
  dsimp only
  split_ifs
  · repeat (first
      | exact TraceAdds_refl _ _
      | apply TraceAdds_then_io_error teardown_is_auth_io
      | apply TraceAdds_then_emit _ rfl
      | apply TraceAdds_then_emit_set_t _ _ rfl)
  · split <;>
    · dsimp only
      repeat (first
        | exact TraceAdds_refl _ _
        | apply TraceAdds_then_io_error teardown_is_auth_io
        | apply TraceAdds_then_emit _ rfl
        | apply TraceAdds_then_emit_set_t _ _ rfl)
  · repeat (first
      | exact TraceAdds_refl _ _
      | apply TraceAdds_then_io_error teardown_is_auth_io
      | apply TraceAdds_then_emit _ rfl
      | apply TraceAdds_then_emit_set_t _ _ rfl)

theorem write_data_from_auth_adds (env : Env) (w : World) :
    TraceAdds Event.is_auth_io w (write_data_from_auth env w).2 := by
  unfold write_data_from_auth _dbus_write
  dsimp only
  split
  · repeat (first
      | exact TraceAdds_refl _ _
      | apply TraceAdds_then_io_error teardown_is_auth_io
      | apply TraceAdds_then_emit _ rfl
      | apply TraceAdds_then_emit_set_t _ _ rfl)
  · split
    · split_ifs <;>
        repeat (first
          | exact TraceAdds_refl _ _
          | apply TraceAdds_then_io_error teardown_is_auth_io
          | apply TraceAdds_then_emit _ rfl
          | apply TraceAdds_then_emit_set_t _ _ rfl)
    all_goals
      repeat (first
        | exact TraceAdds_refl _ _
        | apply TraceAdds_then_io_error teardown_is_auth_io
        | apply TraceAdds_then_emit _ rfl
        | apply TraceAdds_then_emit_set_t _ _ rfl)

theorem auth_io_is_auth_step : ∀ e, Event.is_auth_io e = true → Event.is_auth_step e = true := by
  intro e h
  cases e <;> simp_all [Event.is_auth_step, Event.is_auth_io]

/-- One pass of the `do_authentication` loop, after its credential exchange,
only asks the auth engine for its state and moves auth bytes. -/
theorem do_authentication_pass_adds (env : Env) (dr dw : Bool) (w : World) :
    TraceAdds Event.is_auth_step (exchange_credentials env dr dw w)
      (do_authentication_pass env dr dw w).world := by
  have hio : ∀ e, Event.is_teardown e = true → Event.is_auth_step e = true :=
    fun e h => auth_io_is_auth_step e (teardown_is_auth_io e h)
  have hrd := fun w1 => TraceAdds_mono (read_data_into_auth_adds env w1) auth_io_is_auth_step
  have hwr := fun w1 => TraceAdds_mono (write_data_from_auth_adds env w1) auth_io_is_auth_step
  have hdw : TraceAdds Event.is_auth_step (exchange_credentials env dr dw w)
      (_dbus_auth_do_work env (exchange_credentials env dr dw w)).2 :=
    TraceAdds_emit _ _ rfl
  unfold do_authentication_pass
  dsimp only
  split_ifs <;> (try split) <;>
    first
    | exact TraceAdds_refl _ _
    | exact hdw
    | exact TraceAdds_trans hdw (hrd _)
    | exact TraceAdds_trans hdw (hwr _)
    | exact TraceAdds_then_io_error hio hdw

theorem credential_step_not_set_credentials :
    ∀ e, Event.is_credential_step e = true → Event.is_set_credentials e = false := by
  intro e h
  cases e <;> first
    | rfl
    | simp [Event.is_credential_step, Event.is_credential, Event.is_teardown] at h

theorem auth_step_not_set_credentials :
    ∀ e, Event.is_auth_step e = true → Event.is_set_credentials e = false := by
  intro e h
  cases e <;> first
    | rfl
    | simp [Event.is_auth_step, Event.is_auth_io, Event.is_teardown] at h

theorem TraceAdds_any {P : Event → Bool} {w w1 : World} (h : TraceAdds P w w1) :
    TraceAdds (fun _ => true) w w1 :=
  TraceAdds_mono h (fun _ _ => rfl)

theorem OomSeen_after {w w1 w2 : World} {P : Event → Bool} (h1 : TraceAdds P w w1)
    (h2 : OomSeen w1 w2) : OomSeen w w2 := by
  obtain ⟨e1, he1, _⟩ := h1
  obtain ⟨e2, he2, hp2⟩ := h2
  exact ⟨e1 ++ e2, by rw [he2, he1, List.append_assoc], by simp [List.any_append, hp2]⟩

theorem OomSeen_before {w w1 w2 : World} {P : Event → Bool} (h1 : OomSeen w w1)
    (h2 : TraceAdds P w1 w2) : OomSeen w w2 := by
  obtain ⟨e1, he1, hp1⟩ := h1
  obtain ⟨e2, he2, _⟩ := h2
  exact ⟨e1 ++ e2, by rw [he2, he1, List.append_assoc], by simp [List.any_append, hp1]⟩

theorem get_is_authenticated_adds (env : Env) (w : World) :
    TraceAdds Event.is_watch_check w (_dbus_transport_get_is_authenticated env w).2 := by
  rcases (get_is_authenticated_fields env w).2.2.2.2 with h | h
  · exact ⟨[], by simpa using h, by simp⟩
  · exact ⟨[_], h, by simp [Event.is_watch_check]⟩

theorem exchange_credentials_adds (env : Env) (dr dw : Bool) (w : World) :
    TraceAdds (fun _ => true) w (exchange_credentials env dr dw w) := by
  obtain ⟨evs, _, h⟩ := exchange_credentials_events env dr dw w
  exact ⟨_, by rw [h, List.append_assoc], fun _ _ => rfl⟩

/-- A read into the auth buffer reports OOM only after a read failing with
ENOMEM. -/
theorem read_data_into_auth_oom (env : Env) (w : World)
    (h : (read_data_into_auth env w).2.1 = true) :
    OomSeen w (read_data_into_auth env w).2.2 := by
  unfold read_data_into_auth at h ⊢
  dsimp only at h ⊢
  generalize env.sock_read (emit .auth_get_buffer w).trace
    (emit .auth_get_buffer w).t.max_bytes_read_per_iteration = res at h ⊢
  rcases res with bs | e
  · simp only [ReadResult.count] at h
    split_ifs at h
  · cases e <;> simp [ReadResult.count] at h ⊢
    exact ⟨[.auth_get_buffer,
        .sock_read w.t.fd w.t.max_bytes_read_per_iteration (.err .ENOMEM),
        .auth_return_buffer 0], by simp [emit], by simp [Event.is_auth_oom]⟩

/-- A pass of the `do_authentication` loop leaves with the OOM flag only after
a sign of memory pressure. -/
theorem do_authentication_pass_oom (env : Env) (dr dw : Bool) (w w1 : World)
    (h : do_authentication_pass env dr dw w = .out w1 true) : OomSeen w w1 := by
  unfold do_authentication_pass at h
  dsimp only at h
  have hx := exchange_credentials_adds env dr dw w
  generalize exchange_credentials env dr dw w = X at h hx
  by_cases hp : (X.t.send_credentials_pending || X.t.receive_credentials_pending) = true
  · simp [hp] at h
  · simp only [hp, if_false, Bool.false_eq_true, _dbus_auth_do_work] at h
    cases hst : env.auth_do_work X.trace <;> simp only [hst] at h
    · cases dr
      · simp at h
      · simp only [Bool.not_true, Bool.false_eq_true, if_false] at h
        split_ifs at h with hrd
        simp only [LoopStep.out.injEq] at h
        have hoom := read_data_into_auth_oom env (emit (.auth_do_work .WAITING_FOR_INPUT) X) h.2
        rw [h.1] at hoom
        exact OomSeen_after (TraceAdds_trans hx (TraceAdds_emit _ _ rfl)) hoom
    · simp only [LoopStep.out.injEq, and_true] at h
      rw [← h]
      obtain ⟨evs, hev, _⟩ := hx
      exact ⟨evs ++ [.auth_do_work .WAITING_FOR_MEMORY], by simp [emit, hev],
        by simp [Event.is_auth_oom]⟩
    · cases dw
      · simp at h
      · simp only [Bool.not_true, Bool.false_eq_true, if_false] at h
        split_ifs at h
        simp at h
    · simp at h
    · simp at h

theorem do_authentication_pass_grows (env : Env) (dr dw : Bool) (w : World) :
    TraceAdds (fun _ => true) w (do_authentication_pass env dr dw w).world :=
  TraceAdds_trans (exchange_credentials_adds env dr dw w)
    (TraceAdds_any (do_authentication_pass_adds env dr dw w))

/-- The `do_authentication` loop leaves with the OOM flag only after a sign of
memory pressure. -/
theorem do_authentication_loop_oom (env : Env) (dr dw : Bool) :
    ∀ (fuel : Nat) (w w1 : World),
      do_authentication_loop env dr dw fuel w = some (w1, true) → OomSeen w w1 := by
  intro fuel
  induction fuel with
  | zero =>
    intro w w1 h
    unfold do_authentication_loop at h
    dsimp only at h
    split_ifs at h <;> simp at h
  | succ f ih =>
    intro w w1 h
    have ha := get_is_authenticated_adds env w
    unfold do_authentication_loop at h
    dsimp only at h
    split_ifs at h
    · simp at h
    · simp at h
    have hg := do_authentication_pass_grows env dr dw (_dbus_transport_get_is_authenticated env w).2
    split at h
    · rename_i w2 n hpass
      rw [hpass] at hg
      exact OomSeen_after ha (OomSeen_after hg (ih w2 w1 h))
    · rename_i w2 oom hpass
      simp only [Option.some.injEq, Prod.mk.injEq] at h
      rw [h.1, h.2] at hpass
      exact OomSeen_after ha (do_authentication_pass_oom env dr dw _ w1 hpass)

/-- The function `do_authentication` returns FALSE only after a sign of memory
pressure. -/
theorem do_authentication_oom (env : Env) (fuel : Nat) (dr dw : Bool) (w w1 : World)
    (h : do_authentication env fuel dr dw w = some (w1, false)) : OomSeen w w1 := by
  unfold do_authentication at h
  split at h
  · exact absurd h (by simp)
  · rename_i w2 oom hloop
    simp only [Option.some.injEq, Prod.mk.injEq, Bool.not_eq_false'] at h
    obtain ⟨hw1, hoom⟩ := h
    rw [hoom] at hloop
    have h1 : OomSeen w w2 :=
      OomSeen_after (TraceAdds_refl (fun _ => true) w)
        (do_authentication_loop_oom env dr dw fuel (_dbus_transport_ref w) w2 hloop)
    have h2 := (check_read_watch_frame env w2).2.2.2.2.2
    have h3 := (check_write_watch_frame env (check_read_watch env w2)).2.2.2.2.2
    have h4 : OomSeen w (check_write_watch env (check_read_watch env w2)) :=
      OomSeen_before (OomSeen_before h1 h2) h3
    rw [← hw1]
    exact h4

/-- The first pass of the `do_authentication` loop on a connected transport
with no credentials pending, the auth engine waiting for input and reading
permitted, by the answer of the socket read. -/
theorem auth_first_pass (env : Env) (fuel : Nat) (dw : Bool) (w : World) (res : ReadResult)
    (hauth : w.t.authenticated = false) (hd : w.t.disconnected = false)
    (hs : w.t.send_credentials_pending = false) (hr : w.t.receive_credentials_pending = false)
    (h0 : env.auth_do_work w.trace ≠ .AUTHENTICATED)
    (h1 : env.auth_do_work
        (w.trace ++ [.auth_do_work (env.auth_do_work w.trace), .auth_set_credentials])
      = .WAITING_FOR_INPUT)
    (hres : env.sock_read (auth_read_history env w) w.t.max_bytes_read_per_iteration = res) :
    do_authentication_loop env true dw (fuel + 1) (_dbus_transport_ref w)
      = match res with
        | .data bs =>
          if bs.length = 0 then some (do_io_error (auth_read_world env w res), false)
          else do_authentication_loop env true dw fuel (auth_read_world env w res)
        | .err .ENOMEM => some (auth_read_world env w res, true)
        | .err .EAGAIN => some (auth_read_world env w res, false)
        | .err .EWOULDBLOCK => some (auth_read_world env w res, false)
        | .err _ => some (do_io_error (auth_read_world env w res), false) := by
  obtain ⟨t, au, co, lo, tr⟩ := w
  cases t
  simp only at hauth hd hs hr h0 h1 hres
  subst hauth hd hs hr
  simp only [auth_read_history, List.append_assoc, List.cons_append, List.nil_append] at hres
  have hb : (env.auth_do_work tr == DBusAuthState.AUTHENTICATED) = false := by
    simpa using h0
  conv_lhs => unfold do_authentication_loop
  simp [_dbus_transport_get_is_authenticated, _dbus_transport_ref, _dbus_auth_do_work, emit,
    h0, _dbus_transport_get_is_connected, do_authentication_pass, exchange_credentials, h1,
    read_data_into_auth, hres, auth_read_world, auth_read_history, hb]
  rcases res with bs | e
  · cases bs <;> simp [ReadResult.count, hb]
  · cases e <;> simp [ReadResult.count, hb]

/-- From the exit of the loop after a read that delivered nothing to the
return of `do_authentication`. -/
theorem auth_exit_of_loop (env : Env) (fuel : Nat) (dw : Bool) (w X : World)
    (res : ReadResult) (oom disc : Bool) (hcount : ¬ res.count > 0)
    (hloop : do_authentication_loop env true dw (fuel + 1) (_dbus_transport_ref w)
      = some (X, oom))
    (hdisc : X.t.disconnected = disc)
    (htr : TraceAdds Event.is_teardown (auth_read_world env w res) X) :
    AuthReadExit env fuel dw w res (!oom) disc := by
  obtain ⟨rest0, hrest0, hall0⟩ := htr
  obtain ⟨_, _, _, _, hd1, rest1, hrest1, hall1⟩ := check_read_watch_frame env X
  obtain ⟨_, _, _, _, hd2, rest2, hrest2, hall2⟩ :=
    check_write_watch_frame env (check_read_watch env X)
  refine ⟨_dbus_transport_unref (check_write_watch env (check_read_watch env X)),
    rest0 ++ (rest1 ++ rest2), ?_, ?_, ?_, ?_⟩
  · unfold do_authentication
    simp only [hloop]
  · show (check_write_watch env (check_read_watch env X)).t.disconnected = disc
    rw [hd2, hd1, hdisc]
  · show (check_write_watch env (check_read_watch env X)).trace = _
    rw [hrest2, hrest1, hrest0]
    simp [auth_read_world, hcount]
  · intro e he
    rcases List.mem_append.mp he with h | h
    · exact Or.inl (hall0 e h)
    · rcases List.mem_append.mp h with h | h
      · exact Or.inr (hall1 e h)
      · exact Or.inr (hall2 e h)

theorem teardown_is_io_step : ∀ e, Event.is_teardown e = true → Event.is_io_step e = true := by
  intro e h
  cases e <;> first
    | rfl
    | simp [Event.is_teardown] at h

theorem watch_check_is_io_step :
    ∀ e, Event.is_watch_check e = true → Event.is_io_step e = true := by
  intro e h
  cases e <;> first
    | rfl
    | simp [Event.is_watch_check] at h

theorem auth_step_is_io_step : ∀ e, Event.is_auth_step e = true → Event.is_io_step e = true := by
  intro e h
  cases e <;> first
    | rfl
    | simp [Event.is_auth_step, Event.is_auth_io, Event.is_teardown] at h

theorem credential_step_is_io_step :
    ∀ e, Event.is_credential_step e = true → Event.is_io_step e = true := by
  intro e h
  cases e <;> first
    | rfl
    | simp [Event.is_credential_step, Event.is_credential, Event.is_teardown] at h

theorem read_step_is_io_step : ∀ e, Event.is_read_step e = true → Event.is_io_step e = true := by
  intro e h
  cases e <;> first
    | rfl
    | simp [Event.is_read_step] at h

theorem TraceAdds_then_emit_of_set_t {P : Event → Bool} {w w1 : World} (e : Event)
    (t : DBusTransportUnix) (h : P e = true) (h1 : TraceAdds P w w1) :
    TraceAdds P w (emit e { w1 with t := t }) :=
  TraceAdds_trans h1 ⟨[e], rfl, by simpa using h⟩

theorem TraceAdds_then_emit_of_set_conn {P : Event → Bool} {w w1 : World} (e : Event)
    (c : DBusConnection) (h : P e = true) (h1 : TraceAdds P w w1) :
    TraceAdds P w (emit e { w1 with conn := c }) :=
  TraceAdds_trans h1 ⟨[e], rfl, by simpa using h⟩

theorem TraceAdds_then_emit_of_set_loader {P : Event → Bool} {w w1 : World} (e : Event)
    (l : List Byte) (h : P e = true) (h1 : TraceAdds P w w1) :
    TraceAdds P w (emit e { w1 with loader := l }) :=
  TraceAdds_trans h1 ⟨[e], rfl, by simpa using h⟩

theorem exchange_credentials_io (env : Env) (dr dw : Bool) (w : World) :
    TraceAdds Event.is_io_step w (exchange_credentials env dr dw w) := by
  obtain ⟨evs, hall, h⟩ := exchange_credentials_events env dr dw w
  refine ⟨_, by rw [h, List.append_assoc], ?_⟩
  intro e he
  rcases List.mem_append.mp he with h1 | h1
  · exact credential_step_is_io_step e (hall e h1)
  · split_ifs at h1
    · simp at h1
    · simp only [List.mem_singleton] at h1
      subst h1; rfl

theorem do_authentication_pass_io (env : Env) (dr dw : Bool) (w : World) :
    TraceAdds Event.is_io_step w (do_authentication_pass env dr dw w).world :=
  TraceAdds_trans (exchange_credentials_io env dr dw w)
    (TraceAdds_mono (do_authentication_pass_adds env dr dw w) auth_step_is_io_step)

theorem get_is_authenticated_io (env : Env) (w : World) :
    TraceAdds Event.is_io_step w (_dbus_transport_get_is_authenticated env w).2 :=
  TraceAdds_mono (get_is_authenticated_adds env w) watch_check_is_io_step

theorem check_read_watch_io (env : Env) (w : World) :
    TraceAdds Event.is_io_step w (check_read_watch env w) :=
  TraceAdds_mono (check_read_watch_frame env w).2.2.2.2.2 watch_check_is_io_step

theorem check_write_watch_io (env : Env) (w : World) :
    TraceAdds Event.is_io_step w (check_write_watch env w) :=
  TraceAdds_mono (check_write_watch_frame env w).2.2.2.2.2 watch_check_is_io_step

theorem do_authentication_loop_io (env : Env) (dr dw : Bool) :
    ∀ (fuel : Nat) (w w1 : World) (oom : Bool),
      do_authentication_loop env dr dw fuel w = some (w1, oom) →
      TraceAdds Event.is_io_step w w1 := by
  intro fuel
  induction fuel with
  | zero =>
    intro w w1 oom h
    have ha := get_is_authenticated_io env w
    unfold do_authentication_loop at h
    dsimp only at h
    split_ifs at h <;> simp only [Option.some.injEq, Prod.mk.injEq] at h <;>
      (rw [← h.1]; exact ha)
  | succ f ih =>
    intro w w1 oom h
    have ha := get_is_authenticated_io env w
    unfold do_authentication_loop at h
    dsimp only at h
    split_ifs at h
    · simp only [Option.some.injEq, Prod.mk.injEq] at h
      rw [← h.1]; exact ha
    · simp only [Option.some.injEq, Prod.mk.injEq] at h
      rw [← h.1]; exact ha
    have hg := do_authentication_pass_io env dr dw (_dbus_transport_get_is_authenticated env w).2
    split at h
    · rename_i w2 n hpass
      rw [hpass] at hg
      exact TraceAdds_trans ha (TraceAdds_trans hg (ih w2 w1 oom h))
    · rename_i w2 oom2 hpass
      simp only [Option.some.injEq, Prod.mk.injEq] at h
      rw [hpass, h.1] at hg
      exact TraceAdds_trans ha hg

theorem do_authentication_io (env : Env) (fuel : Nat) (dr dw : Bool) (w w1 : World) (r : Bool)
    (h : do_authentication env fuel dr dw w = some (w1, r)) :
    TraceAdds Event.is_io_step w w1 := by
  unfold do_authentication at h
  split at h
  · exact absurd h (by simp)
  · rename_i w2 oom hloop
    simp only [Option.some.injEq, Prod.mk.injEq] at h
    have h1 : TraceAdds Event.is_io_step w w2 :=
      do_authentication_loop_io env dr dw fuel (_dbus_transport_ref w) w2 oom hloop
    have h4 : TraceAdds Event.is_io_step w (check_write_watch env (check_read_watch env w2)) :=
      TraceAdds_trans h1 (TraceAdds_trans (check_read_watch_io env w2)
        (check_write_watch_io env _))
    rw [← h.1]
    exact h4
theorem socket_bytes_read_append (a b : List Event) :
    socket_bytes_read (a ++ b) = socket_bytes_read a + socket_bytes_read b := by
  induction a with
  | nil => simp [socket_bytes_read]
  | cons e es ih => simp [socket_bytes_read, ih, Nat.add_assoc]

theorem socket_bytes_read_zero (evs : List Event)
    (h : ∀ e ∈ evs, Event.is_socket_read e = false) : socket_bytes_read evs = 0 := by
  induction evs with
  | nil => rfl
  | cons e es ih =>
    have he := h e (List.mem_cons_self _ _)
    have hes := ih (fun x hx => h x (List.mem_cons_of_mem _ hx))
    cases e <;> simp_all [socket_bytes_read, Event.read_length, Event.is_socket_read]

theorem positive_reads_zero (evs : List Event)
    (h : ∀ e ∈ evs, Event.is_socket_read e = false) :
    evs.countP Event.is_positive_read = 0 := by
  rw [List.countP_eq_zero]
  intro e he
  have := h e he
  cases e <;> simp_all [Event.is_positive_read, Event.is_socket_read]

/-- What the read of one `do_reading` pass adds: calls of the read step, among
them at most one socket read, which delivers no more than the budget and no
more than `bytes_read`. -/
theorem read_message_bytes_reads (env : Env) (w : World)
    (hb : ReadsBounded env w.t.max_bytes_read_per_iteration)
    (hM : 0 ≤ w.t.max_bytes_read_per_iteration) :
    (read_message_bytes env w).2.t.max_bytes_read_per_iteration
      = w.t.max_bytes_read_per_iteration ∧
    ∃ evs, (read_message_bytes env w).2.trace = w.trace ++ evs ∧
      (∀ e ∈ evs, e.is_read_step = true) ∧
      evs.countP Event.is_positive_read ≤ 1 ∧
      (socket_bytes_read evs : Int) ≤ w.t.max_bytes_read_per_iteration ∧
      ∀ bs, (read_message_bytes env w).1 = some (.data bs) →
        socket_bytes_read evs ≤ bs.length := by
  obtain ⟨t, au, co, lo, tr⟩ := w
  obtain ⟨nenc, ndec⟩ := au
  obtain ⟨rc, cn, dc, an, sv, mns, scp, rcp, lms, mlms, fd, rwt, wwt, mbr, mbw, mbwr, eo, ei⟩ := t
  simp only [ReadsBounded] at hM hb
  unfold read_message_bytes
  cases ndec
  · simp only [Bool.false_eq_true, if_false]
    have hres := hb (tr ++ [Event.loader_get_buffer])
    simp only [emit]
    generalize env.sock_read (tr ++ [Event.loader_get_buffer]) mbr = res at hres
    rcases res with bs | e
    · have hlen := hres bs rfl
      simp [Event.is_read_step, socket_bytes_read, Event.read_length,
        Event.is_positive_read, List.countP_cons, hlen, ReadResult.count, ReadResult.bytes]
      split_ifs <;> simp
    · simp [Event.is_read_step, socket_bytes_read, Event.read_length,
        Event.is_positive_read, List.countP_cons, hM, ReadResult.count, ReadResult.bytes]
  · simp only [if_true]
    cases ei with
    | cons c cs =>
      simp only [List.length_cons, gt_iff_lt, Nat.zero_lt_succ, if_true, ReadResult.count,
        beq_self_eq_true, Nat.cast_pos, _dbus_auth_decode_data, emit]
      generalize env.auth_decode (tr ++ [Event.loader_get_buffer]) (c :: cs) = r
      obtain ⟨ok, out⟩ := r
      cases ok <;>
        simp [Event.is_read_step, socket_bytes_read, Event.read_length,
          Event.is_positive_read, List.countP_cons, hM]
    | nil =>
      simp only [List.length_nil, gt_iff_lt, lt_self_iff_false, if_false]
      have hres := hb tr
      generalize env.sock_read tr mbr = res at hres
      rcases res with bs | e
      · have hlen := hres bs rfl
        cases bs with
        | nil =>
          simp [emit, ReadResult.count, ReadResult.bytes, Event.is_read_step,
            socket_bytes_read, Event.read_length, Event.is_positive_read, List.countP_cons, hM]
        | cons b bs =>
          simp only [emit, ReadResult.count, ReadResult.bytes, List.nil_append,
            beq_self_eq_true, if_true, List.length_cons, Nat.cast_pos, Nat.zero_lt_succ,
            _dbus_auth_decode_data]
          generalize env.auth_decode
            (tr ++ [Event.sock_read fd mbr (ReadResult.data (b :: bs))] ++
              [Event.loader_get_buffer]) (b :: bs) = r
          obtain ⟨ok, out⟩ := r
          cases ok <;>
            simp [Event.is_read_step, socket_bytes_read, Event.read_length,
              Event.is_positive_read, List.countP_cons, hM] <;> simpa using hlen
      · simp [emit, ReadResult.count, ReadResult.bytes, Event.is_read_step,
          socket_bytes_read, Event.read_length, Event.is_positive_read, List.countP_cons, hM]

/-- The read budget survives `do_io_error`. -/
theorem do_io_error_budget (w : World) :
    (do_io_error w).t.max_bytes_read_per_iteration = w.t.max_bytes_read_per_iteration := by
  cases hd : w.t.disconnected
  · cases hr : w.t.read_watch <;> cases hw : w.t.write_watch <;> cases hc : w.t.connection <;>
      simp [do_io_error, _dbus_transport_disconnect, _dbus_transport_ref, _dbus_transport_unref,
        unix_disconnect, free_watches, emit, _dbus_connection_remove_watch, hd, hr, hw, hc]
  · rw [do_io_error_of_disconnected _ hd]

/-- The counts of a stretch made of a read step followed by calls that are no
socket reads. -/
theorem reads_then_quiet (evs post : List Event)
    (hq : ∀ e ∈ post, Event.is_socket_read e = false) :
    (evs ++ post).countP Event.is_positive_read = evs.countP Event.is_positive_read ∧
    socket_bytes_read (evs ++ post) = socket_bytes_read evs := by
  rw [List.countP_append, socket_bytes_read_append, positive_reads_zero post hq,
    socket_bytes_read_zero post hq]
  exact ⟨rfl, rfl⟩

theorem teardown_not_socket_read :
    ∀ e, Event.is_teardown e = true → Event.is_socket_read e = false := by
  intro e h
  cases e <;> first
    | rfl
    | simp [Event.is_teardown] at h

/-- What one pass of `do_reading` after its checks adds: no poll and no lock, at
most one socket read, which delivers no more than the budget; and when the pass
goes round the loop, the running total has grown by at least one and by at
least the bytes the socket delivered. -/
theorem do_reading_pass_reads (env : Env) (w : World) (total : Int)
    (hb : ReadsBounded env w.t.max_bytes_read_per_iteration)
    (hM : 0 ≤ w.t.max_bytes_read_per_iteration) :
    (do_reading_pass env w total).world.t.max_bytes_read_per_iteration
      = w.t.max_bytes_read_per_iteration ∧
    ∃ evs, (do_reading_pass env w total).world.trace = w.trace ++ evs ∧
      (∀ e ∈ evs, e.is_io_step = true) ∧
      evs.countP Event.is_positive_read ≤ 1 ∧
      (socket_bytes_read evs : Int) ≤ w.t.max_bytes_read_per_iteration ∧
      ∀ w2 total2, do_reading_pass env w total = .next w2 total2 →
        total + 1 ≤ total2 ∧ total + (socket_bytes_read evs : Int) ≤ total2 := by
  obtain ⟨hmax, evs, htr, hcls, hcnt, hbytes, hdata⟩ := read_message_bytes_reads env w hb hM
  have hio : ∀ e ∈ evs, e.is_io_step = true := fun e he => read_step_is_io_step e (hcls e he)
  unfold do_reading_pass
  generalize read_message_bytes env w = rd at hmax htr hdata
  obtain ⟨r, w1⟩ := rd
  simp only at hmax htr hdata ⊢
  have hstay : w1.t.max_bytes_read_per_iteration = w.t.max_bytes_read_per_iteration ∧
      ∃ evs0, w1.trace = w.trace ++ evs0 ∧ (∀ e ∈ evs0, e.is_io_step = true) ∧
        evs0.countP Event.is_positive_read ≤ 1 ∧
        (socket_bytes_read evs0 : Int) ≤ w.t.max_bytes_read_per_iteration :=
    ⟨hmax, evs, htr, hio, hcnt, hbytes⟩
  have herr : (do_io_error w1).t.max_bytes_read_per_iteration
        = w.t.max_bytes_read_per_iteration ∧
      ∃ evs0, (do_io_error w1).trace = w.trace ++ evs0 ∧ (∀ e ∈ evs0, e.is_io_step = true) ∧
        evs0.countP Event.is_positive_read ≤ 1 ∧
        (socket_bytes_read evs0 : Int) ≤ w.t.max_bytes_read_per_iteration := by
    obtain ⟨td, htd, hall⟩ := do_io_error_adds w1
    have hq := reads_then_quiet evs td (fun e he => teardown_not_socket_read e (hall e he))
    refine ⟨by rw [do_io_error_budget, hmax], evs ++ td, by rw [htd, htr, List.append_assoc],
      ?_, by rw [hq.1]; exact hcnt, by rw [hq.2]; exact hbytes⟩
    intro e he
    rcases List.mem_append.mp he with h | h
    · exact hio e h
    · exact teardown_is_io_step e (hall e h)
  rcases r with _ | res
  · obtain ⟨h1, e0, h2, h3, h4, h5⟩ := hstay
    exact ⟨h1, e0, h2, h3, h4, h5, fun _ _ h => absurd h (by simp)⟩
  · rcases res with bs | e
    · simp only
      by_cases hz : (bs.length == 0) = true
      · simp only [hz, if_true]
        obtain ⟨h1, e0, h2, h3, h4, h5⟩ := herr
        exact ⟨h1, e0, h2, h3, h4, h5, fun _ _ h => absurd h (by simp)⟩
      · simp only [hz, if_false]
        have hq := reads_then_quiet evs [.queue_messages (env.queue_messages w1.trace).1]
          (by simp [Event.is_socket_read])
        have hpos : 0 < bs.length := by
          rcases Nat.eq_zero_or_pos bs.length with h | h
          · exact absurd (by simp [h]) hz
          · exact h
        have hle := hdata bs rfl
        have hqt : (_dbus_transport_queue_messages env w1).2.trace
            = w.trace ++ (evs ++ [.queue_messages (env.queue_messages w1.trace).1]) := by
          simp [_dbus_transport_queue_messages, emit, htr]
        have hqm : (_dbus_transport_queue_messages env w1).2.t.max_bytes_read_per_iteration
            = w.t.max_bytes_read_per_iteration := by
          simpa [_dbus_transport_queue_messages, emit] using hmax
        have hall : ∀ e ∈ evs ++ [Event.queue_messages (env.queue_messages w1.trace).1],
            e.is_io_step = true := by
          intro e he
          rcases List.mem_append.mp he with h | h
          · exact hio e h
          · simp only [List.mem_singleton] at h
            subst h; rfl
        by_cases hq1 : (_dbus_transport_queue_messages env w1).1 = true
        · simp only [hq1, if_true]
          exact ⟨hqm, _, hqt, hall, by rw [hq.1]; exact hcnt, by rw [hq.2]; exact hbytes,
            fun _ _ h => absurd h (by simp)⟩
        · simp only [hq1, if_false]
          refine ⟨hqm, _, hqt, hall, by rw [hq.1]; exact hcnt, by rw [hq.2]; exact hbytes, ?_⟩
          intro w2 total2 h
          have h2 := (LoopStep.next.inj h).2
          rw [hq.2, ← h2]
          constructor <;> omega
    · obtain ⟨h1, e0, h2, h3, h4, h5⟩ := hstay
      obtain ⟨g1, f0, g2, g3, g4, g5⟩ := herr
      cases e <;> first
        | exact ⟨h1, e0, h2, h3, h4, h5, fun _ _ h => absurd h (by simp)⟩
        | exact ⟨g1, f0, g2, g3, g4, g5, fun _ _ h => absurd h (by simp)⟩

/-- The read budget survives `check_read_watch`. -/
theorem check_read_watch_budget (env : Env) (w : World) :
    (check_read_watch env w).t.max_bytes_read_per_iteration
      = w.t.max_bytes_read_per_iteration := by
  cases hc : w.t.connection
  · simp [check_read_watch, hc]
  · cases hd : w.t.disconnected
    · cases hr : w.t.read_watch with
      | some rw =>
        rw [(check_read_watch_connected env w rw hc hd hr).1]
      | none =>
        obtain ⟨h1, h2, h3, h4, _⟩ := get_is_authenticated_fields env (_dbus_transport_ref w)
        obtain ⟨b, w2, hA⟩ : ∃ b w2,
            _dbus_transport_get_is_authenticated env (_dbus_transport_ref w) = (b, w2) :=
          ⟨_, _, rfl⟩
        rw [hA] at h1 h2 h3 h4
        obtain ⟨t2, a2, c2, l2, tr2⟩ := w2
        simp only at h1 h2 h3 h4
        subst h1 h2 h3 h4
        simp only [check_read_watch, hA, hc, hd]
        cases b
        · cases hp : w.t.receive_credentials_pending <;>
            simp [hr, hp, _dbus_connection_toggle_watch, emit, _dbus_transport_unref,
              _dbus_auth_do_work, _dbus_transport_ref]
        · simp [hr, _dbus_connection_toggle_watch, emit, _dbus_transport_unref,
            _dbus_auth_do_work, _dbus_transport_ref]
    · simp only [check_read_watch, hc, hd]
      split_ifs <;> simp [emit]

/-- The head of a `do_reading` pass only recomputes the read watch (and may
fail an assertion); it goes on to the read only while the running total is
within the budget. -/
theorem do_reading_check_adds (env : Env) (w : World) (total : Int) :
    (∀ r, do_reading_check env w total = .inl r → TraceAdds Event.is_watch_check w r.1) ∧
    (∀ w1, do_reading_check env w total = .inr w1 →
      TraceAdds Event.is_watch_check w w1 ∧
      w1.t.max_bytes_read_per_iteration = w.t.max_bytes_read_per_iteration ∧
      total ≤ w.t.max_bytes_read_per_iteration) ∧
    (w.t.max_bytes_read_per_iteration < total → ∃ r, do_reading_check env w total = .inl r) := by
  have hf := (check_read_watch_frame env w).2.2.2.2.2
  have hbud := check_read_watch_budget env w
  have hf2 : TraceAdds Event.is_watch_check w (emit (.assert_failed 597) (check_read_watch env w)) :=
    TraceAdds_then_emit _ rfl hf
  unfold do_reading_check
  dsimp only
  refine ⟨?_, ?_, ?_⟩
  · intro r h
    split_ifs at h <;> simp only [Sum.inl.injEq] at h <;> rw [← h] <;> first
      | exact hf
      | exact hf2
  · intro w1 h
    split_ifs at h with h1 <;> simp only [Sum.inr.injEq] at h <;> rw [← h]
    · exact ⟨hf, hbud, by rw [hbud] at h1; exact not_lt.mp h1⟩
    · exact ⟨hf2, hbud, by rw [hbud] at h1; exact not_lt.mp h1⟩
  · intro h
    rw [← hbud] at h
    simp [h]
theorem watch_check_not_socket_read :
    ∀ e, Event.is_watch_check e = true → Event.is_socket_read e = false := by
  intro e h
  cases e <;> first
    | rfl
    | simp [Event.is_watch_check] at h

/-- The `again` loop of `do_reading` returns once the fuel covers the budget
left, having made no poll and no lock; while the running total is within the
budget `M`, at most `M + 1 - total` reads deliver bytes from here on and they
deliver at most `2 * M - total` bytes; beyond the budget there is no read. -/
theorem do_reading_loop_budget (env : Env) (M : Nat) (hb : ReadsBounded env (M : Int)) :
    ∀ (fuel : Nat) (w : World) (total : Int),
      w.t.max_bytes_read_per_iteration = (M : Int) → 0 ≤ total →
      (M : Int) + 1 ≤ total + (fuel : Int) →
      ∃ w1 oom evs, do_reading_loop env fuel w total = some (w1, oom) ∧
        w1.trace = w.trace ++ evs ∧ (∀ e ∈ evs, e.is_io_step = true) ∧
        (total ≤ (M : Int) →
          ((evs.countP Event.is_positive_read : Nat) : Int) ≤ (M : Int) + 1 - total ∧
          (socket_bytes_read evs : Int) ≤ 2 * (M : Int) - total) ∧
        ((M : Int) < total →
          evs.countP Event.is_positive_read = 0 ∧ socket_bytes_read evs = 0) := by
  intro fuel
  induction fuel with
  | zero =>
    intro w total hM h0 hfuel
    obtain ⟨hinl, _, hover⟩ := do_reading_check_adds env w total
    have hlt : w.t.max_bytes_read_per_iteration < total := by
      rw [hM]; simp at hfuel; omega
    obtain ⟨r, hr⟩ := hover hlt
    obtain ⟨evs, htr, hall⟩ := hinl r hr
    have hq := fun e he => watch_check_not_socket_read e (hall e he)
    refine ⟨r.1, r.2, evs, ?_, htr, fun e he => watch_check_is_io_step e (hall e he), ?_, ?_⟩
    · unfold do_reading_loop
      simp only [hr]
    · intro hle
      rw [hM] at hlt
      omega
    · intro _
      exact ⟨positive_reads_zero evs hq, socket_bytes_read_zero evs hq⟩
  | succ f ih =>
    intro w total hM h0 hfuel
    obtain ⟨hinl, hinr, _⟩ := do_reading_check_adds env w total
    unfold do_reading_loop
    cases hck : do_reading_check env w total with
    | inl r =>
      obtain ⟨evs, htr, hall⟩ := hinl r hck
      have hq := fun e he => watch_check_not_socket_read e (hall e he)
      refine ⟨r.1, r.2, evs, rfl, htr, fun e he => watch_check_is_io_step e (hall e he), ?_, ?_⟩
      · intro hle
        rw [positive_reads_zero evs hq, socket_bytes_read_zero evs hq]
        constructor <;> simp <;> omega
      · intro _
        exact ⟨positive_reads_zero evs hq, socket_bytes_read_zero evs hq⟩
    | inr w1 =>
      obtain ⟨⟨evs0, htr0, hall0⟩, hmax1, hle⟩ := hinr w1 hck
      have hq0 := fun e he => watch_check_not_socket_read e (hall0 e he)
      have hM1 : w1.t.max_bytes_read_per_iteration = (M : Int) := by rw [hmax1, hM]
      rw [hM] at hle
      obtain ⟨hmax2, evs1, htr1, hall1, hcnt1, hbytes1, hnext⟩ :=
        do_reading_pass_reads env w1 total (by rw [hM1]; exact hb)
          (by rw [hM1]; exact Int.ofNat_nonneg M)
      rw [hM1] at hbytes1 hmax2
      simp only
      cases hpass : do_reading_pass env w1 total with
      | out w2 oom =>
        rw [hpass] at htr1
        simp only [LoopStep.world] at htr1
        refine ⟨w2, oom, evs0 ++ evs1, rfl, by rw [htr1, htr0, List.append_assoc], ?_, ?_, ?_⟩
        · intro e he
          rcases List.mem_append.mp he with h | h
          · exact watch_check_is_io_step e (hall0 e h)
          · exact hall1 e h
        · intro _
          rw [List.countP_append, socket_bytes_read_append, positive_reads_zero evs0 hq0,
            socket_bytes_read_zero evs0 hq0]
          constructor
          · simp only [Nat.zero_add]
            omega
          · simp only [Nat.zero_add]
            omega
        · intro hlt
          omega
      | next w2 total2 =>
        rw [hpass] at htr1 hmax2
        simp only [LoopStep.world] at htr1 hmax2
        obtain ⟨hstep1, hstep2⟩ := hnext w2 total2 hpass
        obtain ⟨w3, oom, evs2, hloop, htr2, hall2, hin, hout⟩ :=
          ih w2 total2 hmax2 (by omega) (by push_cast at hfuel ⊢; omega)
        refine ⟨w3, oom, evs0 ++ (evs1 ++ evs2), hloop,
          by rw [htr2, htr1, htr0, List.append_assoc, List.append_assoc], ?_, ?_, ?_⟩
        · intro e he
          rcases List.mem_append.mp he with h | h
          · exact watch_check_is_io_step e (hall0 e h)
          · rcases List.mem_append.mp h with h | h
            · exact hall1 e h
            · exact hall2 e h
        · intro _
          rw [List.countP_append, List.countP_append, socket_bytes_read_append,
            socket_bytes_read_append, positive_reads_zero evs0 hq0,
            socket_bytes_read_zero evs0 hq0]
          simp only [Nat.zero_add]
          push_cast
          by_cases hin2 : total2 ≤ (M : Int)
          · obtain ⟨c2, b2⟩ := hin hin2
            constructor <;> omega
          · obtain ⟨c2, b2⟩ := hout (by omega)
            rw [c2, b2]
            constructor <;> simp <;> omega
        · intro hlt
          omega
theorem read_message_bytes_adds (env : Env) (w : World) :
    TraceAdds Event.is_read_step w (read_message_bytes env w).2 := by
  unfold read_message_bytes _dbus_auth_decode_data
  dsimp only
  split_ifs <;>
    repeat (first
      | exact TraceAdds_refl _ _
      | apply TraceAdds_then_emit _ rfl
      | apply TraceAdds_then_emit_set_t _ _ rfl
      | apply TraceAdds_then_emit_of_set_t _ _ rfl
      | apply TraceAdds_then_emit_of_set_loader _ _ rfl)

theorem do_reading_pass_io (env : Env) (w : World) (total : Int) :
    TraceAdds Event.is_io_step w (do_reading_pass env w total).world := by
  have hrd := TraceAdds_mono (read_message_bytes_adds env w) read_step_is_io_step
  have herr := TraceAdds_then_io_error teardown_is_io_step hrd
  have hq : TraceAdds Event.is_io_step w
      (_dbus_transport_queue_messages env (read_message_bytes env w).2).2 :=
    TraceAdds_then_emit_of_set_t _ _ rfl hrd
  unfold do_reading_pass
  dsimp only
  split <;> (try split_ifs) <;> first
    | exact hrd
    | exact herr
    | exact hq

theorem do_reading_loop_io (env : Env) :
    ∀ (fuel : Nat) (w w1 : World) (total : Int) (oom : Bool),
      do_reading_loop env fuel w total = some (w1, oom) → TraceAdds Event.is_io_step w w1 := by
  intro fuel
  induction fuel with
  | zero =>
    intro w w1 total oom h
    obtain ⟨hinl, _, _⟩ := do_reading_check_adds env w total
    unfold do_reading_loop at h
    cases hck : do_reading_check env w total with
    | inl r =>
      simp only [hck, Option.some.injEq] at h
      have := hinl r hck
      rw [h] at this
      exact TraceAdds_mono this watch_check_is_io_step
    | inr w2 => simp [hck] at h
  | succ f ih =>
    intro w w1 total oom h
    obtain ⟨hinl, hinr, _⟩ := do_reading_check_adds env w total
    unfold do_reading_loop at h
    cases hck : do_reading_check env w total with
    | inl r =>
      simp only [hck, Option.some.injEq] at h
      have := hinl r hck
      rw [h] at this
      exact TraceAdds_mono this watch_check_is_io_step
    | inr w2 =>
      simp only [hck] at h
      have h0 := TraceAdds_mono (hinr w2 hck).1 watch_check_is_io_step
      have hp := do_reading_pass_io env w2 total
      cases hpass : do_reading_pass env w2 total with
      | out w3 oom3 =>
        simp only [hpass, Option.some.injEq, Prod.mk.injEq] at h
        rw [hpass, LoopStep.world, h.1] at hp
        exact TraceAdds_trans h0 hp
      | next w3 total3 =>
        simp only [hpass] at h
        rw [hpass, LoopStep.world] at hp
        exact TraceAdds_trans h0 (TraceAdds_trans hp (ih w3 w1 total3 oom h))

theorem do_reading_io (env : Env) (fuel : Nat) (w w1 : World) (r : Bool)
    (h : do_reading env fuel w = some (w1, r)) : TraceAdds Event.is_io_step w w1 := by
  have ha := get_is_authenticated_io env w
  unfold do_reading at h
  dsimp only at h
  split_ifs at h
  · simp only [Option.some.injEq, Prod.mk.injEq] at h
    rw [← h.1]; exact ha
  · split at h
    · exact absurd h (by simp)
    · rename_i w2 oom hloop
      simp only [Option.some.injEq, Prod.mk.injEq] at h
      rw [← h.1]
      exact TraceAdds_trans ha (do_reading_loop_io env fuel _ w2 0 oom hloop)
theorem encode_outgoing_io (env : Env) (header body : List Byte) (w : World) :
    TraceAdds Event.is_io_step w (encode_outgoing env header body w).2 := by
  unfold encode_outgoing _dbus_auth_encode_data
  dsimp only
  split_ifs <;>
    repeat (first
      | exact TraceAdds_refl _ _
      | apply TraceAdds_then_emit_set_t _ _ rfl
      | apply TraceAdds_then_emit_of_set_t _ _ rfl)

theorem write_message_bytes_io (env : Env) (header body : List Byte) (w : World) :
    TraceAdds Event.is_io_step w (write_message_bytes env header body w).2.2 := by
  unfold write_message_bytes _dbus_write _dbus_write_two
  dsimp only
  split_ifs <;> exact TraceAdds_emit _ _ rfl

theorem TraceAdds_zero {P : Event → Bool} {w w1 : World} (h : w1.trace = w.trace) :
    TraceAdds P w w1 :=
  ⟨[], by rw [h, List.append_nil], by simp⟩

theorem TraceAdds_one {P : Event → Bool} {w w1 : World} (a : Event)
    (h : w1.trace = w.trace ++ [a]) (ha : P a = true) : TraceAdds P w w1 :=
  ⟨[a], h, by simpa using ha⟩

theorem TraceAdds_two {P : Event → Bool} {w w1 : World} (a b : Event)
    (h : w1.trace = w.trace ++ [a] ++ [b]) (ha : P a = true) (hb : P b = true) :
    TraceAdds P w w1 :=
  ⟨[a, b], by rw [h, List.append_assoc]; rfl, by simp [ha, hb]⟩

theorem account_written_io (message : DBusMessage) (res : WriteResult) (tot total : Int)
    (w : World) :
    TraceAdds Event.is_io_step w (account_written message res tot total w).world := by
  unfold account_written _dbus_connection_message_sent
  split <;> (try dsimp only) <;> (try split_ifs) <;> (try simp only [LoopStep.world]) <;>
    first
    | exact TraceAdds_zero rfl
    | exact TraceAdds_then_io_error teardown_is_io_step (TraceAdds_refl _ _)
    | exact TraceAdds_one _ rfl rfl
    | exact TraceAdds_two _ _ rfl rfl rfl

theorem do_writing_pass_io (env : Env) (w : World) (total : Int) :
    TraceAdds Event.is_io_step w (do_writing_pass env w total).world := by
  have hg : TraceAdds Event.is_io_step w (emit .get_message_to_send w) :=
    TraceAdds_emit _ _ rfl
  unfold do_writing_pass _dbus_connection_get_message_to_send
  dsimp only
  split_ifs
  · exact TraceAdds_refl _ _
  · exact TraceAdds_refl _ _
  · split
    · exact TraceAdds_then_emit _ rfl hg
    · rename_i message _
      have hl : TraceAdds Event.is_io_step w
          (emit (.message_lock message) (emit .get_message_to_send w)) :=
        TraceAdds_then_emit _ rfl hg
      have he := encode_outgoing_io env message.header message.body
        (emit (.message_lock message) (emit .get_message_to_send w))
      have hwe := write_message_bytes_io env message.header message.body
        (encode_outgoing env message.header message.body
          (emit (.message_lock message) (emit .get_message_to_send w))).2
      have hae := account_written_io message
        (write_message_bytes env message.header message.body
          (encode_outgoing env message.header message.body
            (emit (.message_lock message) (emit .get_message_to_send w))).2).1
        (write_message_bytes env message.header message.body
          (encode_outgoing env message.header message.body
            (emit (.message_lock message) (emit .get_message_to_send w))).2).2.1 total
        (write_message_bytes env message.header message.body
          (encode_outgoing env message.header message.body
            (emit (.message_lock message) (emit .get_message_to_send w))).2).2.2
      have hwp := write_message_bytes_io env message.header message.body
        (emit (.message_lock message) (emit .get_message_to_send w))
      have hap := account_written_io message
        (write_message_bytes env message.header message.body
          (emit (.message_lock message) (emit .get_message_to_send w))).1
        (write_message_bytes env message.header message.body
          (emit (.message_lock message) (emit .get_message_to_send w))).2.1 total
        (write_message_bytes env message.header message.body
          (emit (.message_lock message) (emit .get_message_to_send w))).2.2
      have r1 := TraceAdds_trans hl he
      have r2 := TraceAdds_trans r1 (TraceAdds_trans hwe hae)
      have r3 := TraceAdds_trans hl (TraceAdds_trans hwp hap)
      split_ifs <;> first
        | exact hl
        | exact r1
        | exact r2
        | exact r3
theorem do_writing_loop_io (env : Env) :
    ∀ (fuel : Nat) (w w1 : World) (total : Int) (oom : Bool),
      do_writing_loop env fuel w total = some (w1, oom) → TraceAdds Event.is_io_step w w1 := by
  intro fuel
  induction fuel with
  | zero =>
    intro w w1 total oom h
    unfold do_writing_loop at h
    split_ifs at h
    simp only [Option.some.injEq, Prod.mk.injEq] at h
    rw [← h.1]; exact TraceAdds_refl _ _
  | succ f ih =>
    intro w w1 total oom h
    unfold do_writing_loop at h
    split_ifs at h
    · simp only [Option.some.injEq, Prod.mk.injEq] at h
      rw [← h.1]; exact TraceAdds_refl _ _
    · have hp := do_writing_pass_io env w total
      cases hpass : do_writing_pass env w total with
      | out w3 oom3 =>
        simp only [hpass, Option.some.injEq, Prod.mk.injEq] at h
        rw [hpass, LoopStep.world, h.1] at hp
        exact hp
      | next w3 total3 =>
        simp only [hpass] at h
        rw [hpass, LoopStep.world] at hp
        exact TraceAdds_trans hp (ih w3 w1 total3 oom h)

theorem do_writing_io (env : Env) (fuel : Nat) (w w1 : World) (r : Bool)
    (h : do_writing env fuel w = some (w1, r)) : TraceAdds Event.is_io_step w w1 := by
  have ha := get_is_authenticated_io env w
  unfold do_writing at h
  dsimp only at h
  split_ifs at h
  · simp only [Option.some.injEq, Prod.mk.injEq] at h
    rw [← h.1]; exact ha
  · simp only [Option.some.injEq, Prod.mk.injEq] at h
    rw [← h.1]; exact ha
  · split at h
    · exact absurd h (by simp)
    · rename_i w2 oom hloop
      simp only [Option.some.injEq, Prod.mk.injEq] at h
      rw [← h.1]
      exact TraceAdds_trans ha (do_writing_loop_io env fuel _ w2 0 oom hloop)

theorem reading_option_io (env : Env) (fuel : Nat) (c : Bool) (wa w2 : World)
    (h : (if c = true then (do_reading env fuel wa).map Prod.fst else some wa) = some w2) :
    TraceAdds Event.is_io_step wa w2 := by
  split_ifs at h
  · cases hread : do_reading env fuel wa with
    | none => simp [hread] at h
    | some p =>
      simp only [hread, Option.map_some', Option.some.injEq] at h
      rw [← h]
      exact do_reading_io env fuel wa p.1 p.2 hread
  · simp only [Option.some.injEq] at h
    rw [← h]; exact TraceAdds_refl _ _

theorem writing_option_io (env : Env) (fuel : Nat) (c : Bool) (wa w2 : World)
    (h : (if c = true then (do_writing env fuel wa).map Prod.fst else some wa) = some w2) :
    TraceAdds Event.is_io_step wa w2 := by
  split_ifs at h
  · cases hwrite : do_writing env fuel wa with
    | none => simp [hwrite] at h
    | some p =>
      simp only [hwrite, Option.map_some', Option.some.injEq] at h
      rw [← h]
      exact do_writing_io env fuel wa p.1 p.2 hwrite
  · simp only [Option.some.injEq] at h
    rw [← h]; exact TraceAdds_refl _ _

/-- The dispatch after the poll makes no poll and takes no lock. -/
theorem iteration_dispatch_io (env : Env) (fuel flags : Nat) (res : PollResult) (w w1 : World)
    (h : iteration_dispatch env fuel flags res w = some w1) :
    TraceAdds Event.is_io_step w w1 := by
  unfold iteration_dispatch at h
  split at h
  · simp only [Option.some.injEq] at h
    rw [← h]; exact TraceAdds_refl _ _
  · rename_i n revents
    split_ifs at h
    · simp only [Option.some.injEq] at h
      rw [← h]; exact TraceAdds_then_io_error teardown_is_io_step (TraceAdds_refl _ _)
    · dsimp only at h
      split at h
      · exact absurd h (by simp)
      · rename_i wa ra hauth
        have h1 := do_authentication_io env fuel _ _ w wa ra hauth
        split at h
        · exact absurd h (by simp)
        · rename_i w2 hrd
          exact TraceAdds_trans h1 (TraceAdds_trans (reading_option_io env fuel _ wa w2 hrd)
            (writing_option_io env fuel _ w2 w1 h))

/-- Choosing the event set makes no poll and takes no lock. -/
theorem iteration_events_io (env : Env) (flags : Nat) (w : World) :
    TraceAdds Event.is_io_step w (iteration_events env flags w).2 := by
  have ha := get_is_authenticated_io env w
  have hw : TraceAdds Event.is_io_step w
      (_dbus_auth_do_work env (_dbus_transport_get_is_authenticated env w).2).2 :=
    TraceAdds_trans ha (TraceAdds_emit _ _ rfl)
  unfold iteration_events
  dsimp only
  split_ifs <;> first
    | exact ha
    | exact hw
/-- The loop of lines 900-904 returns with an answer other than EINTR, after
`k` interrupted polls and the answering one, nothing else having changed. -/
theorem poll_again_polls (env : Env) (fd : Int) (events : Nat) (tmo : Int) :
    ∀ (fuel : Nat) (w w1 : World) (res : PollResult),
      poll_again env fd events tmo fuel w = some (res, w1) →
      ∃ k, k < fuel ∧ res ≠ .err .EINTR ∧
        w1 = { w with trace := w.trace ++ poll_events fd events tmo k res } := by
  intro fuel
  induction fuel with
  | zero =>
    intro w w1 res h
    simp [poll_again] at h
  | succ f ih =>
    intro w w1 res h
    unfold poll_again at h
    dsimp only at h
    by_cases hint : env.poll w.trace fd events tmo = .err .EINTR
    · simp only [hint] at h
      obtain ⟨k, hk, hne, hw⟩ := ih _ w1 res h
      refine ⟨k + 1, by omega, hne, ?_⟩
      rw [hw]
      simp [emit, poll_events, List.replicate_succ]
    · have hsome : some (env.poll w.trace fd events tmo,
          emit (.poll fd events tmo (env.poll w.trace fd events tmo)) w) = some (res, w1) := by
        rw [← h]
        split
        · rename_i heq
          exact absurd heq hint
        · rfl
      simp only [Option.some.injEq, Prod.mk.injEq] at hsome
      refine ⟨0, by omega, by rw [← hsome.1]; exact hint, ?_⟩
      rw [← hsome.2, ← hsome.1]
      simp [emit, poll_events]

/-- The trace of a call of `unix_do_iteration` that returns: after the choice
of the event set, either that set is empty and nothing follows, or the
connection is unlocked when BLOCK is set, the polls follow (`k` interrupted
ones and the answering one, each with the caller's timeout when BLOCK is set
and 0 otherwise), the connection is locked again when BLOCK is set, and the
dispatch follows; before the polls and in the dispatch there is no poll, no
lock and no unlock. -/
theorem unix_do_iteration_trace (env : Env) (fuel flags : Nat) (tmo : Int) (w w1 : World)
    (h : unix_do_iteration env fuel flags tmo w = some w1) :
    ∃ pre, (iteration_events env flags w).2.trace = w.trace ++ pre ∧
      (∀ e ∈ pre, e.is_io_step = true) ∧
      ((iteration_events env flags w).1 = 0 → w1.trace = w.trace ++ pre) ∧
      ((iteration_events env flags w).1 ≠ 0 → ∃ k res post,
        k < fuel ∧ res ≠ .err .EINTR ∧ (∀ e ∈ post, e.is_io_step = true) ∧
        w1.trace = w.trace ++ pre
          ++ (if flag_set flags DBUS_ITERATION_BLOCK then [.connection_unlock] else [])
          ++ poll_events w.t.fd (iteration_events env flags w).1
              (if flag_set flags DBUS_ITERATION_BLOCK then tmo else 0) k res
          ++ (if flag_set flags DBUS_ITERATION_BLOCK then [.connection_lock] else [])
          ++ post) := by
  obtain ⟨pre, hpre, hall⟩ := iteration_events_io env flags w
  refine ⟨pre, hpre, hall, ?_, ?_⟩
  · intro h0
    unfold unix_do_iteration at h
    simp only [h0, bne_self_eq_false, Bool.false_eq_true, if_false, Option.some.injEq] at h
    rw [← h, hpre]
  · intro hne
    unfold unix_do_iteration at h
    have hb : ((iteration_events env flags w).1 != 0) = true := by simpa using hne
    simp only [hb, if_true] at h
    split at h
    · exact absurd h (by simp)
    · rename_i res w2 hpoll
      obtain ⟨k, hk, hres, hw2⟩ := poll_again_polls env _ _ _ fuel _ w2 res hpoll
      obtain ⟨post, hpost, hallp⟩ := iteration_dispatch_io env fuel flags res _ w1 h
      refine ⟨k, res, post, hk, hres, hallp, ?_⟩
      rw [hpost]
      cases hblock : flag_set flags DBUS_ITERATION_BLOCK <;>
        simp [hw2, emit, hpre, hblock]
theorem filter_poll_of_io_step (evs : List Event) (h : ∀ e ∈ evs, e.is_io_step = true) :
    evs.filter Event.is_poll = [] := by
  rw [List.filter_eq_nil_iff]
  intro e he
  have := h e he
  cases e <;> simp_all [Event.is_io_step, Event.is_poll_or_lock, Event.is_poll]

theorem filter_poll_events (fd : Int) (events : Nat) (tmo : Int) (k : Nat) (res : PollResult) :
    (poll_events fd events tmo k res).filter Event.is_poll = poll_events fd events tmo k res := by
  rw [List.filter_eq_self]
  intro e he
  simp only [poll_events, List.mem_append, List.mem_replicate, List.mem_singleton] at he
  rcases he with ⟨_, h⟩ | h <;> subst h <;> rfl

theorem filter_lock_of_io_step (evs : List Event) (h : ∀ e ∈ evs, e.is_io_step = true) :
    evs.filter Event.is_poll_or_lock = [] := by
  rw [List.filter_eq_nil_iff]
  intro e he
  have := h e he
  simpa [Event.is_io_step] using this

/-- What `_dbus_transport_new_for_fd` hands to the base: at most one call of
`_dbus_transport_init_base`, with the side and the address it was given; a
transport it returns has that side and keeps that address.  It closes no
descriptor and does not free the address. -/
theorem new_for_fd_base (env : CtorEnv) (fd : Int) (server : Bool) (address : String)
    (tr : List CtorEvent) :
    ∃ evs, (_dbus_transport_new_for_fd env fd server address tr).2 = tr ++ evs ∧
      (evs.filterMap CtorEvent.base_args = [] ∨
        evs.filterMap CtorEvent.base_args = [(server, address)]) ∧
      evs.filter CtorEvent.is_address_free = [] ∧ evs.filter CtorEvent.is_close = [] ∧
      ∀ t a, (_dbus_transport_new_for_fd env fd server address tr).1 = some (t, a) →
        t.is_server = server ∧ a = address ∧ t.fd = fd ∧
        evs.filterMap CtorEvent.base_args = [(server, address)] := by
  unfold _dbus_transport_new_for_fd _dbus_transport_init_base _dbus_string_init
  dsimp only
  split_ifs <;> (try split) <;> (try split) <;>
    simp [CtorEvent.base_args, CtorEvent.is_address_free, CtorEvent.is_close]

/-- The domain-socket constructor calls `_dbus_transport_init_base` at most
once, as a client and with the address built from the prefix and the path; a
transport it returns is a client and keeps that address. -/
theorem domain_socket_events (env : CtorEnv) (path : String) (abstract : Bool) :
    ((_dbus_transport_new_for_domain_socket env path abstract).2.filterMap CtorEvent.base_args
        = [] ∨
      (_dbus_transport_new_for_domain_socket env path abstract).2.filterMap CtorEvent.base_args
        = [(false, (if abstract then "unix:abstract=" else "unix:path=") ++ path)]) ∧
    (∀ t a, (_dbus_transport_new_for_domain_socket env path abstract).1 = some (t, a) →
      t.is_server = false ∧
      a = (if abstract then "unix:abstract=" else "unix:path=") ++ path ∧
      (_dbus_transport_new_for_domain_socket env path abstract).2.filterMap CtorEvent.base_args
        = [(false, (if abstract then "unix:abstract=" else "unix:path=") ++ path)]) := by
  unfold _dbus_transport_new_for_domain_socket _dbus_string_append _dbus_string_init
  dsimp only
  generalize (if abstract = true then "unix:abstract=" else "unix:path=") = p
  have hfd := fun fd tr => new_for_fd_base env fd false (p ++ path) tr
  by_cases h1 : env.string_init [] = true
  · by_cases h2 : env.string_append ([] ++ [CtorEvent.string_init StringId.address true]) = true
    · by_cases h3 : env.string_append
          ([] ++ [CtorEvent.string_init StringId.address true] ++
            [CtorEvent.string_append p true]) = true
      · simp only [h1, h2, h3, Bool.not_true, Bool.false_eq_true, if_false, if_true,
          String.empty_append]
        split_ifs with hneg
        · simp [CtorEvent.base_args]
        · obtain ⟨evs, htr, hor, _, _, hsome⟩ := hfd
            (env.connect ([CtorEvent.string_init StringId.address true] ++
              [CtorEvent.string_append p true] ++ [CtorEvent.string_append path true]))
            ([CtorEvent.string_init StringId.address true] ++
              [CtorEvent.string_append p true] ++ [CtorEvent.string_append path true] ++
              [CtorEvent.connect_unix_socket path abstract
                (env.connect ([CtorEvent.string_init StringId.address true] ++
                  [CtorEvent.string_append p true] ++ [CtorEvent.string_append path true]))] ++
              [CtorEvent.fd_set_close_on_exec
                (env.connect ([CtorEvent.string_init StringId.address true] ++
                  [CtorEvent.string_append p true] ++ [CtorEvent.string_append path true]))])
          split
          · rename_i hnone
            simp only [htr, List.filterMap_append, List.filterMap_cons, List.filterMap_nil,
              CtorEvent.base_args, List.append_nil, List.nil_append]
            refine ⟨hor, ?_⟩
            intro t a h
            exact absurd h (by simp)
          · rename_i transport hs
            obtain ⟨hsv, ha, _, hfm⟩ := hsome transport.1 transport.2 hs
            simp only [htr, List.filterMap_append, List.filterMap_cons, List.filterMap_nil,
              CtorEvent.base_args, List.append_nil, List.nil_append, hfm]
            refine ⟨Or.inr trivial, ?_⟩
            intro t a h
            simp only [Option.some.injEq] at h
            subst h
            exact ⟨hsv, ha, trivial⟩
      · simp only [List.nil_append, List.singleton_append, List.cons_append, Bool.not_eq_true]
          at h1 h2 h3
        simp [h1, h2, h3, CtorEvent.base_args]
    · simp only [List.nil_append, List.singleton_append, List.cons_append, Bool.not_eq_true]
        at h1 h2
      simp [h1, h2, CtorEvent.base_args]
  · simp [h1, CtorEvent.base_args]

/-- The four appends of the tcp constructor add no call of
`_dbus_transport_init_base`, and when all succeed the address reads
`tcp:host=<host>,port=<port>`. -/
theorem tcp_address_events (env : CtorEnv) (host : String) (port : Int)
    (tr : List CtorEvent) :
    ∃ evs, (tcp_address env host port tr).2.2 = tr ++ evs ∧
      evs.filterMap CtorEvent.base_args = [] ∧
      ((tcp_address env host port tr).1 = true →
        (tcp_address env host port tr).2.1
          = "tcp:host=" ++ host ++ ",port=" ++ toString port) := by
  unfold tcp_address _dbus_string_append _dbus_string_append_int
  dsimp only
  split_ifs <;> simp_all [CtorEvent.base_args]

/-- The tcp constructor calls `_dbus_transport_init_base` at most once, as a
client and with the address built from the host and the port; a transport it
returns is a client and keeps that address. -/
theorem tcp_socket_events (env : CtorEnv) (host : String) (port : Int) :
    ((_dbus_transport_new_for_tcp_socket env host port).2.filterMap CtorEvent.base_args = [] ∨
      (_dbus_transport_new_for_tcp_socket env host port).2.filterMap CtorEvent.base_args
        = [(false, "tcp:host=" ++ host ++ ",port=" ++ toString port)]) ∧
    (∀ t a, (_dbus_transport_new_for_tcp_socket env host port).1 = some (t, a) →
      t.is_server = false ∧
      a = "tcp:host=" ++ host ++ ",port=" ++ toString port ∧
      (_dbus_transport_new_for_tcp_socket env host port).2.filterMap CtorEvent.base_args
        = [(false, "tcp:host=" ++ host ++ ",port=" ++ toString port)]) := by
  unfold _dbus_transport_new_for_tcp_socket _dbus_string_init
  dsimp only
  obtain ⟨aevs, hatr, hafm, haddr⟩ :=
    tcp_address_events env host port ([] ++ [CtorEvent.string_init StringId.address
      (env.string_init [])])
  generalize tcp_address env host port ([] ++ [CtorEvent.string_init StringId.address
      (env.string_init [])]) = r at hatr haddr ⊢
  obtain ⟨ok, addr, atr⟩ := r
  dsimp only at hatr haddr ⊢
  subst hatr
  by_cases h1 : env.string_init [] = true
  · by_cases h2 : ok = true
    · have haddr2 := haddr h2
      subst haddr2
      subst h2
      simp only [h1, Bool.not_true, Bool.false_eq_true, if_false]
      by_cases hneg : env.connect ([] ++ [CtorEvent.string_init StringId.address true] ++ aevs) < 0
      · rw [if_pos hneg]
        simp [hafm, CtorEvent.base_args]
      · rw [if_neg hneg]
        obtain ⟨evs, htr, hor, _, _, hsome⟩ := new_for_fd_base env
          (env.connect ([CtorEvent.string_init StringId.address true] ++ aevs)) false
          ("tcp:host=" ++ host ++ ",port=" ++ toString port)
          ([CtorEvent.string_init StringId.address true] ++ aevs ++
            [CtorEvent.connect_tcp_socket host port
              (env.connect ([CtorEvent.string_init StringId.address true] ++ aevs))] ++
            [CtorEvent.fd_set_close_on_exec
              (env.connect ([CtorEvent.string_init StringId.address true] ++ aevs))])
        split
        · rename_i hnone
          simp only [htr, List.filterMap_append, List.filterMap_cons, List.filterMap_nil,
            CtorEvent.base_args, List.append_nil, List.nil_append, hafm]
          refine ⟨hor, ?_⟩
          intro t a h
          exact absurd h (by simp)
        · rename_i transport hs
          obtain ⟨hsv, ha, _, hfm⟩ := hsome transport.1 transport.2 hs
          simp only [htr, List.filterMap_append, List.filterMap_cons, List.filterMap_nil,
            CtorEvent.base_args, List.append_nil, List.nil_append, hfm, hafm]
          refine ⟨Or.inr trivial, ?_⟩
          intro t a h
          simp only [Option.some.injEq] at h
          subst h
          exact ⟨hsv, ha, trivial⟩
    · simp [h1, h2, hafm, CtorEvent.base_args]
  · simp [h1, hafm, CtorEvent.base_args]

/-- An upper-case letter lies in `A`..`Z`. -/
theorem isupper_range (c : Nat) (h : g_ascii_isupper c = true) : 65 ≤ c ∧ c ≤ 90 := by
  simpa [g_ascii_isupper] using h

/-- A lower-case letter lies in `a`..`z`. -/
theorem islower_range (c : Nat) (h : g_ascii_islower c = true) : 97 ≤ c ∧ c ≤ 122 := by
  simpa [g_ascii_islower] using h

/-- Lowering an upper-case letter adds 32. -/
theorem tolower_upper (c : Nat) (h : g_ascii_isupper c = true) :
    g_ascii_tolower c = c + 32 := by
  have := isupper_range c h
  simp only [g_ascii_tolower, h, if_true]
  try unfold Byte at *
  omega

/-- Lowering a lower-case letter changes nothing. -/
theorem tolower_lower (c : Nat) (h : g_ascii_islower c = true) : g_ascii_tolower c = c := by
  have := islower_range c h
  have hu : g_ascii_isupper c = false := by
    simp only [g_ascii_isupper, Bool.and_eq_false_imp, decide_eq_true_eq, decide_eq_false_iff_not]
    try unfold Byte at *
    omega
  simp [g_ascii_tolower, hu]

/-- Lowering a run of lower-case letters changes nothing. -/
theorem map_tolower_lower (ls : List Nat) (h : ∀ l ∈ ls, g_ascii_islower l = true) :
    ls.map g_ascii_tolower = ls := by
  induction ls with
  | nil => rfl
  | cons a ls ih =>
    simp only [List.map_cons, tolower_lower a (h a (List.mem_cons_self _ _)),
      ih (fun l hl => h l (List.mem_cons_of_mem _ hl))]

/-- Raising the lowered form of an upper-case letter gives the letter back. -/
theorem toupper_lowered (c : Nat) (h : g_ascii_isupper c = true) :
    g_ascii_toupper (c + 32) = c := by
  have := isupper_range c h
  have hl : g_ascii_islower (c + 32) = true := by
    simp only [g_ascii_islower, Bool.and_eq_true, decide_eq_true_eq]
    try unfold Byte at *
    omega
  simp only [g_ascii_toupper, hl, if_true]
  try unfold Byte at *
  omega

/-- The loop of `wincaps_to_uscore` copies a run of lower-case letters. -/
theorem wincaps_loop_lower (p q str : List Nat)
    (hp : ∀ l ∈ p, g_ascii_islower l = true) :
    wincaps_to_uscore_loop (p ++ q) str = wincaps_to_uscore_loop q (str ++ p) := by
  induction p generalizing str with
  | nil => simp
  | cons a p ih =>
    have hr := islower_range a (hp a (List.mem_cons_self _ _))
    have h0 : (a == 0) = false := by
      simp only [beq_eq_false_iff_ne, ne_eq]
      try unfold Byte at *
      omega
    have hu : g_ascii_isupper a = false := by
      simp only [g_ascii_isupper, Bool.and_eq_false_imp, decide_eq_true_eq,
        decide_eq_false_iff_not]
      try unfold Byte at *
      omega
    rw [List.cons_append, wincaps_to_uscore_loop]
    simp only [h0, hu, Bool.false_eq_true, if_false]
    rw [ih _ (fun l hl => hp l (List.mem_cons_of_mem _ hl))]
    simp

/-- The byte before the last one of a string of two or more bytes. -/
theorem getD_before_last (pre : List Nat) (a b : Nat) :
    (pre ++ [a, b]).getD ((pre ++ [a, b]).length - 2) 0 = a := by
  simp [List.getD_eq_getElem?_getD, List.getElem_append_right]

/-- After a lowered word the string has two or more bytes and the byte before
the last one is no underscore. -/
theorem word_end_clear (x : List Nat) (c : Nat) (ls : List Nat)
    (hc : g_ascii_isupper c = true) (hne : ls ≠ [])
    (hl : ∀ l ∈ ls, g_ascii_islower l = true) :
    ∃ pre a b, x ++ (c + 32) :: ls = pre ++ [a, b] ∧ a ≠ 95 := by
  have hcr := isupper_range c hc
  rcases List.eq_nil_or_concat ls with h | ⟨ls1, b, h⟩
  · exact absurd h hne
  · subst h
    rcases List.eq_nil_or_concat ls1 with h1 | ⟨ls2, a, h1⟩
    · subst h1
      refine ⟨x, c + 32, b, by simp, ?_⟩
      omega
    · subst h1
      have ha := islower_range a (hl a (by simp))
      refine ⟨x ++ (c + 32) :: ls2, a, b, by simp, ?_⟩
      omega

/-- The loop of `wincaps_to_uscore` on a word met at the start of the name: the
word is copied in lower case, without an underscore. -/
theorem wincaps_loop_first_word (c : Nat) (ls q : List Nat)
    (hc : g_ascii_isupper c = true) (hl : ∀ l ∈ ls, g_ascii_islower l = true) :
    wincaps_to_uscore_loop ((c :: ls) ++ q) [] = wincaps_to_uscore_loop q ((c + 32) :: ls) := by
  have hcr := isupper_range c hc
  have h0 : (c == 0) = false := by
    simp only [beq_eq_false_iff_ne, ne_eq]
    omega
  rw [List.cons_append, wincaps_to_uscore_loop]
  simp only [h0, hc, tolower_upper c hc, Bool.false_eq_true, if_false, if_true, List.length_nil,
    gt_iff_lt, lt_self_iff_false, decide_False, Bool.false_and, List.nil_append]
  rw [wincaps_loop_lower ls q _ hl]
  rfl

/-- The loop of `wincaps_to_uscore` on a word met after another one: an
underscore and the word in lower case are appended. -/
theorem wincaps_loop_next_word (c : Nat) (ls q str : List Nat)
    (hc : g_ascii_isupper c = true) (hl : ∀ l ∈ ls, g_ascii_islower l = true)
    (hstr : ∃ pre a b, str = pre ++ [a, b] ∧ a ≠ 95) :
    wincaps_to_uscore_loop ((c :: ls) ++ q) str
      = wincaps_to_uscore_loop q (str ++ 95 :: (c + 32) :: ls) := by
  have hcr := isupper_range c hc
  have h0 : (c == 0) = false := by
    simp only [beq_eq_false_iff_ne, ne_eq]
    omega
  obtain ⟨pre, a, b, hs, ha⟩ := hstr
  have hg : str.getD (str.length - 2) 0 = a := by
    rw [hs]
    exact getD_before_last pre a b
  have hlen : str.length = pre.length + 2 := by
    rw [hs]
    simp
  have hcond : (decide (str.length > 0) &&
      (decide (str.length < 2) || str.getD (str.length - 2) 0 != UNDERSCORE)) = true := by
    rw [hg, hlen]
    simp [UNDERSCORE, ha]
  rw [List.cons_append, wincaps_to_uscore_loop]
  simp only [h0, hc, tolower_upper c hc, Bool.false_eq_true, if_false, if_true, hcond]
  rw [wincaps_loop_lower ls q _ hl]
  simp [UNDERSCORE]

/-- The loop of `wincaps_to_uscore` on the words after the first: each is
appended in lower case after an underscore. -/
theorem wincaps_loop_words (words : List (Nat × List Nat)) (hw : ∀ wd ∈ words, WinCapsWord wd)
    (str : List Nat) (hstr : ∃ pre a b, str = pre ++ [a, b] ∧ a ≠ 95) :
    wincaps_to_uscore_loop (wincaps_name words) str
      = str ++ (words.map (fun wd => 95 :: (wd.1 + 32) :: wd.2)).flatten := by
  induction words generalizing str with
  | nil => simp [wincaps_name, wincaps_to_uscore_loop]
  | cons wd rest ih =>
    obtain ⟨hc, hne, hl⟩ := hw wd (List.mem_cons_self _ _)
    have hstep := wincaps_loop_next_word wd.1 wd.2 (wincaps_name rest) str hc hl hstr
    have hnext := word_end_clear (str ++ [95]) wd.1 wd.2 hc hne hl
    have hrest := ih (fun x hx => hw x (List.mem_cons_of_mem _ hx))
      (str ++ 95 :: (wd.1 + 32) :: wd.2) (by simpa using hnext)
    simp only [wincaps_name, List.map_cons, List.flatten_cons] at hstep hrest ⊢
    rw [hstep, hrest]
    simp

/-- The underscore name of one or more words: the first word in lower case, then
each further word in lower case after an underscore. -/
theorem uscore_name_cons (wd : Nat × List Nat) (rest : List (Nat × List Nat))
    (hw : ∀ x ∈ wd :: rest, WinCapsWord x) :
    uscore_name (wd :: rest)
      = (wd.1 + 32) :: wd.2 ++ (rest.map (fun x => 95 :: (x.1 + 32) :: x.2)).flatten := by
  induction rest generalizing wd with
  | nil =>
    obtain ⟨hc, _, hl⟩ := hw wd (List.mem_cons_self _ _)
    simp [uscore_name, List.intercalate, tolower_upper _ hc, map_tolower_lower _ hl]
  | cons y rest ih =>
    obtain ⟨hc, _, hl⟩ := hw wd (List.mem_cons_self _ _)
    have hy := ih y (fun x hx => hw x (List.mem_cons_of_mem _ hx))
    simp only [uscore_name, List.intercalate, List.map_cons, List.intersperse_cons_cons,
      List.flatten_cons] at hy ⊢
    rw [hy]
    simp [tolower_upper _ hc, map_tolower_lower _ hl, UNDERSCORE]

/-- The loop of `uscore_to_wincaps` copies a run of lower-case letters once the
flag is down. -/
theorem uscore_loop_lower (p q str : List Nat) (hp : ∀ l ∈ p, g_ascii_islower l = true) :
    uscore_to_wincaps_loop (p ++ q) false str = uscore_to_wincaps_loop q false (str ++ p) := by
  induction p generalizing str with
  | nil => simp
  | cons a p ih =>
    have hr := islower_range a (hp a (List.mem_cons_self _ _))
    have h0 : (a == 0) = false := by
      simp only [beq_eq_false_iff_ne, ne_eq]
      omega
    have hh : (a == HYPHEN) = false := by
      simp only [HYPHEN, beq_eq_false_iff_ne, ne_eq]
      omega
    have hu : (a == UNDERSCORE) = false := by
      simp only [UNDERSCORE, beq_eq_false_iff_ne, ne_eq]
      omega
    rw [List.cons_append, uscore_to_wincaps_loop]
    simp only [h0, hh, hu, Bool.or_self, Bool.false_eq_true, if_false]
    rw [ih _ (fun l hl => hp l (List.mem_cons_of_mem _ hl))]
    simp

/-- The loop of `uscore_to_wincaps` on a lowered word while the flag is up: the
first letter is raised, the others are copied. -/
theorem uscore_loop_word (c : Nat) (ls q str : List Nat)
    (hc : g_ascii_isupper c = true) (hl : ∀ l ∈ ls, g_ascii_islower l = true) :
    uscore_to_wincaps_loop (((c + 32) :: ls) ++ q) true str
      = uscore_to_wincaps_loop q false (str ++ c :: ls) := by
  have hcr := isupper_range c hc
  have h0 : (c + 32 == 0) = false := by
    simp only [beq_eq_false_iff_ne, ne_eq]
    omega
  have hh : (c + 32 == HYPHEN) = false := by
    simp only [HYPHEN, beq_eq_false_iff_ne, ne_eq]
    omega
  have hu : (c + 32 == UNDERSCORE) = false := by
    simp only [UNDERSCORE, beq_eq_false_iff_ne, ne_eq]
    omega
  rw [List.cons_append, uscore_to_wincaps_loop]
  simp only [h0, hh, hu, Bool.or_self, Bool.false_eq_true, if_false, if_true,
    toupper_lowered c hc]
  rw [uscore_loop_lower ls q _ hl]
  simp

/-- The loop of `uscore_to_wincaps` on the words after the first, each behind
its underscore: the words come out with their capital. -/
theorem uscore_loop_words (words : List (Nat × List Nat)) (hw : ∀ wd ∈ words, WinCapsWord wd)
    (flag : Bool) (str : List Nat) :
    uscore_to_wincaps_loop ((words.map (fun wd => 95 :: (wd.1 + 32) :: wd.2)).flatten) flag str
      = str ++ wincaps_name words := by
  induction words generalizing str flag with
  | nil => simp [wincaps_name, uscore_to_wincaps_loop]
  | cons wd rest ih =>
    obtain ⟨hc, _, hl⟩ := hw wd (List.mem_cons_self _ _)
    have hstep := uscore_loop_word wd.1 wd.2
      ((rest.map (fun wd => 95 :: (wd.1 + 32) :: wd.2)).flatten) str hc hl
    have hrest := ih (fun x hx => hw x (List.mem_cons_of_mem _ hx)) false (str ++ wd.1 :: wd.2)
    simp only [List.map_cons, List.flatten_cons, List.cons_append]
    rw [uscore_to_wincaps_loop]
    simp only [UNDERSCORE, HYPHEN, beq_self_eq_true, Bool.or_true, if_true]
    have h95 : ((95 : Nat) == 0) = false := by decide
    simp only [h95, Bool.false_eq_true, if_false]
    simp only [List.cons_append] at hstep
    rw [hstep, hrest]
    simp [wincaps_name]

/-- Outbound FIFO apart from stale encoded bytes.  From a state whose cursor is
not negative and whose encoded buffer is empty or holds the wire form of the
head message, for every outside world (in encoding mode: every encoder
computing `enc` whose failures append nothing) and every return of
`do_writing`, the events added replay in order against the queue: every
successful write offered exactly the rest of
the wire form of the message then at the head, and every `message_sent` named
the head message at the moment all its bytes were written, and popped it.
Hence the messages notified are exactly those gone from the front of the
queue, in queue order, and the bytes on the wire (with the part of the head
message sent before) are the wire forms of the messages notified followed by
the part of the new head up to the cursor: a prefix of the concatenation of
the queued messages' wire forms in queue order. -/
theorem outbound_fifo_of_clean_encoder (env : Env) (enc : List Byte → List Byte) (fuel : Nat)
    (w w1 : World) (r : Bool) (he : w.auth.needs_encoding = true → EncodesAs env enc)
    (hc : 0 ≤ w.t.message_bytes_written)
    (hbuf : w.auth.needs_encoding = true →
      w.t.encoded_outgoing = [] ∨ ∃ m rest, w.conn.outgoing = m :: rest ∧
        w.t.encoded_outgoing = wire_form enc true m)
    (hrun : do_writing env fuel w = some (w1, r)) :
    ∃ evs, w1.trace = w.trace ++ evs ∧
      replay_writes enc w.auth.needs_encoding evs w.out_state = some w1.out_state ∧
      w.conn.outgoing = sent_messages evs ++ w1.conn.outgoing ∧
      pending_sent enc w.auth.needs_encoding w.out_state ++ wire_bytes evs
        = wire_forms enc w.auth.needs_encoding (sent_messages evs)
            ++ pending_sent enc w.auth.needs_encoding w1.out_state ∧
      pending_sent enc w.auth.needs_encoding w.out_state ++ wire_bytes evs
        <+: wire_forms enc w.auth.needs_encoding w.conn.outgoing := by
  obtain ⟨-, -, evs, ht, hrep⟩ := do_writing_rel env enc fuel w w1 r he ⟨hc, hbuf⟩ hrun
  obtain ⟨hq, hw⟩ := replay_writes_sync enc _ evs _ _ hrep
  refine ⟨evs, ht, hrep, hq, hw, ?_⟩
  rw [hw]
  have hq2 : w.conn.outgoing = sent_messages evs ++ w1.conn.outgoing := hq
  rw [hq2, wire_forms_append]
  exact ( List.prefix_append_right_inj _).mpr (pending_sent_initial enc _ w1.out_state)

/-- An instance of `outbound_fifo_of_clean_encoder`: two queued messages, writes
accepting 2 bytes at a time.
Three passes of fuel are not enough to return; with nine, both messages are on
the wire in queue order and notified. -/
theorem outbound_fifo_of_clean_encoder_example :
    (do_writing (example_env .AUTHENTICATED 2) 3 example_world_two_messages).map
      (fun p => (wire_bytes p.1.trace, sent_messages p.1.trace, p.1.conn.outgoing,
                 p.1.t.message_bytes_written))
      = none ∧
    (do_writing (example_env .AUTHENTICATED 2) 9 example_world_two_messages).map
      (fun p => (wire_bytes p.1.trace, sent_messages p.1.trace, p.1.conn.outgoing,
                 p.1.t.message_bytes_written))
      = some ([1, 2, 3, 4, 5, 6, 7, 8],
              [{ header := [1, 2, 3], body := [4, 5] }, { header := [6], body := [7, 8] }],
              [], 0) ∧
    ∀ w1 r, do_writing (example_env .AUTHENTICATED 2) 9 example_world_two_messages
        = some (w1, r) →
      ∃ evs, w1.trace = example_world_two_messages.trace ++ evs ∧
        replay_writes id false evs example_world_two_messages.out_state = some w1.out_state ∧
        example_world_two_messages.conn.outgoing = sent_messages evs ++ w1.conn.outgoing ∧
        pending_sent id false example_world_two_messages.out_state ++ wire_bytes evs
          = wire_forms id false (sent_messages evs) ++ pending_sent id false w1.out_state ∧
        pending_sent id false example_world_two_messages.out_state ++ wire_bytes evs
          <+: wire_forms id false example_world_two_messages.conn.outgoing :=
  ⟨by decide!, by decide!, fun w1 r h =>
    outbound_fifo_of_clean_encoder (example_env .AUTHENTICATED 2) id 9 example_world_two_messages w1 r
      (fun h => absurd h (by decide)) (by decide) (fun h => absurd h (by decide)) h⟩

/-- Notification at completion apart from stale encoded bytes.  With writes
accepting at most what is offered (and, in encoding mode, an encoder computing
`enc` whose failures append nothing), from a state with head message `m`,
the cursor at `k` (`0`, or inside the wire form) and the
encoded buffer empty or holding the wire form of `m`.  In one pass of the loop
of `do_writing`, `message_sent (m)` is notified, once, exactly when the bytes
accepted in that pass bring the cursor to the length of the wire form, and
then `message_bytes_written` and the length of `encoded_outgoing` are `0` and
the queue is popped; otherwise nothing is notified, the queue stays, and the
cursor has advanced by the bytes accepted and is still short of the length
(or no write was accepted at all).  Over a whole call, the events replay in
order and the messages notified are exactly those gone from the front of the
queue, so each message is notified once. -/
theorem message_sent_at_completion_of_clean_encoder (env : Env) (enc : List Byte → List Byte)
    (w : World) (m : DBusMessage) (rest : List DBusMessage) (k : Nat)
    (hb : WritesBounded env) (he : w.auth.needs_encoding = true → EncodesAs env enc)
    (hq : w.conn.outgoing = m :: rest) (hc : w.t.message_bytes_written = (k : Int))
    (hk : k = 0 ∨ k < (wire_form enc w.auth.needs_encoding m).length)
    (hbuf : w.auth.needs_encoding = true →
      w.t.encoded_outgoing = [] ∨ w.t.encoded_outgoing = wire_form enc true m) :
    (∀ total, ∃ evs, (do_writing_pass env w total).world.trace = w.trace ++ evs ∧
      ((sent_messages evs = [m] ∧
          k + (wire_bytes evs).length = (wire_form enc w.auth.needs_encoding m).length ∧
          (do_writing_pass env w total).world.t.message_bytes_written = 0 ∧
          (do_writing_pass env w total).world.t.encoded_outgoing.length = 0 ∧
          (do_writing_pass env w total).world.conn.outgoing = rest) ∨
       (sent_messages evs = [] ∧
          (do_writing_pass env w total).world.t.message_bytes_written
            = ((k + (wire_bytes evs).length : Nat) : Int) ∧
          (do_writing_pass env w total).world.conn.outgoing = m :: rest ∧
          ((∀ e ∈ evs, e.is_outbound = false) ∨
            k + (wire_bytes evs).length < (wire_form enc w.auth.needs_encoding m).length)))) ∧
    (∀ fuel w1 r, do_writing env fuel w = some (w1, r) →
      ∃ evs, w1.trace = w.trace ++ evs ∧
        replay_writes enc w.auth.needs_encoding evs (m :: rest, k) = some w1.out_state ∧
        m :: rest = sent_messages evs ++ w1.conn.outgoing) := by
  have hinv : WriteInv enc w := by
    refine ⟨by rw [hc]; omega, fun hne => ?_⟩
    rcases hbuf hne with h | h
    · exact Or.inl h
    · exact Or.inr ⟨m, rest, hq, h⟩
  have hst : w.out_state = (m :: rest, k) := by simp [World.out_state, hq, hc]
  constructor
  · intro total
    rcases do_writing_pass_outcome env enc w total m rest k he hinv hq hc with
      ⟨fq, -, fc, -, evs, ft, fn⟩ | ⟨w0, ev, n, post, ⟨-, -, -, -, pre, tp, np⟩, t, -, -, pr, -,
        wi, se, cs⟩
    · obtain ⟨hw, hs⟩ := not_outbound_wire_bytes evs fn
      refine ⟨evs, ft, Or.inr ⟨hs, ?_, fq.trans hq, Or.inl fn⟩⟩
      rw [fc, hc, hw]
      rfl
    · obtain ⟨hw, hs⟩ := not_outbound_wire_bytes pre np
      have hn : n ≤ (wire_form enc w.auth.needs_encoding m).length - k := hb _ _ _ pr
      have hlen : ev.wire.length = n := by
        rw [wi, List.length_take, List.length_drop]
        omega
      refine ⟨pre ++ ev :: post, by rw [t, tp, List.append_assoc], ?_⟩
      rcases cs with ⟨hfull, hpost, hq1, hc1, hb1⟩ | ⟨hnot, hpost, hq1, hc1⟩
      · left
        subst hpost
        refine ⟨?_, ?_, hc1, by rw [hb1]; rfl, hq1⟩
        · simp [sent_messages_append, sent_messages, hs, se, sent_message_sent]
        · simp [wire_bytes_append, wire_bytes, hw, wire_message_sent, hlen, hfull]
      · right
        obtain ⟨hw2, hs2⟩ := not_outbound_wire_bytes post hpost
        have hwb : (wire_bytes (pre ++ ev :: post)).length = n := by
          simp [wire_bytes_append, wire_bytes, hw, hw2, hlen]
        refine ⟨?_, by rw [hc1, hwb], hq1, Or.inr ?_⟩
        · simp [sent_messages_append, sent_messages, hs, se, hs2]
        · rw [hwb]; omega
  · intro fuel w1 r hrun
    obtain ⟨-, -, evs, ht, hrep⟩ := do_writing_rel env enc fuel w w1 r he hinv hrun
    rw [hst] at hrep
    obtain ⟨hq1, -⟩ := replay_writes_sync enc _ evs _ _ hrep
    exact ⟨evs, ht, hrep, hq1⟩

/-- An instance of `message_sent_at_completion_of_clean_encoder`: the 5-byte
message of the example transport, writes
accepting 2 bytes at a time: notified once, at the third pass, with the cursor
back at 0. -/
theorem message_sent_at_completion_of_clean_encoder_example :
    WritesBounded (example_env .AUTHENTICATED 2) ∧
    (do_writing (example_env .AUTHENTICATED 2) 5 example_world_authenticated).map
      (fun p => (sent_messages p.1.trace, p.1.t.message_bytes_written,
                 p.1.t.encoded_outgoing.length, p.1.conn.outgoing))
      = some ([{ header := [1, 2, 3], body := [4, 5] }], 0, 0, []) ∧
    ∀ fuel w1 r, do_writing (example_env .AUTHENTICATED 2) fuel example_world_authenticated
        = some (w1, r) →
      ∃ evs, w1.trace = example_world_authenticated.trace ++ evs ∧
        replay_writes id false evs ([{ header := [1, 2, 3], body := [4, 5] }], 0)
          = some w1.out_state ∧
        [{ header := [1, 2, 3], body := [4, 5] }] = sent_messages evs ++ w1.conn.outgoing :=
  have hb : WritesBounded (example_env .AUTHENTICATED 2) := by
    intro tr len n h
    simp only [example_env, WriteResult.wrote.injEq] at h
    omega
  ⟨hb, by decide!,
    (message_sent_at_completion_of_clean_encoder (example_env .AUTHENTICATED 2) id
      example_world_authenticated { header := [1, 2, 3], body := [4, 5] } [] 0 hb
      (fun h => absurd h (by decide)) rfl rfl (Or.inl rfl) (fun h => absurd h (by decide))).2⟩

/-! ## Claims -/

/-- C1: while the transport is not authenticated, `do_writing` returns TRUE
having made no socket write and no access to the outbound queue (which is left
as it was), and `do_reading` returns TRUE having made no socket read and no
access to the message loader (whose buffer is left as it was), whatever the
fuel. -/
theorem C1_no_message_before_authentication (env : Env) (fuel : Nat) (w : World)
    (h : (_dbus_transport_get_is_authenticated env w).1 = false) :
    (∃ w1 evs, do_writing env fuel w = some (w1, true) ∧ w1.trace = w.trace ++ evs ∧
        (∀ e ∈ evs, e.is_socket_write = false ∧ e.is_queue_access = false) ∧
        w1.conn.outgoing = w.conn.outgoing) ∧
    (∃ w2 evs, do_reading env fuel w = some (w2, true) ∧ w2.trace = w.trace ++ evs ∧
        (∀ e ∈ evs, e.is_socket_read = false ∧ e.is_loader_access = false) ∧
        w2.loader = w.loader) := by
  have key : ∃ evs, (_dbus_transport_get_is_authenticated env w).2.trace = w.trace ++ evs ∧
      (∀ e ∈ evs, e.is_socket_write = false ∧ e.is_queue_access = false ∧
        e.is_socket_read = false ∧ e.is_loader_access = false) ∧
      (_dbus_transport_get_is_authenticated env w).2.conn = w.conn ∧
      (_dbus_transport_get_is_authenticated env w).2.loader = w.loader := by
    unfold _dbus_transport_get_is_authenticated
    split
    · exact ⟨[], by simp⟩
    · split
      · exact ⟨[], by simp⟩
      · split
        · exact ⟨[], by simp⟩
        · exact ⟨[.auth_do_work (env.auth_do_work w.trace)],
            by simp [_dbus_auth_do_work, emit, Event.is_socket_write, Event.is_queue_access,
              Event.is_socket_read, Event.is_loader_access]⟩
  obtain ⟨evs, htr, hev, hconn, hload⟩ := key
  refine ⟨⟨_, evs, ?_, htr, fun e he => ⟨(hev e he).1, (hev e he).2.1⟩, by rw [hconn]⟩,
    ⟨_, evs, ?_, htr, fun e he => ⟨(hev e he).2.2.1, (hev e he).2.2.2⟩, hload⟩⟩
  · simp [do_writing, h]
  · simp [do_reading, h]

/-- Witness for C1: the unauthenticated example transport, with an auth engine
still waiting for input. -/
theorem C1_witness :
    (_dbus_transport_get_is_authenticated (example_env .WAITING_FOR_INPUT 17) example_world).1
        = false ∧
    ((∃ w1 evs, do_writing (example_env .WAITING_FOR_INPUT 17) 3 example_world = some (w1, true) ∧
        w1.trace = example_world.trace ++ evs ∧
        (∀ e ∈ evs, e.is_socket_write = false ∧ e.is_queue_access = false) ∧
        w1.conn.outgoing = example_world.conn.outgoing) ∧
    (∃ w2 evs, do_reading (example_env .WAITING_FOR_INPUT 17) 3 example_world = some (w2, true) ∧
        w2.trace = example_world.trace ++ evs ∧
        (∀ e ∈ evs, e.is_socket_read = false ∧ e.is_loader_access = false) ∧
        w2.loader = example_world.loader)) :=
  ⟨by decide, C1_no_message_before_authentication _ 3 example_world (by decide)⟩

/-- C2: without encoding, with header `H` and body `B` of the head message and
the cursor at `k`, the write of a pass offers exactly the suffix of `H ++ B`
from offset `k`, which is not empty: through `_dbus_write_two` (rest of the
header, whole body) when `k` is inside the header, through `_dbus_write` on the
body otherwise.
Consequently, in every return of `do_writing`, whatever each write accepted,
the bytes accepted up to the first `message_sent` (which names this message)
complete `H ++ B`, and while the message is not notified the bytes accepted
extend the first `k` bytes of `H ++ B` to its first `message_bytes_written`
bytes. -/
theorem C2_plain_write_delivers_header_then_body (env : Env) (w : World) (m : DBusMessage)
    (rest : List DBusMessage) (k : Nat)
    (hne : w.auth.needs_encoding = false) (hq : w.conn.outgoing = m :: rest)
    (hc : w.t.message_bytes_written = (k : Int))
    (hk : k < m.header.length + m.body.length) :
    (write_message_bytes env m.header m.body w).2.2 =
      emit (if k < m.header.length then
              .sock_write_two w.t.fd (m.header.drop k) m.body
                (env.sock_write w.trace (m.header.length + m.body.length - k))
            else
              .sock_write w.t.fd ((m.header ++ m.body).drop k)
                (env.sock_write w.trace (m.header.length + m.body.length - k))) w ∧
    (k < m.header.length → m.header.drop k ++ m.body = (m.header ++ m.body).drop k) ∧
    0 < ((m.header ++ m.body).drop k).length ∧
    ∀ fuel w1 r, do_writing env fuel w = some (w1, r) →
      ∃ evs, w1.trace = w.trace ++ evs ∧
        (∀ pre m1 post, evs = pre ++ .message_sent m1 :: post → sent_messages pre = [] →
            m1 = m ∧ (m.header ++ m.body).take k ++ wire_bytes pre = m.header ++ m.body) ∧
        (sent_messages evs = [] →
            w1.conn.outgoing = m :: rest ∧
            (m.header ++ m.body).take k ++ wire_bytes evs
              = (m.header ++ m.body).take w1.t.message_bytes_written.toNat) := by
  refine ⟨?_, ?_, ?_, ?_⟩
  · rw [write_message_bytes_plain env _ _ w k hne hc]
  · intro hlt
    exact (List.drop_append_of_le_length (by omega)).symm
  · simp only [List.length_drop, List.length_append]
    omega
  · intro fuel w1 r hrun
    have hinv : WriteInv id w :=
      ⟨by rw [hc]; omega, fun h => by rw [hne] at h; exact absurd h (by simp)⟩
    obtain ⟨-, -, evs, ht, hrep⟩ := do_writing_rel env id fuel w w1 r
      (fun h => by rw [hne] at h; exact absurd h (by simp)) hinv hrun
    have hst : w.out_state = (m :: rest, k) := by simp [World.out_state, hq, hc]
    rw [hst, hne] at hrep
    have hd := replay_head_delivery id false evs m rest k _ hrep
    have hwf : wire_form id false m = m.header ++ m.body := by simp [wire_form]
    rw [hwf] at hd
    exact ⟨evs, ht, hd.1, hd.2⟩

/-- Witness for C2: the authenticated example transport with the 5-byte message
`[1,2,3] ++ [4,5]`, 2 bytes of it written, writes accepting 2 bytes at a
time. -/
theorem C2_witness :
    example_world_two_written.auth.needs_encoding = false ∧
    (do_writing (example_env .AUTHENTICATED 2) 5 example_world_two_written).map
      (fun p => (p.2, wire_bytes p.1.trace, sent_messages p.1.trace, p.1.t.message_bytes_written))
      = some (true, [3, 4, 5], [{ header := [1, 2, 3], body := [4, 5] }], 0) ∧
    ∀ fuel w1 r, do_writing (example_env .AUTHENTICATED 2) fuel example_world_two_written
        = some (w1, r) →
      ∃ evs, w1.trace = example_world_two_written.trace ++ evs ∧
        (∀ pre m1 post, evs = pre ++ .message_sent m1 :: post → sent_messages pre = [] →
            m1 = { header := [1, 2, 3], body := [4, 5] } ∧
            ([1, 2, 3] ++ [4, 5]).take 2 ++ wire_bytes pre = [1, 2, 3] ++ [4, 5]) ∧
        (sent_messages evs = [] →
            w1.conn.outgoing = [{ header := [1, 2, 3], body := [4, 5] }] ∧
            ([1, 2, 3] ++ [4, 5]).take 2 ++ wire_bytes evs
              = ([1, 2, 3] ++ [4, 5]).take w1.t.message_bytes_written.toNat) :=
  ⟨rfl, by decide!,
    (C2_plain_write_delivers_header_then_body (example_env .AUTHENTICATED 2)
      example_world_two_written { header := [1, 2, 3], body := [4, 5] } [] 2 rfl rfl rfl
      (by decide)).2.2.2⟩

/-- C3 as stated fails: with an encoder that prepends the length of its input,
the message `[1,2,3] ++ [4,5]` goes out as `encode [1,2,3] ++ encode [4,5]`,
which is not `encode ([1,2,3] ++ [4,5])`. -/
theorem C3_counterexample :
    (do_writing (example_env .AUTHENTICATED 17) 3 example_world_encoding).map
      (fun p => (p.2, wire_bytes p.1.trace, sent_messages p.1.trace))
      = some (true, [3, 1, 2, 3, 2, 4, 5], [{ header := [1, 2, 3], body := [4, 5] }]) ∧
    (example_env .AUTHENTICATED 17).auth_encode [] ([1, 2, 3] ++ [4, 5])
      = (true, [5, 1, 2, 3, 4, 5]) ∧
    ([3, 1, 2, 3, 2, 4, 5] : List Byte) ≠ [5, 1, 2, 3, 4, 5] := by
  decide!

/-- C3 (amended): with encoding, for an encoder computing `enc` whose failures
append nothing, the bytes `do_writing` delivers for the head message are
`enc header ++ enc body`, the header and the body encoded separately: in every
return of `do_writing`, whatever each write accepted, the bytes accepted up to
the first `message_sent` (which names this message) complete
`enc header ++ enc body` from the cursor, and while the message is not
notified they extend its first `k` bytes to its first `message_bytes_written`
bytes. -/
theorem C3_encoded_write_delivers_encoded_header_then_body (env : Env)
    (enc : List Byte → List Byte) (w : World) (m : DBusMessage) (rest : List DBusMessage)
    (k : Nat) (hne : w.auth.needs_encoding = true) (he : EncodesAs env enc)
    (hq : w.conn.outgoing = m :: rest) (hc : w.t.message_bytes_written = (k : Int))
    (hbuf : w.t.encoded_outgoing = [] ∨ w.t.encoded_outgoing = enc m.header ++ enc m.body) :
    ∀ fuel w1 r, do_writing env fuel w = some (w1, r) →
      ∃ evs, w1.trace = w.trace ++ evs ∧
        (∀ pre m1 post, evs = pre ++ .message_sent m1 :: post → sent_messages pre = [] →
            m1 = m ∧ (enc m.header ++ enc m.body).take k ++ wire_bytes pre
              = enc m.header ++ enc m.body) ∧
        (sent_messages evs = [] →
            w1.conn.outgoing = m :: rest ∧
            (enc m.header ++ enc m.body).take k ++ wire_bytes evs
              = (enc m.header ++ enc m.body).take w1.t.message_bytes_written.toNat) := by
  intro fuel w1 r hrun
  have hwf : wire_form enc true m = enc m.header ++ enc m.body := by simp [wire_form]
  have hinv : WriteInv enc w := by
    refine ⟨by rw [hc]; omega, fun _ => ?_⟩
    rcases hbuf with h | h
    · exact Or.inl h
    · exact Or.inr ⟨m, rest, hq, by rw [hwf]; exact h⟩
  obtain ⟨-, -, evs, ht, hrep⟩ := do_writing_rel env enc fuel w w1 r (fun _ => he) hinv hrun
  have hst : w.out_state = (m :: rest, k) := by simp [World.out_state, hq, hc]
  rw [hst, hne] at hrep
  have hd := replay_head_delivery enc true evs m rest k _ hrep
  rw [hwf] at hd
  exact ⟨evs, ht, hd.1, hd.2⟩

/-- Witness for C3: the example transport with the length-prefixing encoder,
writes accepting 2 bytes at a time. -/
theorem C3_witness :
    EncodesAs (example_env .AUTHENTICATED 2) (fun src => src.length :: src) ∧
    (do_writing (example_env .AUTHENTICATED 2) 5 example_world_encoding).map
      (fun p => (p.2, wire_bytes p.1.trace, sent_messages p.1.trace))
      = some (true, [3, 1, 2, 3, 2, 4, 5], [{ header := [1, 2, 3], body := [4, 5] }]) ∧
    ∀ fuel w1 r, do_writing (example_env .AUTHENTICATED 2) fuel example_world_encoding
        = some (w1, r) →
      ∃ evs, w1.trace = example_world_encoding.trace ++ evs ∧
        (∀ pre m1 post, evs = pre ++ .message_sent m1 :: post → sent_messages pre = [] →
            m1 = { header := [1, 2, 3], body := [4, 5] } ∧
            ([3, 1, 2, 3] ++ [2, 4, 5]).take 0 ++ wire_bytes pre = [3, 1, 2, 3] ++ [2, 4, 5]) ∧
        (sent_messages evs = [] →
            w1.conn.outgoing = [{ header := [1, 2, 3], body := [4, 5] }] ∧
            ([3, 1, 2, 3] ++ [2, 4, 5]).take 0 ++ wire_bytes evs
              = ([3, 1, 2, 3] ++ [2, 4, 5]).take w1.t.message_bytes_written.toNat) :=
  ⟨fun _ _ => Or.inl rfl, by decide!,
    C3_encoded_write_delivers_encoded_header_then_body (example_env .AUTHENTICATED 2)
      (fun src => src.length :: src) example_world_encoding
      { header := [1, 2, 3], body := [4, 5] } [] 0 rfl (fun _ _ => Or.inl rfl) rfl rfl
      (Or.inl rfl)⟩

/-- C4 fails after a failed header encode.  Two messages are queued on the
authenticated, encoding example transport; the encoder fails once, on the first
header, after appending the byte 9, and from then on puts the length before its
input.  The first `do_writing` returns FALSE with nothing written and `[9]` left
in `encoded_outgoing`.  The second call finds the buffer non-empty, skips the
encode, writes `[9]` and notifies the first message as sent, none of its bytes
having been written; the second message follows.  The wire carries
`[9, 1, 6, 2, 7, 8]`, which is no prefix of the queued wire forms
`[3, 1, 2, 3, 2, 4, 5, 1, 6, 2, 7, 8]`: the bytes of the second message come
before any byte of the first. -/
theorem C4_stale_bytes_break_fifo :
    (do_writing example_env_header_oom_once 1 example_world_encoding_two).map
        (fun p => (p.2, wire_bytes p.1.trace, sent_messages p.1.trace))
      = some (false, [], []) ∧
    (do_writing example_env_header_oom_once 1 example_world_encoding_two).map
        (fun p => (p.1.t.encoded_outgoing, p.1.t.message_bytes_written, p.1.conn.outgoing))
      = some ([9], 0, [{ header := [1, 2, 3], body := [4, 5] },
                       { header := [6], body := [7, 8] }]) ∧
    ((do_writing example_env_header_oom_once 1 example_world_encoding_two).bind
        (fun p => do_writing example_env_header_oom_once 3 p.1)).map
        (fun p => (p.2, p.1.trace.filter Event.is_outbound))
      = some (true,
              [.sock_write 5 [9] (.wrote 1),
               .message_sent { header := [1, 2, 3], body := [4, 5] },
               .sock_write 5 [1, 6, 2, 7, 8] (.wrote 5),
               .message_sent { header := [6], body := [7, 8] }]) ∧
    ((do_writing example_env_header_oom_once 1 example_world_encoding_two).bind
        (fun p => do_writing example_env_header_oom_once 3 p.1)).map
        (fun p => (wire_bytes p.1.trace, p.1.conn.outgoing))
      = some ([9, 1, 6, 2, 7, 8], []) ∧
    wire_forms (fun src => src.length :: src) true example_world_encoding_two.conn.outgoing
      = [3, 1, 2, 3, 2, 4, 5, 1, 6, 2, 7, 8] ∧
    List.isPrefixOf [9, 1, 6, 2, 7, 8]
        (wire_forms (fun src => src.length :: src) true
          example_world_encoding_two.conn.outgoing) = false := by
  decide!

/-- C5 fails after a failed header encode.  On the authenticated, encoding
example transport the encoder fails once, on the header, after appending the
byte 9; the first `do_writing` returns FALSE and leaves `[9]` in
`encoded_outgoing`.  In the next call `total_bytes_to_write` is the length 1 of
that buffer: one write of `[9]` brings `message_bytes_written` to 1 and the
message is notified as sent at that step, although its wire form has 7 bytes
and none of them was written.  The notification comes once, and the cursor and
the length of `encoded_outgoing` are reset to 0 with it. -/
theorem C5_message_sent_at_stale_length :
    (do_writing example_env_header_oom_once 1 example_world_encoding).map
        (fun p => (p.2, p.1.t.encoded_outgoing, p.1.t.message_bytes_written,
                   total_wire_length p.1 { header := [1, 2, 3], body := [4, 5] }))
      = some (false, [9], 0, 1) ∧
    ((do_writing example_env_header_oom_once 1 example_world_encoding).bind
        (fun p => do_writing example_env_header_oom_once 2 p.1)).map
        (fun p => (p.2, p.1.trace.filter Event.is_outbound))
      = some (true,
              [.sock_write 5 [9] (.wrote 1),
               .message_sent { header := [1, 2, 3], body := [4, 5] }]) ∧
    ((do_writing example_env_header_oom_once 1 example_world_encoding).bind
        (fun p => do_writing example_env_header_oom_once 2 p.1)).map
        (fun p => (p.1.t.message_bytes_written, p.1.t.encoded_outgoing.length,
                   p.1.conn.outgoing))
      = some (0, 0, []) ∧
    (wire_form (fun src => src.length :: src) true
        { header := [1, 2, 3], body := [4, 5] }).length = 7 := by
  decide!

/-- C7: `unix_disconnect` on a connected transport attached to a connection,
holding read watch `rw` and write watch `ww` (two distinct objects): afterwards
`fd` is -1 and both watch fields are NULL; the calls made are exactly, in order,
remove/invalidate/unref of the read watch, remove/invalidate/unref of the write
watch and one close of the original descriptor, so each watch is removed from
the connection once and invalidated once and the descriptor is closed once; and
neither watch is installed in the connection any more than before minus one. -/
theorem C7_disconnect_releases_watches_and_fd (w : World) (rw ww : DBusWatch)
    (hc : w.t.connection = true) (hr : w.t.read_watch = some rw)
    (hw : w.t.write_watch = some ww) (hne : rw.id ≠ ww.id) :
    (unix_disconnect w).t.fd = -1 ∧
    (unix_disconnect w).t.read_watch = none ∧
    (unix_disconnect w).t.write_watch = none ∧
    (∃ evs, (unix_disconnect w).trace = w.trace ++ evs ∧
      evs = [.remove_watch rw.id, .watch_invalidate rw.id, .watch_unref rw.id,
             .remove_watch ww.id, .watch_invalidate ww.id, .watch_unref ww.id,
             .sock_close w.t.fd] ∧
      evs.count (.remove_watch rw.id) = 1 ∧ evs.count (.remove_watch ww.id) = 1 ∧
      evs.count (.watch_invalidate rw.id) = 1 ∧ evs.count (.watch_invalidate ww.id) = 1 ∧
      evs.count (.sock_close w.t.fd) = 1 ∧
      (∀ fd, fd ≠ w.t.fd → evs.count (.sock_close fd) = 0)) ∧
    (unix_disconnect w).conn.watches = (w.conn.watches.erase rw.id).erase ww.id := by
  have hne2 : ww.id ≠ rw.id := fun h => hne h.symm
  refine ⟨?_, ?_, ?_, ⟨_, ?_, rfl, ?_⟩, ?_⟩
  · simp [unix_disconnect, free_watches, emit, _dbus_connection_remove_watch, hc, hr, hw]
  · simp [unix_disconnect, free_watches, emit, _dbus_connection_remove_watch, hc, hr, hw]
  · simp [unix_disconnect, free_watches, emit, _dbus_connection_remove_watch, hc, hr, hw]
  · simp [unix_disconnect, free_watches, emit, _dbus_connection_remove_watch, hc, hr, hw]
  · simp [List.count_cons, hne, hne2]
    intro fd hfd
    exact fun h => hfd h.symm
  · simp [unix_disconnect, free_watches, emit, _dbus_connection_remove_watch, hc, hr, hw]

/-- Witness for C7: the example transport on descriptor 5 with watches 1 and 2. -/
theorem C7_witness :
    (unix_disconnect example_world).t.fd = -1 ∧
    (unix_disconnect example_world).trace =
      [.remove_watch 1, .watch_invalidate 1, .watch_unref 1,
       .remove_watch 2, .watch_invalidate 2, .watch_unref 2, .sock_close 5] ∧
    (unix_disconnect example_world).conn.watches = [] :=
  have h := C7_disconnect_releases_watches_and_fd example_world
    { id := 1, fd := 5, flags := 1, enabled := true }
    { id := 2, fd := 5, flags := 2, enabled := true } rfl rfl rfl (by decide)
  ⟨h.1, by decide, by decide⟩

/-- C8: `unix_disconnect` twice leaves the same transport record and the same
connection state as `unix_disconnect` once (with `fd = -1` and both watch
fields NULL); the second call makes exactly one outside call, a close of the
descriptor -1 (which is no open descriptor), hence removes, invalidates and
unrefs no watch. -/
theorem C8_disconnect_idempotent (w : World) :
    (unix_disconnect (unix_disconnect w)).t = (unix_disconnect w).t ∧
    (unix_disconnect (unix_disconnect w)).conn = (unix_disconnect w).conn ∧
    (unix_disconnect w).t.fd = -1 ∧
    (unix_disconnect w).t.read_watch = none ∧
    (unix_disconnect w).t.write_watch = none ∧
    (unix_disconnect (unix_disconnect w)).trace
      = (unix_disconnect w).trace ++ [Event.sock_close (-1)] := by
  cases hr : w.t.read_watch <;> cases hw : w.t.write_watch <;> cases hc : w.t.connection <;>
    simp [unix_disconnect, free_watches, emit, _dbus_connection_remove_watch, hr, hw, hc]

/-- C9: on a transport that is already disconnected (flag set, `fd = -1`, both
watch fields NULL), `do_authentication`, `do_reading` and `do_writing` return
TRUE for every fuel and arguments and leave the whole world, trace included, as
it was; `unix_do_iteration`, whenever it returns, has changed nothing but the
trace, to which it added no socket read or write, no credential send or
receive and no watch installed or toggled.  So the transport stays
disconnected with `fd = -1` and both watch fields NULL. -/
theorem C9_disconnected_is_terminal (env : Env) (fuel : Nat) (dr dw : Bool) (flags : Nat)
    (timeout_milliseconds : Int) (w : World)
    (h : w.t.disconnected = true) (hfd : w.t.fd = -1)
    (hr : w.t.read_watch = none) (hw : w.t.write_watch = none) :
    do_authentication env fuel dr dw w = some (w, true) ∧
    do_reading env fuel w = some (w, true) ∧
    do_writing env fuel w = some (w, true) ∧
    ∀ w1, unix_do_iteration env fuel flags timeout_milliseconds w = some w1 →
      OnlyTrace Event.is_quiet w w1 ∧ w1.t.disconnected = true ∧ w1.t.fd = -1 ∧
        w1.t.read_watch = none ∧ w1.t.write_watch = none := by
  refine ⟨do_authentication_of_disconnected _ _ _ _ _ h hr hw,
    do_reading_of_disconnected _ _ _ h hr, do_writing_of_disconnected _ _ _ h, ?_⟩
  intro w1 hrun
  have key : OnlyTrace Event.is_quiet w w1 := by
    unfold unix_do_iteration at hrun
    have hev : OnlyTrace Event.is_quiet w (iteration_events env flags w).2 := by
      unfold iteration_events
      rw [get_is_authenticated_of_disconnected _ _ h]
      cases ha : w.t.authenticated
      · simp only [Bool.false_eq_true, if_false]
        exact OnlyTrace_emit _ _ rfl
      · simp only [if_true]
        exact OnlyTrace_refl _ _
    simp only at hrun
    split at hrun
    · split at hrun
      · exact absurd hrun (by simp)
      · rename_i res w2 hp
        have hpoll := poll_again_only_trace _ _ _ _ _ _ _ _ hp
        have hw1 : OnlyTrace Event.is_quiet (iteration_events env flags w).2
            (if flag_set flags DBUS_ITERATION_BLOCK = true then
              emit .connection_unlock (iteration_events env flags w).2
             else (iteration_events env flags w).2) := by
          split
          · exact OnlyTrace_emit _ _ rfl
          · exact OnlyTrace_refl _ _
        have hw3 : OnlyTrace Event.is_quiet w2
            (if flag_set flags DBUS_ITERATION_BLOCK = true then emit .connection_lock w2
             else w2) := by
          split
          · exact OnlyTrace_emit _ _ rfl
          · exact OnlyTrace_refl _ _
        have hall := OnlyTrace_trans (OnlyTrace_trans (OnlyTrace_trans hev hw1) hpoll) hw3
        rw [iteration_dispatch_of_disconnected _ _ _ _ _ (by rw [hall.1]; exact h)
          (by rw [hall.1]; exact hr) (by rw [hall.1]; exact hw)] at hrun
        simp only [Option.some.injEq] at hrun
        rw [← hrun]
        exact hall
    · simp only [Option.some.injEq] at hrun
      rw [← hrun]
      exact hev
  refine ⟨key, ?_, ?_, ?_, ?_⟩ <;> rw [key.1] <;> assumption

/-- Witness for C9: the disconnected example transport, polled with
`DO_READING | DO_WRITING | BLOCK` while the auth engine would wait for input. -/
theorem C9_witness :
    example_world_disconnected.t.disconnected = true ∧
    unix_do_iteration (example_env .WAITING_FOR_INPUT 17) 2 7 100 example_world_disconnected
      ≠ none ∧
    do_writing (example_env .WAITING_FOR_INPUT 17) 2 example_world_disconnected
      = some (example_world_disconnected, true) :=
  ⟨rfl, by decide,
    (C9_disconnected_is_terminal (example_env .WAITING_FOR_INPUT 17) 2 true true 7 100
      example_world_disconnected rfl rfl rfl rfl).2.2.1⟩

/-- C11: `unix_connection_set` on a transport with both watches.  If the
connection refuses the write watch, it returns FALSE having installed nothing:
only the trace changed, by the two `set_handler` calls and the refused
`add_watch`.  If the write watch is added and the read watch refused, it
removes the write watch and returns FALSE; the transport record is unchanged
and the installed watches are those before the call (as a multiset, hence as a
set; the very same list when the write watch was not installed before).  In
neither failure case is a watch toggled.  If both are added, both are
installed and the result is `check_write_watch` after `check_read_watch`, with
TRUE. -/
theorem C11_connection_set_atomic (env : Env) (w : World) (ww rw : DBusWatch)
    (hw : w.t.write_watch = some ww) (hr : w.t.read_watch = some rw) :
    (env.add_watch (connection_set_history w ww rw) = false →
      unix_connection_set env w
        = (false, { w with
            trace := connection_set_history w ww rw ++ [.add_watch ww.id false] })) ∧
    (env.add_watch (connection_set_history w ww rw) = true →
      env.add_watch (connection_set_history w ww rw ++ [.add_watch ww.id true]) = false →
        (unix_connection_set env w).1 = false ∧
        (unix_connection_set env w).2.t = w.t ∧
        (unix_connection_set env w).2.trace
          = connection_set_history w ww rw
              ++ [.add_watch ww.id true, .add_watch rw.id false, .remove_watch ww.id] ∧
        List.Perm (unix_connection_set env w).2.conn.watches w.conn.watches ∧
        (∀ x, x ∈ (unix_connection_set env w).2.conn.watches ↔ x ∈ w.conn.watches) ∧
        (ww.id ∉ w.conn.watches → (unix_connection_set env w).2.conn = w.conn)) ∧
    (env.add_watch (connection_set_history w ww rw) = true →
      env.add_watch (connection_set_history w ww rw ++ [.add_watch ww.id true]) = true →
        unix_connection_set env w
          = (true, check_write_watch env (check_read_watch env
              { w with
                conn := { w.conn with watches := w.conn.watches ++ [ww.id, rw.id] },
                trace := connection_set_history w ww rw
                  ++ [.add_watch ww.id true, .add_watch rw.id true] })) ∧
        (unix_connection_set env w).2.conn.watches = w.conn.watches ++ [ww.id, rw.id]) := by
  have hperm : List.Perm ((w.conn.watches ++ [ww.id]).erase ww.id) w.conn.watches := by
    have h1 : List.Perm (w.conn.watches ++ [ww.id])
        (ww.id :: (w.conn.watches ++ [ww.id]).erase ww.id) :=
      List.perm_cons_erase (by simp)
    have h2 : List.Perm (w.conn.watches ++ [ww.id]) (ww.id :: w.conn.watches) :=
      List.perm_append_singleton _ _
    exact (List.Perm.cons_inv (h1.symm.trans h2))
  refine ⟨?_, ?_, ?_⟩
  · intro h1
    simp only [connection_set_history] at h1
    simp [unix_connection_set, hw, hr, _dbus_watch_set_handler, _dbus_connection_add_watch,
      emit, h1, connection_set_history]
  · intro h1 h2
    simp only [connection_set_history, List.append_assoc, List.cons_append,
      List.nil_append] at h1 h2
    have hres : unix_connection_set env w
        = (false, { w with
            conn := { w.conn with watches := (w.conn.watches ++ [ww.id]).erase ww.id },
            trace := connection_set_history w ww rw
              ++ [.add_watch ww.id true, .add_watch rw.id false, .remove_watch ww.id] }) := by
      simp [unix_connection_set, hw, hr, _dbus_watch_set_handler, _dbus_connection_add_watch,
        _dbus_connection_remove_watch, emit, h1, h2, connection_set_history]
    rw [hres]
    refine ⟨rfl, rfl, rfl, hperm, fun x => hperm.mem_iff, ?_⟩
    intro hnot
    have : (w.conn.watches ++ [ww.id]).erase ww.id = w.conn.watches := by
      rw [List.erase_append_right _ hnot]; simp
    simp [this]
  · intro h1 h2
    simp only [connection_set_history, List.append_assoc, List.cons_append,
      List.nil_append] at h1 h2
    have hres : unix_connection_set env w
        = (true, check_write_watch env (check_read_watch env
              { w with
                conn := { w.conn with watches := w.conn.watches ++ [ww.id, rw.id] },
                trace := connection_set_history w ww rw
                  ++ [.add_watch ww.id true, .add_watch rw.id true] })) := by
      simp [unix_connection_set, hw, hr, _dbus_watch_set_handler, _dbus_connection_add_watch,
        emit, h1, h2, connection_set_history]
    refine ⟨hres, ?_⟩
    rw [hres]
    simp only
    rw [(check_write_watch_frame env _).1, (check_read_watch_frame env _).1]

/-- Witness for C11: the freshly constructed example transport, attached to a
connection that accepts both watches. -/
theorem C11_witness :
    example_world_fresh.t.write_watch = some { id := 2, fd := 5, flags := 2, enabled := false } ∧
    example_world_fresh.t.read_watch = some { id := 1, fd := 5, flags := 1, enabled := false } ∧
    (unix_connection_set (example_env .WAITING_FOR_INPUT 17) example_world_fresh).2.conn.watches
      = [2, 1] :=
  ⟨rfl, rfl,
    ((C11_connection_set_atomic (example_env .WAITING_FOR_INPUT 17) example_world_fresh
      { id := 2, fd := 5, flags := 2, enabled := false }
      { id := 1, fd := 5, flags := 1, enabled := false } rfl rfl).2.2 rfl rfl).2⟩

/-- C12: on a transport attached to a connection, `check_read_watch` on a
connected transport makes exactly one toggle, of the read watch, to the spec's
formula `spec_need_read_watch` evaluated on what the transport observes (`live_messages_size
< max_live_messages_size` when authenticated, else `receive_credentials_pending`
or the auth engine reporting waiting-for-input), and the read watch then
carries that state, the write watch being left alone; on a disconnected
transport it toggles nothing and changes no field of the transport. -/
theorem C12_check_read_watch_toggles_to_need (env : Env) (w : World)
    (hc : w.t.connection = true) :
    (w.t.disconnected = false → ∀ rw, w.t.read_watch = some rw →
      (check_read_watch env w).t.read_watch
        = some { rw with enabled := observed_need_read_watch env w } ∧
      (check_read_watch env w).t.write_watch = w.t.write_watch ∧
      (∃ evs, (check_read_watch env w).trace = w.trace ++ evs ∧
        evs.filter Event.is_toggle
          = [.toggle_watch rw.id (observed_need_read_watch env w)]) ∧
      observed_need_read_watch env w
        = (if (_dbus_transport_get_is_authenticated env (_dbus_transport_ref w)).1
           then decide (w.t.live_messages_size < w.t.max_live_messages_size)
           else (w.t.receive_credentials_pending ||
             env.auth_do_work
                 (_dbus_transport_get_is_authenticated env (_dbus_transport_ref w)).2.trace
               == DBusAuthState.WAITING_FOR_INPUT))) ∧
    (w.t.disconnected = true →
      (check_read_watch env w).t = w.t ∧
      ∃ evs, (check_read_watch env w).trace = w.trace ++ evs ∧
        evs.filter Event.is_toggle = []) := by
  refine ⟨?_, ?_⟩
  · intro hd rw hr
    obtain ⟨h1, _, _, _, evs, h5, h6⟩ := check_read_watch_connected env w rw hc hd hr
    refine ⟨by rw [h1], by rw [h1], ⟨evs ++ [_], by rw [h5, List.append_assoc], ?_⟩, ?_⟩
    · have hnone : evs.filter Event.is_toggle = [] := by
        rw [List.filter_eq_nil_iff]
        intro e he
        obtain ⟨st, hst⟩ := h6 e he
        subst hst
        simp [Event.is_toggle]
      rw [List.filter_append, hnone]
      simp [Event.is_toggle]
    · simp [observed_need_read_watch, spec_need_read_watch]
  · intro hd
    simp only [check_read_watch, hc, hd]
    cases hr : w.t.read_watch
    · exact ⟨rfl, [], by simp, rfl⟩
    · exact ⟨rfl, [.assert_failed 154], rfl, by simp [Event.is_toggle]⟩

/-- Witness for C12: the example transport, unauthenticated, with the auth
engine waiting for input: the read watch is toggled to enabled. -/
theorem C12_witness :
    example_world.t.connection = true ∧
    (check_read_watch (example_env .WAITING_FOR_INPUT 17) example_world).t.read_watch
      = some { id := 1, fd := 5, flags := 1,
               enabled := observed_need_read_watch (example_env .WAITING_FOR_INPUT 17)
                 example_world } ∧
    observed_need_read_watch (example_env .WAITING_FOR_INPUT 17) example_world = true :=
  ⟨rfl,
    (((C12_check_read_watch_toggles_to_need (example_env .WAITING_FOR_INPUT 17) example_world
      rfl).1 rfl) { id := 1, fd := 5, flags := 1, enabled := true } rfl).1,
    by decide⟩

/-- C13: on a transport attached to a connection, `check_write_watch`, and
hence `unix_messages_pending`, on a connected transport makes exactly one
toggle, of the write watch, to the spec's formula `spec_need_write_watch` evaluated on what
the transport observes (`messages_need_sending` when authenticated, else
`send_credentials_pending` or the auth engine reporting bytes-to-send), and the
write watch then carries that state, the read watch being left alone; on a
disconnected transport it toggles nothing and changes no field of the
transport. -/
theorem C13_check_write_watch_toggles_to_need (env : Env) (w : World) (n : Int)
    (hc : w.t.connection = true) :
    unix_messages_pending env n w = check_write_watch env w ∧
    (w.t.disconnected = false → ∀ ww, w.t.write_watch = some ww →
      (check_write_watch env w).t.write_watch
        = some { ww with enabled := observed_need_write_watch env w } ∧
      (check_write_watch env w).t.read_watch = w.t.read_watch ∧
      (∃ evs, (check_write_watch env w).trace = w.trace ++ evs ∧
        evs.filter Event.is_toggle
          = [.toggle_watch ww.id (observed_need_write_watch env w)]) ∧
      observed_need_write_watch env w
        = (if (_dbus_transport_get_is_authenticated env (_dbus_transport_ref w)).1
           then w.t.messages_need_sending
           else (w.t.send_credentials_pending ||
             env.auth_do_work
                 (_dbus_transport_get_is_authenticated env (_dbus_transport_ref w)).2.trace
               == DBusAuthState.HAVE_BYTES_TO_SEND))) ∧
    (w.t.disconnected = true →
      (check_write_watch env w).t = w.t ∧
      ∃ evs, (check_write_watch env w).trace = w.trace ++ evs ∧
        evs.filter Event.is_toggle = []) := by
  refine ⟨rfl, ?_, ?_⟩
  · intro hd ww hw
    obtain ⟨h1, _, _, _, evs, h5, h6⟩ := check_write_watch_connected env w ww hc hd hw
    refine ⟨by rw [h1], by rw [h1], ⟨evs ++ [_], by rw [h5, List.append_assoc], ?_⟩, ?_⟩
    · have hnone : evs.filter Event.is_toggle = [] := by
        rw [List.filter_eq_nil_iff]
        intro e he
        obtain ⟨st, hst⟩ := h6 e he
        subst hst
        simp [Event.is_toggle]
      rw [List.filter_append, hnone]
      simp [Event.is_toggle]
    · simp [observed_need_write_watch, spec_need_write_watch]
  · intro hd
    simp only [check_write_watch, hc, hd]
    cases hw : w.t.write_watch
    · exact ⟨rfl, [], by simp, rfl⟩
    · exact ⟨rfl, [.assert_failed 124], rfl, by simp [Event.is_toggle]⟩

/-- Witness for C13: the example transport, unauthenticated, with the auth
engine waiting for input: the write watch is toggled to disabled. -/
theorem C13_witness :
    example_world.t.connection = true ∧
    (check_write_watch (example_env .WAITING_FOR_INPUT 17) example_world).t.write_watch
      = some { id := 2, fd := 5, flags := 2,
               enabled := observed_need_write_watch (example_env .WAITING_FOR_INPUT 17)
                 example_world } ∧
    observed_need_write_watch (example_env .WAITING_FOR_INPUT 17) example_world = false :=
  ⟨rfl,
    (((C13_check_write_watch_toggles_to_need (example_env .WAITING_FOR_INPUT 17) example_world
      0 rfl).2.1 rfl) { id := 2, fd := 5, flags := 2, enabled := true } rfl).1,
    by decide⟩

/-- C14 as stated fails: with the ceiling at 4096 and the live-message counter
at 4000, `check_read_watch` on the authenticated, connected example transport
toggles the read watch to enabled (4000 < 4096), whether the watch was enabled
or disabled before. -/
theorem C14_counterexample :
    example_world_backlog.t.authenticated = true ∧
    example_world_backlog.t.disconnected = false ∧
    example_world_backlog.t.max_live_messages_size = 4096 ∧
    example_world_backlog.t.live_messages_size = 4000 ∧
    (check_read_watch (example_env .AUTHENTICATED 17) example_world_backlog).t.read_watch
      = some { id := 1, fd := 5, flags := 1, enabled := true } ∧
    (check_read_watch (example_env .AUTHENTICATED 17) example_world_backlog).trace
      = [.toggle_watch 1 true] ∧
    (check_read_watch (example_env .AUTHENTICATED 17)
        example_world_backlog_disabled).t.read_watch
      = some { id := 1, fd := 5, flags := 1, enabled := true } := by
  decide

/-- C14, amended: on an authenticated, connected transport attached to a
connection, with the ceiling at 4096, recomputing the read watch sets it to
enabled exactly when the live-message counter is below 4096.  With the counter
at or above 4096 the read watch is left disabled and stays disabled through any
number of recomputes, until `unix_live_messages_changed` is called with the
counter at 0, after which the read watch is enabled. -/
theorem C14_read_watch_follows_counter (env : Env) (w : World) (rw : DBusWatch)
    (ha : w.t.authenticated = true) (hc : w.t.connection = true)
    (hd : w.t.disconnected = false) (hr : w.t.read_watch = some rw)
    (hm : w.t.max_live_messages_size = 4096) :
    (check_read_watch env w).t.read_watch
      = some { rw with enabled := decide (w.t.live_messages_size < 4096) } ∧
    (4096 ≤ w.t.live_messages_size → ∀ n,
      (Nat.iterate (check_read_watch env) (n + 1) w).t.read_watch
        = some { rw with enabled := false } ∧
      (unix_live_messages_changed env
          { Nat.iterate (check_read_watch env) (n + 1) w with
            t := { (Nat.iterate (check_read_watch env) (n + 1) w).t with
                   live_messages_size := 0 } }).t.read_watch
        = some { rw with enabled := true }) := by
  refine ⟨?_, ?_⟩
  · rw [check_read_watch_authenticated env w rw ha hc hd hr, hm]
  · intro hfull n
    have hit := check_read_watch_iterate_full env n w rw ha hc hd hr (by rw [hm]; exact hfull)
    refine ⟨by rw [hit], ?_⟩
    unfold unix_live_messages_changed
    rw [check_read_watch_authenticated env _ { rw with enabled := false }
      (by simp only [hit]; exact ha) (by simp only [hit]; exact hc)
      (by simp only [hit]; exact hd) (by simp only [hit])]
    simp only [hit]
    simp [hm]

/-- Witness for C14: the example transport with the counter at the ceiling. -/
theorem C14_witness :
    example_world_full.t.live_messages_size = 4096 ∧
    (check_read_watch (example_env .AUTHENTICATED 17) example_world_full).t.read_watch
      = some { id := 1, fd := 5, flags := 1, enabled := false } ∧
    (unix_live_messages_changed (example_env .AUTHENTICATED 17)
        { Nat.iterate (check_read_watch (example_env .AUTHENTICATED 17)) (2 + 1)
            example_world_full with
          t := { (Nat.iterate (check_read_watch (example_env .AUTHENTICATED 17)) (2 + 1)
                   example_world_full).t with live_messages_size := 0 } }).t.read_watch
      = some { id := 1, fd := 5, flags := 1, enabled := true } :=
  have h := C14_read_watch_follows_counter (example_env .AUTHENTICATED 17) example_world_full
    { id := 1, fd := 5, flags := 1, enabled := true } rfl rfl rfl rfl rfl
  ⟨rfl, h.1, ((h.2 (by decide)) 2).2⟩

/-- C15: `do_reading` on an authenticated transport, after `k` passes that each
read bytes and went round the loop, reaches a pass that gets past its checks
(the transport connected, the read watch enabled) and whose socket read
returns 0 bytes.  Then `do_reading` returns TRUE with the transport
disconnected and its descriptor closed; after the zero-byte read only the
return of the loader's buffer (with 0 bytes) and the teardown follow: no
`queue_messages`, no further read. -/
theorem C15_zero_read_disconnects (env : Env) (k fuel : Nat) (w0 w w1 : World) (total : Int)
    (ha : w0.t.authenticated = true)
    (hk : do_reading_passes env k w0 0 = some (w, total))
    (hcheck : do_reading_check env w total = .inr w1)
    (hpend : w1.auth.needs_decoding = true → w1.t.encoded_incoming = [])
    (hzero : env.sock_read (read_history w1) w1.t.max_bytes_read_per_iteration = .data []) :
    w1.t.disconnected = false ∧ dbus_watch_get_enabled w1.t.read_watch = true ∧
    ∃ w2 post,
      do_reading env (k + (fuel + 1)) w0 = some (w2, true) ∧
      w2.t.disconnected = true ∧ w2.t.fd = -1 ∧
      w2.trace = read_history w1
        ++ .sock_read w1.t.fd w1.t.max_bytes_read_per_iteration (.data []) :: post ∧
      (∀ e ∈ post, e = .loader_return_buffer 0 ∨ e.is_teardown = true) := by
  obtain ⟨hd1, hen⟩ := do_reading_check_inr env w w1 total hcheck
  obtain ⟨hr1, hr2, post0, hr3, hr4⟩ := read_message_bytes_zero env w1 hpend hzero
  have hpass : do_reading_pass env w1 total
      = .out (do_io_error (read_message_bytes env w1).2) false := by
    unfold do_reading_pass
    simp only [hr1]
    simp
  obtain ⟨hx1, hx2, _, _, evs, hx3, hx4⟩ :=
    do_io_error_connected (read_message_bytes env w1).2 (by rw [hr2]; exact hd1)
  refine ⟨hd1, hen, do_io_error (read_message_bytes env w1).2, post0 ++ evs, ?_, hx1, hx2, ?_, ?_⟩
  · unfold do_reading
    simp only [_dbus_transport_get_is_authenticated, ha, if_true, Bool.not_true,
      Bool.false_eq_true, if_false]
    rw [do_reading_passes_loop env k (fuel + 1) w0 w 0 total hk]
    unfold do_reading_loop
    simp only [hcheck, hpass, Bool.not_false]
  · rw [hx3, hr3]
    simp
  · intro e he
    rcases List.mem_append.mp he with h | h
    · exact Or.inl (hr4 e h)
    · exact Or.inr (hx4 e h)

/-- Witness for C15: the authenticated example transport under
`example_env_eof`: the first read delivers two bytes, which are queued, the
second finds the peer gone. -/
theorem C15_witness :
    example_world_authenticated.t.authenticated = true ∧
    (do_reading example_env_eof 2 example_world_authenticated).map
        (fun p => (p.2, p.1.t.disconnected, p.1.trace.filter Event.is_socket_read))
      = some (true, true, [.sock_read 5 2048 (.data [7, 7]), .sock_read 5 2048 (.data [])]) ∧
    ∃ w2 post,
      do_reading example_env_eof (1 + (0 + 1)) example_world_authenticated = some (w2, true) ∧
      w2.t.disconnected = true ∧ w2.t.fd = -1 ∧
      w2.trace = read_history (check_read_watch example_env_eof example_world_after_read)
        ++ .sock_read 5 2048 (.data []) :: post ∧
      (∀ e ∈ post, e = .loader_return_buffer 0 ∨ e.is_teardown = true) :=
  ⟨rfl, by decide!,
    (C15_zero_read_disconnects example_env_eof 1 0 example_world_authenticated
      example_world_after_read (check_read_watch example_env_eof example_world_after_read) 2
      rfl (by decide!) (by decide!) (by decide) (by decide!)).2.2⟩

/-- C16 fails on the header path: with an encoder that fails on the header
after appending one byte, `do_writing` on the authenticated, encoding example
transport returns FALSE without disconnecting, without a socket write and with
`message_bytes_written` at 0, but `encoded_outgoing` keeps the byte `[9]`; the
next call finds the buffer non-empty, skips the encode, writes `[9]` to the
socket as if it were the message and notifies the message as sent.  On the
body path (the header encoded, the body failing after appending one byte) the
buffer is reset to length 0. -/
theorem C16_header_encode_failure_keeps_bytes :
    (do_writing example_env_header_oom 1 example_world_encoding).map
        (fun p => (p.2, p.1.t.disconnected, p.1.t.message_bytes_written))
      = some (false, false, 0) ∧
    (do_writing example_env_header_oom 1 example_world_encoding).map
        (fun p => (p.1.trace.filter Event.is_socket_write, p.1.t.encoded_outgoing))
      = some ([], [9]) ∧
    ((do_writing example_env_header_oom 1 example_world_encoding).bind
        (fun p => do_writing example_env_header_oom 2 p.1)).map
        (fun p => (wire_bytes p.1.trace, sent_messages p.1.trace))
      = some ([9], [{ header := [1, 2, 3], body := [4, 5] }]) ∧
    (do_writing example_env_body_oom 1 example_world_encoding).map
        (fun p => (p.2, p.1.t.disconnected, p.1.t.message_bytes_written))
      = some (false, false, 0) ∧
    (do_writing example_env_body_oom 1 example_world_encoding).map
        (fun p => (p.1.trace.filter Event.is_socket_write, p.1.t.encoded_outgoing))
      = some ([], []) := by
  decide!

/-- C17 fails when the auth engine needs decoding: on the authenticated example
transport with the read watch enabled and `encoded_incoming` empty, a socket
read failing with EAGAIN (or EWOULDBLOCK) leaves `bytes_read = -1` against a
buffer of length 0, so the assertion of line 615 fails; past the assertion
`do_reading` returns TRUE without disconnecting.  Without decoding the same
read violates no assertion. -/
theorem C17_eagain_with_decoding_fails_assertion :
    example_world_encoding.auth.needs_decoding = true ∧
    (do_reading (example_env .AUTHENTICATED 17) 1 example_world_encoding).map
        (fun p => (p.2, p.1.t.disconnected, p.1.trace))
      = some (true, false,
              [.toggle_watch 1 true, .sock_read 5 2048 (.err .EAGAIN), .assert_failed 615]) ∧
    (do_reading { example_env .AUTHENTICATED 17 with sock_read := fun _ _ => .err .EWOULDBLOCK }
        1 example_world_encoding).map
        (fun p => (p.2, p.1.t.disconnected, p.1.trace))
      = some (true, false,
              [.toggle_watch 1 true, .sock_read 5 2048 (.err .EWOULDBLOCK),
               .assert_failed 615]) ∧
    (do_reading (example_env .AUTHENTICATED 17) 1 example_world_authenticated).map
        (fun p => (p.2, p.1.t.disconnected, p.1.trace))
      = some (true, false,
              [.toggle_watch 1 true, .loader_get_buffer, .sock_read 5 2048 (.err .EAGAIN),
               .loader_return_buffer 0]) := by
  decide!

/-- C18 as stated fails: on the example transport (no credentials pending, the
auth engine waiting for input) one call of `do_authentication` whose first
read delivers a byte goes round the loop twice and calls `set_credentials`
twice; and two calls made without permission to read call it once each. -/
theorem C18_counterexample :
    (do_authentication example_env_auth_input 2 true false example_world).map
        (fun p => (p.2, p.1.trace.filter Event.is_set_credentials))
      = some (true, [.auth_set_credentials, .auth_set_credentials]) ∧
    ((do_authentication (example_env .WAITING_FOR_INPUT 17) 1 false false example_world).bind
        (fun p => do_authentication (example_env .WAITING_FOR_INPUT 17) 1 false false p.1)).map
        (fun p => p.1.trace.filter Event.is_set_credentials)
      = some [.auth_set_credentials, .auth_set_credentials] := by
  decide!

/-- C18, amended: in every pass of the `do_authentication` loop
`set_credentials` is invoked exactly once when both pending flags are false
after the credential exchange of that pass, and not at all when a flag is
still pending. -/
theorem C18_set_credentials_once_per_pass (env : Env) (dr dw : Bool) (w : World) :
    ∃ evs, (do_authentication_pass env dr dw w).world.trace = w.trace ++ evs ∧
      evs.countP Event.is_set_credentials
        = (if (exchange_credentials env dr dw w).t.send_credentials_pending
              || (exchange_credentials env dr dw w).t.receive_credentials_pending
           then 0 else 1) := by
  obtain ⟨evs0, h0, htr0⟩ := exchange_credentials_events env dr dw w
  obtain ⟨evs1, htr1, h1⟩ := do_authentication_pass_adds env dr dw w
  have hz0 : evs0.countP Event.is_set_credentials = 0 := by
    rw [List.countP_eq_zero]
    intro e he
    simp [credential_step_not_set_credentials e (h0 e he)]
  have hz1 : evs1.countP Event.is_set_credentials = 0 := by
    rw [List.countP_eq_zero]
    intro e he
    simp [auth_step_not_set_credentials e (h1 e he)]
  refine ⟨evs0 ++ _ ++ evs1, by rw [htr1, htr0, List.append_assoc, List.append_assoc,
    List.append_assoc], ?_⟩
  rw [List.countP_append, List.countP_append, hz0, hz1]
  split_ifs <;> simp [Event.is_set_credentials]

/-- C19 as stated fails: `do_authentication` on the authenticated example
transport with nothing to send toggles both watches, and the write watch,
enabled before the call, is disabled after it. -/
theorem C19_counterexample :
    example_world_idle.t.authenticated = true ∧
    example_world_idle.t.write_watch = some { id := 2, fd := 5, flags := 2, enabled := true } ∧
    (do_authentication (example_env .AUTHENTICATED 17) 1 true true example_world_idle).map
        (fun p => (p.2, p.1.t.write_watch, p.1.trace))
      = some (true, some { id := 2, fd := 5, flags := 2, enabled := false },
              [.toggle_watch 1 true, .toggle_watch 2 false]) := by
  decide!

/-- C19, amended: `do_authentication` on an already authenticated, connected
transport, for every pair of arguments, returns TRUE having exchanged no
credentials, made no socket read or write and called no auth-engine mutator.
When the transport is attached to a connection it recomputes both watches: it
toggles the read watch to `live_messages_size < max_live_messages_size` and the
write watch to `messages_need_sending`, which are the only calls it makes and
the only fields it changes; when it is not attached it changes nothing. -/
theorem C19_authenticated_recomputes_watches_only (env : Env) (fuel : Nat) (dr dw : Bool)
    (w : World) (rw ww : DBusWatch)
    (ha : w.t.authenticated = true) (hd : w.t.disconnected = false)
    (hr : w.t.read_watch = some rw) (hw : w.t.write_watch = some ww) :
    do_authentication env fuel dr dw w
      = some
          (if w.t.connection then
            { w with
              t := { w.t with
                     read_watch := some
                       { rw with
                         enabled := decide (w.t.live_messages_size < w.t.max_live_messages_size) },
                     write_watch := some { ww with enabled := w.t.messages_need_sending } },
              trace := w.trace ++
                [.toggle_watch rw.id
                   (decide (w.t.live_messages_size < w.t.max_live_messages_size)),
                 .toggle_watch ww.id w.t.messages_need_sending] }
           else w, true) := by
  have hloop : do_authentication_loop env dr dw fuel (_dbus_transport_ref w)
      = some (_dbus_transport_ref w, false) := by
    unfold do_authentication_loop
    simp [_dbus_transport_get_is_authenticated, _dbus_transport_ref, ha]
  unfold do_authentication
  simp only [hloop]
  cases hc : w.t.connection
  · have h1 : check_read_watch env (_dbus_transport_ref w) = _dbus_transport_ref w := by
      simp [check_read_watch, _dbus_transport_ref, hc]
    have h2 : check_write_watch env (_dbus_transport_ref w) = _dbus_transport_ref w := by
      simp [check_write_watch, _dbus_transport_ref, hc]
    simp [h1, h2, ref_unref]
  · have h1 := check_read_watch_authenticated env (_dbus_transport_ref w) rw ha hc hd hr
    have h2 := check_write_watch_authenticated env (check_read_watch env (_dbus_transport_ref w))
      ww (by rw [h1]; exact ha) (by rw [h1]; exact hc) (by rw [h1]; exact hd)
      (by rw [h1]; exact hw)
    simp only [h2]
    simp only [h1]
    simp [_dbus_transport_ref, _dbus_transport_unref, hc]

/-- Witness for C19: the authenticated example transport with nothing to send. -/
theorem C19_witness :
    example_world_idle.t.authenticated = true ∧
    do_authentication (example_env .AUTHENTICATED 17) 0 true true example_world_idle
      = some ({ example_world_idle with
                t := { example_world_idle.t with
                       read_watch := some { id := 1, fd := 5, flags := 1, enabled := true },
                       write_watch := some { id := 2, fd := 5, flags := 2, enabled := false } },
                trace := [.toggle_watch 1 true, .toggle_watch 2 false] }, true) :=
  ⟨rfl, C19_authenticated_recomputes_watches_only (example_env .AUTHENTICATED 17) 0 true true
    example_world_idle { id := 1, fd := 5, flags := 1, enabled := true }
    { id := 2, fd := 5, flags := 2, enabled := true } rfl rfl rfl rfl⟩

/-- C20: `do_authentication` with permission to read, on a connected transport
with no credentials pending whose auth engine reports waiting-for-input in the
first pass, handles the answer `res` of the socket read into the auth buffer as
follows.  A read of `n > 0` bytes returns `n` bytes to the auth buffer and the
loop goes on, the transport still connected.  A read of 0 bytes disconnects and
the call returns TRUE.  ENOMEM makes the call return FALSE without
disconnecting; EAGAIN and EWOULDBLOCK make it return TRUE without
disconnecting; any other error disconnects and the call returns TRUE.  In each
of these non-positive cases 0 bytes are committed to the auth buffer.  And
whenever `do_authentication` returns FALSE, a read has failed with ENOMEM or
the auth engine has reported waiting-for-memory during that call. -/
theorem C20_auth_read_classification (env : Env) (fuel : Nat) (dw : Bool) (w : World)
    (res : ReadResult)
    (hauth : w.t.authenticated = false) (hd : w.t.disconnected = false)
    (hs : w.t.send_credentials_pending = false) (hr : w.t.receive_credentials_pending = false)
    (h0 : env.auth_do_work w.trace ≠ .AUTHENTICATED)
    (h1 : env.auth_do_work
        (w.trace ++ [.auth_do_work (env.auth_do_work w.trace), .auth_set_credentials])
      = .WAITING_FOR_INPUT)
    (hres : env.sock_read (auth_read_history env w) w.t.max_bytes_read_per_iteration = res) :
    (∀ bs, res = .data bs → bs ≠ [] →
      do_authentication_loop env true dw (fuel + 1) (_dbus_transport_ref w)
        = do_authentication_loop env true dw fuel (auth_read_world env w res) ∧
      (auth_read_world env w res).t.disconnected = false ∧
      (auth_read_world env w res).trace
        = auth_read_history env w ++
            [.sock_read w.t.fd w.t.max_bytes_read_per_iteration res,
             .auth_return_buffer bs.length]) ∧
    (res = .data [] → AuthReadExit env fuel dw w res true true) ∧
    (res = .err .ENOMEM → AuthReadExit env fuel dw w res false false) ∧
    (res = .err .EAGAIN ∨ res = .err .EWOULDBLOCK → AuthReadExit env fuel dw w res true false) ∧
    (∀ e, res = .err e → e ≠ .ENOMEM → e ≠ .EAGAIN → e ≠ .EWOULDBLOCK →
      AuthReadExit env fuel dw w res true true) ∧
    (∀ (fuel1 : Nat) (dr1 dw1 : Bool) (w0 w1 : World),
      do_authentication env fuel1 dr1 dw1 w0 = some (w1, false) →
      ∃ evs, w1.trace = w0.trace ++ evs ∧ evs.any Event.is_auth_oom = true) := by
  have hpass := auth_first_pass env fuel dw w res hauth hd hs hr h0 h1 hres
  have hdw : (auth_read_world env w res).t.disconnected = false := by
    simpa [auth_read_world, _dbus_transport_ref] using hd
  have hio := do_io_error_connected (auth_read_world env w res) hdw
  refine ⟨?_, ?_, ?_, ?_, ?_, ?_⟩
  · intro bs hbs hne
    subst hbs
    have hlen : bs.length ≠ 0 := fun h => hne (List.length_eq_zero.mp h)
    simp only [hlen, if_false] at hpass
    refine ⟨hpass, hdw, ?_⟩
    have hpos : (0 : Int) < (bs.length : Int) := by
      exact_mod_cast Nat.pos_of_ne_zero hlen
    simp [auth_read_world, ReadResult.count, hpos]
  · intro h
    subst h
    simp only [List.length_nil, if_true] at hpass
    exact auth_exit_of_loop env fuel dw w _ _ false true (by simp [ReadResult.count]) hpass
      hio.1 hio.2.2.2.2
  · intro h
    subst h
    exact auth_exit_of_loop env fuel dw w _ _ true false (by simp [ReadResult.count]) hpass
      hdw (TraceAdds_refl _ _)
  · intro h
    rcases h with h | h <;> subst h
    · exact auth_exit_of_loop env fuel dw w _ _ false false (by simp [ReadResult.count]) hpass
        hdw (TraceAdds_refl _ _)
    · exact auth_exit_of_loop env fuel dw w _ _ false false (by simp [ReadResult.count]) hpass
        hdw (TraceAdds_refl _ _)
  · intro e h hn1 hn2 hn3
    subst h
    have hpass2 : do_authentication_loop env true dw (fuel + 1) (_dbus_transport_ref w)
        = some (do_io_error (auth_read_world env w (.err e)), false) := by
      rw [hpass]
      cases e <;> simp_all
    exact auth_exit_of_loop env fuel dw w _ _ false true (by simp [ReadResult.count]) hpass2
      hio.1 hio.2.2.2.2
  · intro fuel1 dr1 dw1 w0 w1 h
    exact do_authentication_oom env fuel1 dr1 dw1 w0 w1 h

/-- Witness for C20: the example transport, unauthenticated, whose auth engine
waits for input and whose socket would block. -/
theorem C20_witness :
    example_world.t.authenticated = false ∧ example_world.t.disconnected = false ∧
    AuthReadExit (example_env .WAITING_FOR_INPUT 17) 0 false example_world (.err .EAGAIN)
      true false :=
  ⟨rfl, rfl,
    (C20_auth_read_classification (example_env .WAITING_FOR_INPUT 17) 0 false example_world
      (.err .EAGAIN) rfl rfl rfl rfl (by decide) rfl rfl).2.2.2.1 (Or.inl rfl)⟩

/-- C21 as stated fails in its second half: on the authenticated example
transport, `unix_do_iteration` with `DO_READING | BLOCK` and a timeout of 10000
whose first poll is interrupted does poll again, but the retried poll is given
the full 10000 once more. -/
theorem C21_counterexample :
    (unix_do_iteration example_env_interrupted 3 (DBUS_ITERATION_DO_READING ||| DBUS_ITERATION_BLOCK)
        10000 example_world_authenticated).map (fun w1 => w1.trace.filter Event.is_poll)
      = some [.poll 5 1 10000 (.err .EINTR), .poll 5 1 10000 (.ready 0 0)] := by
  decide!

/-- C21, amended: a poll of `unix_do_iteration` that is interrupted (EINTR) is
followed by another poll rather than by a return, and the retried poll is given
the same descriptor, events and timeout as the first: the polls of a call that
returns are `k` interrupted polls and then one that is not interrupted, each
with the caller's full timeout when BLOCK is set and with 0 otherwise. -/
theorem C21_interrupted_poll_retried_with_same_timeout (env : Env) (fuel flags : Nat)
    (tmo : Int) (w : World) :
    (∀ (f : Nat) (w0 : World) (fd : Int) (ev : Nat) (t : Int),
      env.poll w0.trace fd ev t = .err .EINTR →
      poll_again env fd ev t (f + 1) w0
        = poll_again env fd ev t f (emit (.poll fd ev t (.err .EINTR)) w0)) ∧
    (∀ w1, unix_do_iteration env fuel flags tmo w = some w1 →
      ∃ evs, w1.trace = w.trace ++ evs ∧
        (evs.filter Event.is_poll = [] ∨
         ∃ k res, res ≠ .err .EINTR ∧
           evs.filter Event.is_poll
             = poll_events w.t.fd (iteration_events env flags w).1
                 (if flag_set flags DBUS_ITERATION_BLOCK then tmo else 0) k res)) := by
  refine ⟨?_, ?_⟩
  · intro f w0 fd ev t hint
    conv_lhs => unfold poll_again
    simp only [hint]
  · intro w1 h
    obtain ⟨pre, _, hpre, h0, hne⟩ := unix_do_iteration_trace env fuel flags tmo w w1 h
    by_cases hz : (iteration_events env flags w).1 = 0
    · exact ⟨pre, h0 hz, Or.inl (filter_poll_of_io_step pre hpre)⟩
    · obtain ⟨k, res, post, _, hres, hpost, htr⟩ := hne hz
      refine ⟨(pre ++ ((if flag_set flags DBUS_ITERATION_BLOCK = true then [Event.connection_unlock]
          else []) ++
        (poll_events w.t.fd (iteration_events env flags w).1
            (if flag_set flags DBUS_ITERATION_BLOCK = true then tmo else 0) k res ++
          ((if flag_set flags DBUS_ITERATION_BLOCK = true then [Event.connection_lock]
            else []) ++ post)))),
        by rw [htr]; simp only [List.append_assoc], Or.inr ⟨k, res, hres, ?_⟩⟩
      simp only [List.filter_append, filter_poll_of_io_step pre hpre,
        filter_poll_of_io_step post hpost, filter_poll_events, List.nil_append,
        List.append_nil]
      split_ifs <;> simp [Event.is_poll]

/-- Witness for C21: the authenticated example transport, whose first poll is
interrupted: the call returns and its polls are one interrupted poll and one
that answers, both with the timeout 10000. -/
theorem C21_witness :
    ∃ w1, unix_do_iteration example_env_interrupted 3
        (DBUS_ITERATION_DO_READING ||| DBUS_ITERATION_BLOCK) 10000
        example_world_authenticated = some w1 ∧
      ∃ evs, w1.trace = example_world_authenticated.trace ++ evs ∧
        (evs.filter Event.is_poll = [] ∨
         ∃ k res, res ≠ .err .EINTR ∧
           evs.filter Event.is_poll
             = poll_events example_world_authenticated.t.fd
                 (iteration_events example_env_interrupted
                   (DBUS_ITERATION_DO_READING ||| DBUS_ITERATION_BLOCK)
                   example_world_authenticated).1
                 (if flag_set (DBUS_ITERATION_DO_READING ||| DBUS_ITERATION_BLOCK)
                   DBUS_ITERATION_BLOCK then 10000 else 0) k res) := by
  obtain ⟨w1, h⟩ := Option.isSome_iff_exists.mp
    (show (unix_do_iteration example_env_interrupted 3
        (DBUS_ITERATION_DO_READING ||| DBUS_ITERATION_BLOCK) 10000
        example_world_authenticated).isSome = true by decide!)
  exact ⟨w1, h, (C21_interrupted_poll_retried_with_same_timeout example_env_interrupted 3
    (DBUS_ITERATION_DO_READING ||| DBUS_ITERATION_BLOCK) 10000
    example_world_authenticated).2 w1 h⟩

/-- C22: the trace of a call of `unix_do_iteration` that returns.  When the
event set is empty there is no poll, no unlock and no lock.  Otherwise, with
BLOCK set, the connection is unlocked once, then come the polls (any number
`k` of interrupted ones and the one that answers), each given the caller's
timeout, then the connection is locked once, then the dispatch; with BLOCK not
set the polls are given the timeout 0 and there is no unlock and no lock.
Before the polls and in the dispatch (authentication, reading, writing) there
is no poll, no unlock and no lock. -/
theorem C22_lock_discipline (env : Env) (fuel flags : Nat) (tmo : Int) (w w1 : World)
    (h : unix_do_iteration env fuel flags tmo w = some w1) :
    ∃ evs, w1.trace = w.trace ++ evs ∧
      ((iteration_events env flags w).1 = 0 → evs.filter Event.is_poll_or_lock = []) ∧
      ((iteration_events env flags w).1 ≠ 0 → flag_set flags DBUS_ITERATION_BLOCK = true →
        ∃ pre k res post, res ≠ .err .EINTR ∧
          (∀ e ∈ pre, e.is_io_step = true) ∧ (∀ e ∈ post, e.is_io_step = true) ∧
          evs = pre ++ [.connection_unlock]
            ++ poll_events w.t.fd (iteration_events env flags w).1 tmo k res
            ++ [.connection_lock] ++ post ∧
          evs.filter Event.is_poll_or_lock
            = [.connection_unlock]
              ++ poll_events w.t.fd (iteration_events env flags w).1 tmo k res
              ++ [.connection_lock]) ∧
      ((iteration_events env flags w).1 ≠ 0 → flag_set flags DBUS_ITERATION_BLOCK = false →
        ∃ pre k res post, res ≠ .err .EINTR ∧
          (∀ e ∈ pre, e.is_io_step = true) ∧ (∀ e ∈ post, e.is_io_step = true) ∧
          evs = pre ++ poll_events w.t.fd (iteration_events env flags w).1 0 k res ++ post ∧
          evs.filter Event.is_poll_or_lock
            = poll_events w.t.fd (iteration_events env flags w).1 0 k res) := by
  have hfp : ∀ fd ev t k res, (poll_events fd ev t k res).filter Event.is_poll_or_lock
      = poll_events fd ev t k res := by
    intro fd ev t k res
    rw [List.filter_eq_self]
    intro e he
    simp only [poll_events, List.mem_append, List.mem_replicate, List.mem_singleton] at he
    rcases he with ⟨_, h⟩ | h <;> subst h <;> rfl
  obtain ⟨pre, _, hpre, h0, hne⟩ := unix_do_iteration_trace env fuel flags tmo w w1 h
  by_cases hz : (iteration_events env flags w).1 = 0
  · exact ⟨pre, h0 hz, fun _ => filter_lock_of_io_step pre hpre, fun h => absurd hz h,
      fun h => absurd hz h⟩
  · obtain ⟨k, res, post, _, hres, hpost, htr⟩ := hne hz
    refine ⟨(pre ++ ((if flag_set flags DBUS_ITERATION_BLOCK = true then [Event.connection_unlock]
          else []) ++
        (poll_events w.t.fd (iteration_events env flags w).1
            (if flag_set flags DBUS_ITERATION_BLOCK = true then tmo else 0) k res ++
          ((if flag_set flags DBUS_ITERATION_BLOCK = true then [Event.connection_lock]
            else []) ++ post)))),
      by rw [htr]; simp only [List.append_assoc], fun h => absurd h hz, ?_, ?_⟩
    · intro _ hb
      refine ⟨pre, k, res, post, hres, hpre, hpost, by simp [hb], ?_⟩
      simp only [hb, if_true, List.filter_append, filter_lock_of_io_step pre hpre,
        filter_lock_of_io_step post hpost, hfp, List.nil_append, List.append_nil]
      simp [Event.is_poll_or_lock]
    · intro _ hb
      refine ⟨pre, k, res, post, hres, hpre, hpost, by simp [hb], ?_⟩
      simp only [hb, Bool.false_eq_true, if_false, List.filter_append,
        filter_lock_of_io_step pre hpre, filter_lock_of_io_step post hpost, hfp,
        List.nil_append, List.append_nil, List.filter_nil]

/-- Witness for C22: the authenticated example transport, polled with
`DO_READING | BLOCK` and a timeout of 10000, the first poll interrupted: the call
returns, having unlocked once before the two polls and locked once after
them. -/
theorem C22_witness :
    (unix_do_iteration example_env_interrupted 3
        (DBUS_ITERATION_DO_READING ||| DBUS_ITERATION_BLOCK) 10000
        example_world_authenticated).map (fun w1 => w1.trace.filter Event.is_poll_or_lock)
      = some [.connection_unlock, .poll 5 1 10000 (.err .EINTR), .poll 5 1 10000 (.ready 0 0),
              .connection_lock] ∧
    ∃ w1, unix_do_iteration example_env_interrupted 3
        (DBUS_ITERATION_DO_READING ||| DBUS_ITERATION_BLOCK) 10000
        example_world_authenticated = some w1 ∧
      ∃ evs, w1.trace = example_world_authenticated.trace ++ evs ∧
        ((iteration_events example_env_interrupted
            (DBUS_ITERATION_DO_READING ||| DBUS_ITERATION_BLOCK)
            example_world_authenticated).1 = 0 →
          evs.filter Event.is_poll_or_lock = []) := by
  refine ⟨by decide!, ?_⟩
  obtain ⟨w1, h⟩ := Option.isSome_iff_exists.mp
    (show (unix_do_iteration example_env_interrupted 3
        (DBUS_ITERATION_DO_READING ||| DBUS_ITERATION_BLOCK) 10000
        example_world_authenticated).isSome = true by decide!)
  obtain ⟨evs, h1, h2, _⟩ := C22_lock_discipline example_env_interrupted 3
    (DBUS_ITERATION_DO_READING ||| DBUS_ITERATION_BLOCK) 10000 example_world_authenticated w1 h
  exact ⟨w1, h, evs, h1, h2⟩

/-- C23: every call of `_dbus_transport_init_base` the constructors lead to
names the client side and the address built from the arguments:
`unix:abstract=` or `unix:path=` followed by the path for
`_dbus_transport_new_for_domain_socket`, and `tcp:host=`, the host, `,port=` and
the decimal rendering of the port for `_dbus_transport_new_for_tcp_socket`;
there is at most one such call, and a transport that is returned is a client
(`is_server = FALSE`), keeps that address, and was handed it in exactly one
call. -/
theorem C23_constructor_addresses (env : CtorEnv) (path : String) (abstract : Bool)
    (host : String) (port : Int) :
    (((_dbus_transport_new_for_domain_socket env path abstract).2.filterMap
          CtorEvent.base_args = [] ∨
        (_dbus_transport_new_for_domain_socket env path abstract).2.filterMap
          CtorEvent.base_args
          = [(false, (if abstract then "unix:abstract=" else "unix:path=") ++ path)]) ∧
      (∀ t a, (_dbus_transport_new_for_domain_socket env path abstract).1 = some (t, a) →
        t.is_server = false ∧
        a = (if abstract then "unix:abstract=" else "unix:path=") ++ path ∧
        (_dbus_transport_new_for_domain_socket env path abstract).2.filterMap
          CtorEvent.base_args
          = [(false, (if abstract then "unix:abstract=" else "unix:path=") ++ path)])) ∧
    (((_dbus_transport_new_for_tcp_socket env host port).2.filterMap CtorEvent.base_args = [] ∨
        (_dbus_transport_new_for_tcp_socket env host port).2.filterMap CtorEvent.base_args
          = [(false, "tcp:host=" ++ host ++ ",port=" ++ toString port)]) ∧
      (∀ t a, (_dbus_transport_new_for_tcp_socket env host port).1 = some (t, a) →
        t.is_server = false ∧
        a = "tcp:host=" ++ host ++ ",port=" ++ toString port ∧
        (_dbus_transport_new_for_tcp_socket env host port).2.filterMap CtorEvent.base_args
          = [(false, "tcp:host=" ++ host ++ ",port=" ++ toString port)])) :=
  ⟨domain_socket_events env path abstract, tcp_socket_events env host port⟩

/-- C23 at work: with every collaborator succeeding, the abstract socket
`/tmp/bus` and the tcp endpoint `localhost:4242` both yield a client transport,
handed `unix:abstract=/tmp/bus` and `tcp:host=localhost,port=4242`. -/
theorem C23_witness :
    (((_dbus_transport_new_for_domain_socket example_ctor_env "/tmp/bus" true).1.map
          (fun r => (r.1.is_server, r.2)) = some (false, "unix:abstract=/tmp/bus") ∧
        (_dbus_transport_new_for_domain_socket example_ctor_env "/tmp/bus" false).1.map
          (fun r => (r.1.is_server, r.2)) = some (false, "unix:path=/tmp/bus")) ∧
      (_dbus_transport_new_for_tcp_socket example_ctor_env "localhost" 4242).1.map
          (fun r => (r.1.is_server, r.2)) = some (false, "tcp:host=localhost,port=4242")) ∧
    (_dbus_transport_new_for_domain_socket example_ctor_env "/tmp/bus" true).2.filterMap
        CtorEvent.base_args = [(false, "unix:abstract=/tmp/bus")] ∧
    (_dbus_transport_new_for_tcp_socket example_ctor_env "localhost" 4242).2.filterMap
        CtorEvent.base_args = [(false, "tcp:host=localhost,port=4242")] := by
  have h := C23_constructor_addresses example_ctor_env "/tmp/bus" true "localhost" 4242
  refine ⟨by decide, ?_, ?_⟩
  · exact (h.1.2 _ _ rfl).2.2
  · exact (h.2.2 _ _ rfl).2.2

/-- C24: for a name of one or more words, each an upper-case ASCII letter
followed by one or more lower-case ASCII letters, `wincaps_to_uscore` turns the
WinCaps name into the lower-case words joined by single underscores, and
`uscore_to_wincaps` turns that back into the WinCaps name. -/
theorem C24_name_conversion_round_trip (words : List (Byte × List Byte))
    (hne : words ≠ []) (hw : ∀ wd ∈ words, WinCapsWord wd) :
    wincaps_to_uscore (wincaps_name words) = uscore_name words ∧
    uscore_to_wincaps (uscore_name words) = wincaps_name words := by
  cases words with
  | nil => exact absurd rfl hne
  | cons wd rest =>
    obtain ⟨hc, hn, hl⟩ := hw wd (List.mem_cons_self _ _)
    have hrest : ∀ x ∈ rest, WinCapsWord x := fun x hx => hw x (List.mem_cons_of_mem _ hx)
    rw [uscore_name_cons wd rest hw]
    constructor
    · have h1 := wincaps_loop_first_word wd.1 wd.2 (wincaps_name rest) hc hl
      have h2 := wincaps_loop_words rest hrest ((wd.1 + 32) :: wd.2)
        (by simpa using word_end_clear [] wd.1 wd.2 hc hn hl)
      simp only [wincaps_to_uscore, wincaps_name, List.map_cons, List.flatten_cons] at h1 h2 ⊢
      rw [h1, h2]
    · have h1 := uscore_loop_word wd.1 wd.2
        ((rest.map (fun x => 95 :: (x.1 + 32) :: x.2)).flatten) [] hc hl
      have h2 := uscore_loop_words rest hrest false ([] ++ wd.1 :: wd.2)
      simp only [uscore_to_wincaps, List.cons_append, List.nil_append] at h1 h2 ⊢
      rw [h1, h2]
      simp [wincaps_name]

/-- C24 on the four pairs of `_dbus_gobject_test`: SetFoo and set_foo, Foo and
foo, GetFooBar and get_foo_bar, Hello and hello. -/
theorem C24_witness :
    (wincaps_to_uscore (c_string "SetFoo") = c_string "set_foo" ∧
      uscore_to_wincaps (c_string "set_foo") = c_string "SetFoo") ∧
    (wincaps_to_uscore (c_string "Foo") = c_string "foo" ∧
      uscore_to_wincaps (c_string "foo") = c_string "Foo") ∧
    (wincaps_to_uscore (c_string "GetFooBar") = c_string "get_foo_bar" ∧
      uscore_to_wincaps (c_string "get_foo_bar") = c_string "GetFooBar") ∧
    (wincaps_to_uscore (c_string "Hello") = c_string "hello" ∧
      uscore_to_wincaps (c_string "hello") = c_string "Hello") :=
  ⟨C24_name_conversion_round_trip [(83, [101, 116]), (70, [111, 111])] (by decide)
      (by decide),
    C24_name_conversion_round_trip [(70, [111, 111])] (by decide) (by decide),
    C24_name_conversion_round_trip [(71, [101, 116]), (70, [111, 111]), (66, [97, 114])]
      (by decide) (by decide),
    C24_name_conversion_round_trip [(72, [101, 108, 108, 111])] (by decide) (by decide)⟩

/-- C25: on an authenticated, connected transport attached to a connection
whose live-message counter is at or above its ceiling on entry, `do_reading`
toggles the read watch to disabled and returns TRUE at once: that toggle is the
only call it makes (no socket read, no borrow of the loader's buffer, no
`queue_messages`) and the read watch the only field it changes. -/
theorem C25_backpressure_stops_reading (env : Env) (fuel : Nat) (w : World) (rw : DBusWatch)
    (ha : w.t.authenticated = true) (hc : w.t.connection = true)
    (hd : w.t.disconnected = false) (hr : w.t.read_watch = some rw)
    (hfull : w.t.max_live_messages_size ≤ w.t.live_messages_size) :
    do_reading env fuel w
      = some ({ w with
                t := { w.t with read_watch := some { rw with enabled := false } },
                trace := w.trace ++ [.toggle_watch rw.id false] }, true) := by
  have hcheck := check_read_watch_authenticated env w rw ha hc hd hr
  have hdec : decide (w.t.live_messages_size < w.t.max_live_messages_size) = false := by
    simpa using hfull
  rw [hdec] at hcheck
  unfold do_reading
  simp only [_dbus_transport_get_is_authenticated, ha, if_true, Bool.not_true,
    Bool.false_eq_true, if_false]
  unfold do_reading_loop do_reading_check
  simp only [hcheck]
  split_ifs <;> simp_all [dbus_watch_get_enabled]

/-- Witness for C25: the example transport with the counter at the ceiling. -/
theorem C25_witness :
    example_world_full.t.max_live_messages_size ≤ example_world_full.t.live_messages_size ∧
    do_reading (example_env .AUTHENTICATED 17) 0 example_world_full
      = some ({ example_world_full with
                t := { example_world_full.t with
                       read_watch := some { id := 1, fd := 5, flags := 1, enabled := false } },
                trace := [.toggle_watch 1 false] }, true) :=
  ⟨by decide,
   C25_backpressure_stops_reading (example_env .AUTHENTICATED 17) 0 example_world_full
     { id := 1, fd := 5, flags := 1, enabled := true } rfl rfl rfl rfl (by decide)⟩

/-- C26 fails after a failed send: on the example transport with both
credential flags pending and both directions permitted, the credential send
fails and `do_io_error` disconnects the transport (both watches freed, the
descriptor 5 closed, `fd = -1`); `exchange_credentials` then still calls
`_dbus_read_credentials_unix_socket`, on the descriptor -1.  Both flags stay
pending, neither operation having succeeded. -/
theorem C26_credential_read_after_disconnect :
    (exchange_credentials example_env_no_credentials true true example_world_credentials).trace
      = [.send_credentials 5 false,
         .remove_watch 1, .watch_invalidate 1, .watch_unref 1,
         .remove_watch 2, .watch_invalidate 2, .watch_unref 2,
         .sock_close 5,
         .read_credentials (-1) false] ∧
    (exchange_credentials example_env_no_credentials true true
        example_world_credentials).t.disconnected = true ∧
    (exchange_credentials example_env_no_credentials true true
        example_world_credentials).t.send_credentials_pending = true ∧
    (exchange_credentials example_env_no_credentials true true
        example_world_credentials).t.receive_credentials_pending = true := by
  decide!

/-- C27: `handle_introspect` appends the introspection XML to the request it
was called with, sends that request and drops its reference; the reply built by
`dbus_message_new_method_return` is never appended to, sent or unreferenced.
Whenever the handler returns, it has made exactly one call of
`dbus_connection_send`, on the request, right after appending the XML to the
request. -/
theorem C27_introspection_sent_on_request (env : IntrospectEnv) :
    (∀ e ∈ (handle_introspect env).2, e.used_message ≠ some MessageRef.reply) ∧
    (∀ r, (handle_introspect env).1 = some r →
      r = DBusHandlerResult.handled ∧
      ((handle_introspect env).2.filter GEvent.is_send = [GEvent.connection_send .request]) ∧
      ∃ path children, env.path = some path ∧ env.children path = some children ∧
        (handle_introspect env).2
          = [.message_get_path_decomposed .request true,
             .connection_list_registered path true,
             .message_new_method_return .request true,
             .message_append_args .request (introspect_xml env children),
             .connection_send .request,
             .message_unref .request,
             .free_string_array path,
             .free_string_array children]) := by
  unfold handle_introspect
  cases hp : env.path with
  | none => simp [GEvent.used_message]
  | some path =>
    cases hc : env.children path with
    | none => simp [hc, GEvent.used_message]
    | some children =>
      cases hr : env.reply with
      | false => simp [hc, hr, GEvent.used_message]
      | true => simp [hc, hr, GEvent.used_message, GEvent.is_send]

/-- C27 on the example object: the handler returns, and the request carries the
XML of the interface `org.gtk.objects.Widget` with `set_FooBar` and
`get_FooBar` and of the child node. -/
theorem C27_witness :
    (handle_introspect example_introspect_env).1 = some DBusHandlerResult.handled ∧
    (handle_introspect example_introspect_env).2.filter GEvent.is_send
      = [GEvent.connection_send .request] ∧
    (handle_introspect example_introspect_env).2.filterMap GEvent.used_message
      = [MessageRef.request, MessageRef.request, MessageRef.request] ∧
    introspect_xml example_introspect_env [c_string "child"]
      = c_string ("<node>\n  <interface name=\"org.gtk.objects.Widget\">\n" ++
          "    <method name=\"set_FooBar\">\n      <arg type=\"int32\"/>\n" ++
          "    <method name=\"get_FooBar\">\n      <arg type=\"int32\" direction=\"out\"/>\n" ++
          "  </interface>\n  <node name=\"child\"/>\n</node>\n") :=
  ⟨by decide,
    ((C27_introspection_sent_on_request example_introspect_env).2
      DBusHandlerResult.handled (by decide)).2.1,
    by decide, by decide!⟩

/-- C28: on an authenticated transport with read budget
`M = max_bytes_read_per_iteration ≥ 0`, with a socket whose reads deliver at
most `M` bytes when asked for `M`, `do_reading` returns once it may go through
`M + 1` passes of its loop (any further fuel is not used up); in the call at
most `M + 1` socket reads deliver bytes, and the socket reads deliver at most
`2 * M` bytes altogether. -/
theorem C28_do_reading_within_budget (env : Env) (w : World) (M extra : Nat)
    (ha : w.t.authenticated = true) (hM : w.t.max_bytes_read_per_iteration = (M : Int))
    (hb : ReadsBounded env (M : Int)) :
    ∃ w1 r evs, do_reading env (M + 1 + extra) w = some (w1, r) ∧
      w1.trace = w.trace ++ evs ∧
      evs.countP Event.is_positive_read ≤ M + 1 ∧
      socket_bytes_read evs ≤ 2 * M := by
  obtain ⟨w1, oom, evs, hloop, htr, _, hin, _⟩ :=
    do_reading_loop_budget env M hb (M + 1 + extra) w 0 hM (le_refl 0)
      (by push_cast; omega)
  obtain ⟨hc, hbytes⟩ := hin (Int.ofNat_nonneg M)
  refine ⟨w1, !oom, evs, ?_, htr, by omega, by omega⟩
  unfold do_reading
  simp only [_dbus_transport_get_is_authenticated, ha, if_true, Bool.not_true,
    Bool.false_eq_true, if_false, hloop]

/-- Witness for C28: the authenticated example transport with a budget of 2
bytes, on a socket that fills every buffer: two reads of 2 bytes each, 4 bytes
in all, which is `2 * M`. -/
theorem C28_witness :
    ReadsBounded example_env_stream ((2 : Nat) : Int) ∧
    (do_reading example_env_stream 3 example_world_small_budget).map
        (fun p => p.1.trace.filter Event.is_socket_read)
      = some [.sock_read 5 2 (.data [7, 7]), .sock_read 5 2 (.data [7, 7])] ∧
    ∃ w1 r evs, do_reading example_env_stream (2 + 1 + 0) example_world_small_budget
        = some (w1, r) ∧
      w1.trace = example_world_small_budget.trace ++ evs ∧
      evs.countP Event.is_positive_read ≤ 2 + 1 ∧
      socket_bytes_read evs ≤ 2 * 2 :=
  have hb : ReadsBounded example_env_stream ((2 : Nat) : Int) := by
    intro tr bs h
    simp only [example_env_stream, ReadResult.data.injEq] at h
    rw [← h]
    simp
  ⟨hb, by decide!,
   C28_do_reading_within_budget example_env_stream example_world_small_budget 2 0 rfl rfl hb⟩

/-- C29 fails on the decode failure path: on the authenticated example
transport whose auth engine needs decoding, a read of two bytes is followed by
a borrow of the loader's buffer and a decode that fails out of memory;
`do_reading` returns FALSE with the buffer borrowed once and never returned.
The undecoded bytes stay in `encoded_incoming`, so the next call borrows the
buffer again, still without a return in between. -/
theorem C29_decode_oom_keeps_loader_buffer :
    (do_reading example_env_decode_oom 3 example_world_encoding).map
        (fun p => (p.2, p.1.t.encoded_incoming, p.1.trace))
      = some (false, [7, 7],
              [.toggle_watch 1 true, .sock_read 5 2048 (.data [7, 7]),
               .loader_get_buffer, .auth_decode [7, 7] false]) ∧
    (do_reading example_env_decode_oom 3 example_world_encoding).map
        (fun p => ((p.1.trace.filter Event.is_loader_get).length,
                   (p.1.trace.filter Event.is_loader_return).length))
      = some (1, 0) ∧
    ((do_reading example_env_decode_oom 3 example_world_encoding).bind
        (fun p => do_reading example_env_decode_oom 3 p.1)).map
        (fun p => p.1.trace.filter (fun e => e.is_loader_get || e.is_loader_return))
      = some [.loader_get_buffer, .loader_get_buffer] := by
  decide!

/-- C30: when `_dbus_transport_new_for_fd` finds no memory for the transport,
`_dbus_transport_new_for_tcp_socket` returns NULL having closed the connected
descriptor once and freed the temporary address string twice (lines 1146 and
1150), where `_dbus_transport_new_for_domain_socket` on the same path closes
once and frees once. -/
theorem C30_tcp_address_freed_twice :
    ((_dbus_transport_new_for_tcp_socket example_ctor_env_no_transport "localhost" 4242).1 = none ∧
      (_dbus_transport_new_for_tcp_socket example_ctor_env_no_transport "localhost" 4242).2
        = [.string_init .address true, .string_append "tcp:host=" true,
            .string_append "localhost" true, .string_append ",port=" true,
            .string_append_int 4242 true, .connect_tcp_socket "localhost" 4242 7,
            .fd_set_close_on_exec 7, .transport_alloc false, .set_error_no_memory,
            .close 7, .string_free .address, .string_free .address] ∧
      ((_dbus_transport_new_for_tcp_socket example_ctor_env_no_transport "localhost" 4242).2.filter
          CtorEvent.is_address_free).length = 2 ∧
      ((_dbus_transport_new_for_tcp_socket example_ctor_env_no_transport "localhost" 4242).2.filter
          CtorEvent.is_close).length = 1) ∧
    ((_dbus_transport_new_for_domain_socket example_ctor_env_no_transport "/tmp/bus" false).1
        = none ∧
      (_dbus_transport_new_for_domain_socket example_ctor_env_no_transport "/tmp/bus" false).2
        = [.string_init .address true, .string_append "unix:path=" true,
            .string_append "/tmp/bus" true, .connect_unix_socket "/tmp/bus" false 7,
            .fd_set_close_on_exec 7, .transport_alloc false, .set_error_no_memory,
            .close 7, .string_free .address] ∧
      ((_dbus_transport_new_for_domain_socket example_ctor_env_no_transport "/tmp/bus"
          false).2.filter CtorEvent.is_address_free).length = 1 ∧
      ((_dbus_transport_new_for_domain_socket example_ctor_env_no_transport "/tmp/bus"
          false).2.filter CtorEvent.is_close).length = 1) := by
  decide

end DBus
